import Mathlib

/-!
# Pixelate: self-playing snake on a 19x19 LED matrix

A shallow embedding of `src/main.cpp` and a verification of its game rules.

Conventions of the embedding:

* machine integers are `Nat`/`Int` with explicit wrap-around: `toInt8` for every
  conversion to `int8_t`, `% 256` for `uint8_t`, `% 65536` for `uint16_t` and
  `% 4294967296` for `uint32_t`;
* the global arrays `snake[]` and `particles[].life` are functions of the index;
* the global variables form one record `State` that every routine transforms;
* the unbounded `while` loop of `spawnFood` takes a fuel argument and returns
  `none` when the fuel runs out; `spawnFood_terminates` shows that enough fuel
  exists for every seed and every snake that leaves an interior cell free;
* the frame buffer `leds[]` is write-only for the game logic and is not a part
  of `State`; of the floating point particle physics only the effect on the
  generator and on the `life` counters is kept, the float comparison that
  guards the sparkle draw being an input (`vis`) of a tick.
-/

namespace Pixelate

/-! ## Constants -/

def kMatrixWidth : Nat := 19
def kMatrixHeight : Nat := 19
def NUM_LEDS : Nat := kMatrixWidth * kMatrixHeight
def MAX_SNAKE_LENGTH : Nat := 200
def MAX_PARTICLES : Nat := 50

/-! ## Machine integers -/

/-- Conversion of an `int` to `int8_t` (two's complement wrap-around). -/
def toInt8 (z : Int) : Int := (z + 128) % 256 - 128

/-- Conversion of an `int` to `uint8_t`. -/
def toUInt8 (z : Int) : Nat := (z % 256).toNat

/-- Conversion of an `int` to `uint16_t`. -/
def toUInt16 (z : Int) : Nat := (z % 65536).toNat

/-- The `abs` of the source, applied to an `int`: `((x) > 0 ? (x) : -(x))`. -/
def cAbs (z : Int) : Int := if z > 0 then z else -z

/-! ## Data model -/

/-- The `struct Point` of the source: two `int8_t` coordinates. -/
structure Point where
  x : Int
  y : Int
  deriving DecidableEq, Repr, Inhabited

/-- The `enum GameState` of the source. -/
inductive GameState where
  | PLAYING
  | EATING
  | GAME_OVER
  | RESTARTING
  deriving DecidableEq, Repr, Inhabited

/-- The global variables of the program that the game logic reads and writes. -/
structure State where
  /-- The generator state, `uint32_t rngSeed`. -/
  rngSeed : Nat
  /-- The body, `Point snake[MAX_SNAKE_LENGTH]`; index 0 is the head. -/
  snake : Nat → Point
  /-- The number of segments, `uint8_t snakeLength`. -/
  snakeLength : Nat
  /-- The food cell, `Point food`. -/
  food : Point
  /-- The heading, `Point direction`. -/
  direction : Point
  /-- The phase, `GameState gameState`. -/
  gameState : GameState
  /-- The animation timer, `uint8_t animTimer`. -/
  animTimer : Nat
  /-- The frames between two moves, `uint8_t moveDelay`. -/
  moveDelay : Nat
  /-- The frames since the last move, `uint8_t frameCounter`. -/
  frameCounter : Nat
  /-- The life counters `particles[i].life`, each a `uint8_t`. -/
  life : Nat → Nat

/-- The well-typed states: every variable holds a value of its C type. -/
structure State.WellTyped (s : State) : Prop where
  seed_lt : s.rngSeed < 4294967296
  len_lt : s.snakeLength < 256
  anim_lt : s.animTimer < 256
  delay_lt : s.moveDelay < 256
  frame_lt : s.frameCounter < 256

/-! ## Pseudo-random numbers (lines 17-26) -/

/-- The new value of `rngSeed` after one call of `myRandom`. -/
def lcg (seed : Nat) : Nat := ((seed * 1103515245 + 12345) % 4294967296) &&& 0x7FFFFFFF

/-- The `myRandom(maxVal)` of the source: the value returned and the new seed. -/
def myRandom (maxVal : Nat) (seed : Nat) : Nat × Nat :=
  ((lcg seed % maxVal) % 65536, lcg seed)

/-- The `myRandom(minVal, maxVal)` of the source: the value returned and the new seed. -/
def myRandom2 (minVal maxVal : Nat) (seed : Nat) : Nat × Nat :=
  let r := myRandom (toUInt16 ((maxVal : Int) - (minVal : Int))) seed
  ((minVal + r.1) % 65536, r.2)

/-! ## Food (lines 97-113) -/

/-- The `for` loop of `spawnFood`: is some segment `i < snakeLength` on the food cell? -/
def foodOnSnake (s : State) : Bool :=
  (List.range s.snakeLength).any
    (fun i => decide ((s.snake i).x = s.food.x ∧ (s.snake i).y = s.food.y))

/-- The `spawnFood` of the source; each unit of fuel pays for one round of the `while` loop. -/
def spawnFood : Nat → State → Option State
  | 0, _ => none
  | fuel + 1, s =>
    let rx := myRandom2 1 (kMatrixWidth - 1) s.rngSeed
    let ry := myRandom2 1 (kMatrixHeight - 1) rx.2
    let s1 := { s with food := ⟨toInt8 rx.1, toInt8 ry.1⟩, rngSeed := ry.2 }
    if foodOnSnake s1 then spawnFood fuel s1 else some s1

/-! ## Initialisation (lines 83-95) -/

/-- The `for` loop of `initSnake` that clears `particles[i].life` for `i < n`. -/
def clearLife : Nat → (Nat → Nat) → (Nat → Nat)
  | 0, l => l
  | n + 1, l => Function.update (clearLife n l) n 0

/-- The `initSnake` of the source. -/
def initSnake (fuel : Nat) (s : State) : Option State :=
  let s1 := { s with snakeLength := 3 }
  let s2 := { s1 with snake := Function.update s1.snake 0 ⟨9, 9⟩ }
  let s3 := { s2 with snake := Function.update s2.snake 1 ⟨8, 9⟩ }
  let s4 := { s3 with snake := Function.update s3.snake 2 ⟨7, 9⟩ }
  let s5 := { s4 with direction := ⟨1, 0⟩ }
  (spawnFood fuel s5).map (fun s6 => { s6 with life := clearLife MAX_PARTICLES s6.life })

/-! ## Occupancy (lines 115-139) -/

/-- The `isOccupied` of the source. -/
def isOccupied (s : State) (x y : Int) : Bool :=
  if x ≤ 0 ∨ x ≥ (kMatrixWidth : Int) - 1 ∨ y ≤ 0 ∨ y ≥ (kMatrixHeight : Int) - 1 then true
  else (List.range (s.snakeLength - 1)).any
    (fun i => decide ((s.snake i).x = x ∧ (s.snake i).y = y))

/-- The `countFreeSpaces` of the source. -/
def countFreeSpaces (s : State) (x y : Int) : Nat :=
  let c0 := 0
  let c1 := if !isOccupied s (toInt8 (x + 1)) y then (c0 + 1) % 256 else c0
  let c2 := if !isOccupied s (toInt8 (x - 1)) y then (c1 + 1) % 256 else c1
  let c3 := if !isOccupied s x (toInt8 (y + 1)) then (c2 + 1) % 256 else c2
  let c4 := if !isOccupied s x (toInt8 (y - 1)) then (c3 + 1) % 256 else c3
  c4

/-! ## The autoplay heuristic (lines 141-216) -/

/-- The table `moves[4]` (and `emergency[4]`): Right, Left, Down, Up. -/
def moves : List Point := [⟨1, 0⟩, ⟨-1, 0⟩, ⟨0, 1⟩, ⟨0, -1⟩]

/-- The cell `snake[0] + m`, each coordinate converted to `int8_t`. -/
def nextPos (s : State) (m : Point) : Point :=
  ⟨toInt8 ((s.snake 0).x + m.x), toInt8 ((s.snake 0).y + m.y)⟩

/-- The two `continue` tests of the scoring loop: the move goes into the neck or
into an occupied cell. -/
def rejected (s : State) (m : Point) : Bool :=
  (decide (s.snakeLength > 1) && decide ((nextPos s m).x = (s.snake 1).x ∧ (nextPos s m).y = (s.snake 1).y))
    || isOccupied s (nextPos s m).x (nextPos s m).y

/-- The score of a move that is not rejected, before the jitter is added
(lines 173-195), in `int8_t` arithmetic. -/
def baseScore (s : State) (m : Point) : Int :=
  let dx := toInt8 (s.food.x - (s.snake 0).x)
  let dy := toInt8 (s.food.y - (s.snake 0).y)
  let np := nextPos s m
  let sc0 : Int := 0
  let newDx := toInt8 (s.food.x - np.x)
  let newDy := toInt8 (s.food.y - np.y)
  let oldDist := toInt8 (cAbs dx + cAbs dy)
  let newDist := toInt8 (cAbs newDx + cAbs newDy)
  let sc1 := if newDist < oldDist then toInt8 (sc0 + 30) else toInt8 (sc0 - 10)
  let freeSpaces := countFreeSpaces s np.x np.y
  let sc2 := toInt8 (sc1 + ((freeSpaces * 8 : Nat) : Int))
  let centerX := toInt8 ((kMatrixWidth / 2 : Nat) : Int)
  let centerY := toInt8 ((kMatrixHeight / 2 : Nat) : Int)
  let distFromCenter := toInt8 (cAbs (np.x - centerX) + cAbs (np.y - centerY))
  toInt8 (sc2 - Int.tdiv distFromCenter 2)

/-- One round of the scoring loop for the move `m`: the score stored in
`scores[i]` and the seed afterwards. -/
def scoreMove (s : State) (m : Point) (seed : Nat) : Int × Nat :=
  if rejected s m then (-100, seed)
  else
    let r := myRandom 5 seed
    (toInt8 (baseScore s m + (r.1 : Int)), r.2)

/-- The scoring loop over a list of moves: the scores in order and the final seed. -/
def scoreMoves (s : State) : List Point → Nat → List Int × Nat
  | [], seed => ([], seed)
  | m :: ms, seed =>
    let r := scoreMove s m seed
    let rest := scoreMoves s ms r.2
    (r.1 :: rest.1, rest.2)

/-- The "find best move" loop: `(bestScore, bestMove)` after scanning the scores
from index `i` on. -/
def findBest : List Int → Nat → Int × Int → Int × Int
  | [], _, acc => acc
  | sc :: scs, i, acc =>
    if sc > acc.1 then findBest scs (i + 1) (sc, (i : Int))
    else findBest scs (i + 1) acc

/-- The value of `bestMove` at line 212. -/
def bestMove (s : State) : Int :=
  (findBest (scoreMoves s moves s.rngSeed).1 0 (-100, -1)).2

/-- The `smartDirection` of the source. -/
def smartDirection (s : State) : State :=
  let sc := scoreMoves s moves s.rngSeed
  let best := findBest sc.1 0 (-100, -1)
  let s1 := { s with rngSeed := sc.2 }
  if best.2 ≥ 0 then { s1 with direction := moves.getD best.2.toNat default } else s1

/-! ## Movement (lines 218-287) -/

/-- The loop `for (int i = start; i > 0; i--) snake[i] = snake[i - 1];`. -/
def shiftSnake : Nat → (Nat → Point) → (Nat → Point)
  | 0, sn => sn
  | i + 1, sn => shiftSnake i (Function.update sn (i + 1) (sn i))

/-- The emergency scan of lines 228-242: the first move of the table whose cell
is not occupied. -/
def emergencyScan (s : State) : List Point → Option Point
  | [] => none
  | m :: ms =>
    if !isOccupied s (nextPos s m).x (nextPos s m).y then some m else emergencyScan s ms

/-- Lines 219-249: the cell the head moves to and the heading after the
collision check, or `none` when no escape is found. -/
def resolveHead (s : State) : Option (Point × Point) :=
  let newHead := nextPos s s.direction
  if isOccupied s newHead.x newHead.y then
    match emergencyScan s moves with
    | some m => some (nextPos s m, m)
    | none => none
  else some (newHead, s.direction)

/-- Lines 270-271: `snakeLength++` and the clamp to `MAX_SNAKE_LENGTH - 1`. -/
def growLength (len : Nat) : Nat :=
  let l := (len + 1) % 256
  if l ≥ MAX_SNAKE_LENGTH then MAX_SNAKE_LENGTH - 1 else l

/-- The `moveSnake` of the source. -/
def moveSnake (fuel : Nat) (s : State) : Option State :=
  match resolveHead s with
  | none => some { s with gameState := GameState.GAME_OVER, animTimer := 0 }
  | some (newHead, dir) =>
    let s1 := { s with direction := dir }
    if newHead.x = s1.food.x ∧ newHead.y = s1.food.y then
      let s2 := { s1 with gameState := GameState.EATING, animTimer := 0 }
      let s3 := { s2 with snake := shiftSnake s2.snakeLength s2.snake }
      let s4 := { s3 with snakeLength := growLength s3.snakeLength }
      if s4.snakeLength ≥ 18 then
        some { s4 with gameState := GameState.GAME_OVER, animTimer := 0 }
      else
        spawnFood fuel { s4 with snake := Function.update s4.snake 0 newHead }
    else
      let s2 := { s1 with snake := shiftSnake (s1.snakeLength - 1) s1.snake }
      some { s2 with snake := Function.update s2.snake 0 newHead }

/-! ## Fireworks (lines 336-414): the effect on the generator and on `life` -/

/-- The launch loop of lines 342-360 for the particles `i < n`: one `myRandom(100)`
each, and `life = 255`. -/
def launchParticles : Nat → State → State
  | 0, s => s
  | n + 1, s =>
    let s1 := launchParticles n s
    { s1 with rngSeed := (myRandom 100 s1.rngSeed).2, life := Function.update s1.life n 255 }

/-- One round of the update loop of lines 364-397 for particle `i`; `vis i` is the
outcome of the bounds test of line 380 on the particle's (floating point) position. -/
def updateParticle (vis : Nat → Bool) (i : Nat) (s : State) : State :=
  if s.life i > 0 then
    let s1 := { s with life := Function.update s.life i (toUInt8 ((s.life i : Int) - 3)) }
    if vis i then
      let r := myRandom 3 s1.rngSeed
      if r.1 = 0 then
        let r1 := myRandom 3 r.2
        let r2 := myRandom 3 r1.2
        { s1 with rngSeed := r2.2 }
      else { s1 with rngSeed := r.2 }
    else s1
  else s

/-- The update loop of lines 364-397 for the particles `i < n`. -/
def updateParticles (vis : Nat → Bool) : Nat → State → State
  | 0, s => s
  | n + 1, s => updateParticle vis n (updateParticles vis n s)

/-- The secondary burst of lines 401-412 for the particles `i < n`: `myRandom(360)`,
`myRandom(100)` and `life = 200`. -/
def secondBurst : Nat → State → State
  | 0, s => s
  | n + 1, s =>
    let s1 := secondBurst n s
    let r := myRandom 360 s1.rngSeed
    let r1 := myRandom 100 r.2
    { s1 with rngSeed := r1.2, life := Function.update s1.life n 200 }

/-- The `drawGameOver` of the source, as far as `rngSeed` and `life` go. -/
def drawGameOver (vis : Nat → Bool) (s : State) : State :=
  let s1 := if s.animTimer = 0 then launchParticles MAX_PARTICLES s else s
  let s2 := updateParticles vis MAX_PARTICLES s1
  if s2.animTimer = 15 then secondBurst (MAX_PARTICLES / 2) s2 else s2

/-! ## The main loop (lines 419-483) -/

/-- The initial values of the global variables, with `rngSeed = millis()`. -/
def bootState (seed : Nat) : State :=
  { rngSeed := seed
    snake := fun _ => ⟨0, 0⟩
    snakeLength := 3
    food := ⟨0, 0⟩
    direction := ⟨1, 0⟩
    gameState := GameState.PLAYING
    animTimer := 0
    moveDelay := 8
    frameCounter := 0
    life := fun _ => 0 }

/-- The `setup` of the source: seed the generator and call `initSnake`. -/
def setup (fuel : Nat) (seed : Nat) : Option State :=
  initSnake fuel (bootState seed)

/-- The `case PLAYING` of `loop`, entered with the frame counter incremented. -/
def playingTick (fuel : Nat) (s0 : State) : Option State :=
  if s0.frameCounter ≥ s0.moveDelay then
    let s1 := smartDirection s0
    let s2 := { s1 with frameCounter := 0 }
    moveSnake fuel s2
  else some s0

/-- The `case EATING` of `loop`. -/
def eatingTick (s0 : State) : State :=
  let s1 := { s0 with animTimer := (s0.animTimer + 1) % 256 }
  if s1.animTimer > 3 then
    let s2 := { s1 with gameState := GameState.PLAYING, animTimer := 0 }
    if s2.moveDelay > 5 ∧ s2.snakeLength % 5 = 0 then
      { s2 with moveDelay := toUInt8 ((s2.moveDelay : Int) - 1) }
    else s2
  else s1

/-- The `case GAME_OVER` of `loop`. -/
def gameOverTick (vis : Nat → Bool) (s0 : State) : State :=
  let s1 := drawGameOver vis s0
  let s2 := { s1 with animTimer := (s1.animTimer + 1) % 256 }
  if s2.animTimer > 60 then
    { s2 with gameState := GameState.RESTARTING, animTimer := 0 }
  else s2

/-- The `case RESTARTING` of `loop`. -/
def restartingTick (fuel : Nat) (s0 : State) : Option State :=
  let s1 := { s0 with animTimer := (s0.animTimer + 1) % 256 }
  if s1.animTimer > 20 then
    (initSnake fuel s1).map
      (fun s2 => { s2 with gameState := GameState.PLAYING, animTimer := 0,
                           frameCounter := 0, moveDelay := 8 })
  else some s1

/-- The `loop` of the source: one tick. -/
def loop (fuel : Nat) (vis : Nat → Bool) (s : State) : Option State :=
  let s0 := { s with frameCounter := (s.frameCounter + 1) % 256 }
  match s0.gameState with
  | GameState.PLAYING => playingTick fuel s0
  | GameState.EATING => some (eatingTick s0)
  | GameState.GAME_OVER => some (gameOverTick vis s0)
  | GameState.RESTARTING => restartingTick fuel s0

/-- The states the program can be in at the end of `setup` or of a tick. -/
inductive Reachable : State → Prop
  | boot (fuel seed : Nat) (s : State) :
      seed < 4294967296 → setup fuel seed = some s → Reachable s
  | tick (fuel : Nat) (vis : Nat → Bool) (s s' : State) :
      Reachable s → loop fuel vis s = some s' → Reachable s'

/-! ## The display (lines 14, 49-54, 69-74) -/

/-- The `CRGB` of FastLED: three 8-bit colour channels. -/
structure CRGB where
  r : Nat
  g : Nat
  b : Nat
  deriving DecidableEq, Repr, Inhabited

def snakeHeadColor : CRGB := ⟨255, 215, 0⟩
def snakeBodyColor : CRGB := ⟨0, 180, 50⟩
def foodColor : CRGB := ⟨255, 50, 0⟩
def bgColor : CRGB := ⟨0, 0, 0⟩
def wallColor : CRGB := ⟨30, 30, 100⟩

/-- The routines of FastLED and Arduino that the rendering calls and whose code is
not a part of the program; they are parameters of the embedding. -/
structure Lib where
  /-- The `CRGB::nscale8(scale)` of FastLED. -/
  nscale8 : CRGB → Nat → CRGB
  /-- The `beatsin8(bpm, low, high)` of FastLED; its last argument here is the
  wall-clock value that the routine reads. -/
  beatsin8 : Nat → Nat → Nat → Nat → Nat
  /-- The `map(value, fromLow, fromHigh, toLow, toHigh)` of Arduino. -/
  map : Int → Int → Int → Int → Int → Int

/-- The `fill_solid(leds, n, colour)` of FastLED: the first `n` pixels take the colour. -/
def fill_solid (leds : Nat → CRGB) (n : Nat) (c : CRGB) : Nat → CRGB :=
  fun i => if i < n then c else leds i

/-- The `XY` of the source; `sim` is the compile-time switch `IS_SIMULATOR`, the
arguments are `uint8_t`. -/
def XY (sim : Bool) (x y : Nat) : Nat :=
  if x ≥ kMatrixWidth ∨ y ≥ kMatrixHeight then NUM_LEDS
  else if sim then (y * kMatrixWidth) + x
  else if y % 2 = 0 then (y * kMatrixWidth) + x
  else (y * kMatrixWidth) + (18 - x)

/-- The assignments `leds[index] = colour` of a list, applied in order. -/
def applyWrites (leds : Nat → CRGB) : List (Nat × CRGB) → (Nat → CRGB)
  | [] => leds
  | w :: ws => applyWrites (Function.update leds w.1 w.2) ws

/-! ## Rendering of the board (lines 289-334) -/

/-- The assignments of the two wall loops of `drawGame` (lines 294-301). -/
def wallWrites (sim : Bool) : List (Nat × CRGB) :=
  (List.range kMatrixWidth).flatMap
      (fun x => [(XY sim x 0, wallColor), (XY sim x (kMatrixHeight - 1), wallColor)])
    ++ (List.range kMatrixHeight).flatMap
      (fun y => [(XY sim 0 y, wallColor), (XY sim (kMatrixWidth - 1) y, wallColor)])

/-- The assignment of the food pixel (lines 304-307); `clock` is the wall clock. -/
def foodWrite (lib : Lib) (sim : Bool) (clock : Nat) (s : State) : Nat × CRGB :=
  (XY sim (toUInt8 s.food.x) (toUInt8 s.food.y),
    lib.nscale8 foodColor (lib.beatsin8 30 100 255 clock % 256))

/-- The assignments of the body loop (lines 310-316), for `i = 1 .. snakeLength - 1`. -/
def bodyWrites (lib : Lib) (sim : Bool) (s : State) : List (Nat × CRGB) :=
  (List.range' 1 (s.snakeLength - 1)).map
    (fun i => (XY sim (toUInt8 (s.snake i).x) (toUInt8 (s.snake i).y),
      lib.nscale8 snakeBodyColor (toUInt8 (lib.map (i : Int) 1 (s.snakeLength : Int) 255 100))))

/-- The assignment of the head pixel (line 319). -/
def headWrite (sim : Bool) (s : State) : Nat × CRGB :=
  (XY sim (toUInt8 (s.snake 0).x) (toUInt8 (s.snake 0).y), snakeHeadColor)

/-- All the assignments of `drawGame` after the background fill, in order. -/
def drawGameWrites (lib : Lib) (sim : Bool) (clock : Nat) (s : State) : List (Nat × CRGB) :=
  wallWrites sim ++ [foodWrite lib sim clock s] ++ bodyWrites lib sim s ++ [headWrite sim s]

/-- The frame buffer after `drawGame`. -/
def drawGame (lib : Lib) (sim : Bool) (clock : Nat) (s : State) (leds : Nat → CRGB) :
    Nat → CRGB :=
  applyWrites (fill_solid leds NUM_LEDS bgColor) (drawGameWrites lib sim clock s)

/-- The assignments of the flash loops of `drawEatingEffect` (lines 325-333). -/
def flashWrites (sim : Bool) (s : State) : List (Nat × CRGB) :=
  ([-1, 0, 1] : List Int).flatMap (fun dx =>
    ([-1, 0, 1] : List Int).flatMap (fun dy =>
      let x := toInt8 ((s.snake 0).x + dx)
      let y := toInt8 ((s.snake 0).y + dy)
      if x ≥ 0 ∧ x < (kMatrixWidth : Int) ∧ y ≥ 0 ∧ y < (kMatrixHeight : Int) then
        [(XY sim (toUInt8 x) (toUInt8 y), (⟨255, 200, 0⟩ : CRGB))]
      else []))

/-- The frame buffer after `drawEatingEffect`. -/
def drawEatingEffect (lib : Lib) (sim : Bool) (clock : Nat) (s : State) (leds : Nat → CRGB) :
    Nat → CRGB :=
  applyWrites (drawGame lib sim clock s leds) (flashWrites sim s)

/-! ## The whole machine: game variables, particle physics and frame buffer -/

/-- The floating point arithmetic that the fireworks use. Its operations are not a
part of the program; they are parameters of the embedding, and every theorem
about the machine holds for every choice of them. -/
structure FloatOps (F : Type) where
  /-- Conversion of an integer to floating point. -/
  ofNat : Nat → F
  /-- The decimal literal `m / 10^d`. -/
  lit : Nat → Nat → F
  add : F → F → F
  mul : F → F → F
  div : F → F → F
  cos : F → F
  sin : F → F
  /-- The conversion `(int8_t)` of a floating point value. -/
  toInt8 : F → Int

/-- The global variables of the program: the game variables of `State`, the fields
`x`, `y`, `vx`, `vy` and `color` of `particles[]`, and the frame buffer `leds[]`. -/
structure Machine (F : Type) where
  game : State
  x : Nat → F
  y : Nat → F
  vx : Nat → F
  vy : Nat → F
  color : Nat → CRGB
  leds : Nat → CRGB

/-- The rainbow colour of particle `i` (lines 353-357). -/
def rainbow (i : Nat) : CRGB :=
  if i % 5 = 0 then ⟨255, 0, 0⟩
  else if i % 5 = 1 then ⟨255, 165, 0⟩
  else if i % 5 = 2 then ⟨255, 255, 0⟩
  else if i % 5 = 3 then ⟨0, 255, 0⟩
  else ⟨0, 100, 255⟩

/-- One round of the launch loop (lines 343-359) for particle `i`. -/
def launchStep {F : Type} (ops : FloatOps F) (i : Nat) (m : Machine F) : Machine F :=
  let angle := ops.mul (ops.div (ops.mul (ops.ofNat i) (ops.lit 3600 1)) (ops.ofNat MAX_PARTICLES))
    (ops.lit 174533 7)
  let r := myRandom 100 m.game.rngSeed
  let speed := ops.add (ops.lit 3 1)
    (ops.mul (ops.div (ops.ofNat r.1) (ops.lit 1000 1)) (ops.lit 4 1))
  { m with
    game := { m.game with rngSeed := r.2, life := Function.update m.game.life i 255 }
    x := Function.update m.x i (ops.div (ops.ofNat kMatrixWidth) (ops.lit 20 1))
    y := Function.update m.y i (ops.div (ops.ofNat kMatrixHeight) (ops.lit 20 1))
    vx := Function.update m.vx i (ops.mul (ops.cos angle) speed)
    vy := Function.update m.vy i (ops.mul (ops.sin angle) speed)
    color := Function.update m.color i (rainbow i) }

/-- The launch loop of lines 342-360 for the particles `i < n`. -/
def launchAll {F : Type} (ops : FloatOps F) : Nat → Machine F → Machine F
  | 0, m => m
  | n + 1, m => launchStep ops n (launchAll ops n m)

/-- The bounds test of lines 380 and 389 on a pixel position. -/
def onMatrix (px py : Int) : Bool :=
  decide (px ≥ 0 ∧ px < (kMatrixWidth : Int) ∧ py ≥ 0 ∧ py < (kMatrixHeight : Int))

/-- One round of the update loop (lines 365-396) for particle `i`. -/
def updateStep {F : Type} (ops : FloatOps F) (lib : Lib) (sim : Bool) (i : Nat)
    (m : Machine F) : Machine F :=
  if m.game.life i > 0 then
    let x1 := ops.add (m.x i) (m.vx i)
    let y1 := ops.add (m.y i) (m.vy i)
    let vy1 := ops.add (m.vy i) (ops.lit 5 2)
    let life1 := toUInt8 ((m.game.life i : Int) - 3)
    let m1 : Machine F := { m with
      game := { m.game with life := Function.update m.game.life i life1 }
      x := Function.update m.x i x1
      y := Function.update m.y i y1
      vy := Function.update m.vy i vy1 }
    let px := toInt8 (ops.toInt8 x1)
    let py := toInt8 (ops.toInt8 y1)
    if onMatrix px py then
      let color := lib.nscale8 (m1.color i) life1
      let m2 : Machine F :=
        { m1 with leds := Function.update m1.leds (XY sim (toUInt8 px) (toUInt8 py)) color }
      let r := myRandom 3 m2.game.rngSeed
      if r.1 = 0 then
        let r1 := myRandom 3 r.2
        let tx := toInt8 (px + (r1.1 : Int) - 1)
        let r2 := myRandom 3 r1.2
        let ty := toInt8 (py + (r2.1 : Int) - 1)
        let m3 : Machine F := { m2 with game := { m2.game with rngSeed := r2.2 } }
        let trail := lib.nscale8 color (life1 / 2)
        if onMatrix tx ty then
          { m3 with leds := Function.update m3.leds (XY sim (toUInt8 tx) (toUInt8 ty)) trail }
        else m3
      else { m2 with game := { m2.game with rngSeed := r.2 } }
    else m1
  else m

/-- The update loop of lines 364-397 for the particles `i < n`. -/
def updateAll {F : Type} (ops : FloatOps F) (lib : Lib) (sim : Bool) :
    Nat → Machine F → Machine F
  | 0, m => m
  | n + 1, m => updateStep ops lib sim n (updateAll ops lib sim n m)

/-- One round of the secondary burst (lines 402-411) for particle `i`. -/
def burstStep {F : Type} (ops : FloatOps F) (i : Nat) (m : Machine F) : Machine F :=
  let r := myRandom 360 m.game.rngSeed
  let angle := ops.mul (ops.ofNat r.1) (ops.lit 174533 7)
  let r1 := myRandom 100 r.2
  let speed := ops.add (ops.lit 2 1)
    (ops.mul (ops.div (ops.ofNat r1.1) (ops.lit 1000 1)) (ops.lit 3 1))
  { m with
    game := { m.game with rngSeed := r1.2, life := Function.update m.game.life i 200 }
    x := Function.update m.x i (ops.div (ops.ofNat kMatrixWidth) (ops.lit 20 1))
    y := Function.update m.y i (ops.div (ops.ofNat kMatrixHeight) (ops.lit 20 1))
    vx := Function.update m.vx i (ops.mul (ops.cos angle) speed)
    vy := Function.update m.vy i (ops.mul (ops.sin angle) speed)
    color := Function.update m.color i ⟨255, 255, 255⟩ }

/-- The secondary burst of lines 401-412 for the particles `i < n`. -/
def burstAll {F : Type} (ops : FloatOps F) : Nat → Machine F → Machine F
  | 0, m => m
  | n + 1, m => burstStep ops n (burstAll ops n m)

/-- The `drawGameOver` of the source on the whole machine. -/
def drawGameOverM {F : Type} (ops : FloatOps F) (lib : Lib) (sim : Bool) (m : Machine F) :
    Machine F :=
  let m0 : Machine F := { m with leds := fill_solid m.leds NUM_LEDS bgColor }
  let m1 := if m0.game.animTimer = 0 then launchAll ops MAX_PARTICLES m0 else m0
  let m2 := updateAll ops lib sim MAX_PARTICLES m1
  if m2.game.animTimer = 15 then burstAll ops (MAX_PARTICLES / 2) m2 else m2

/-- The end of `case GAME_OVER` of `loop`, after `drawGameOver` (lines 459-463). -/
def gameOverStep (s1 : State) : State :=
  let s2 := { s1 with animTimer := (s1.animTimer + 1) % 256 }
  if s2.animTimer > 60 then
    { s2 with gameState := GameState.RESTARTING, animTimer := 0 }
  else s2

/-- The `loop` of the source on the whole machine: one tick; `clock` is the value
of the wall clock that `drawGame` reads during the tick. -/
def loopM {F : Type} (ops : FloatOps F) (lib : Lib) (sim : Bool) (fuel : Nat) (clock : Nat)
    (m : Machine F) : Option (Machine F) :=
  let m0 : Machine F :=
    { m with game := { m.game with frameCounter := (m.game.frameCounter + 1) % 256 } }
  match m0.game.gameState with
  | GameState.PLAYING =>
    (playingTick fuel m0.game).map
      (fun g => { m0 with game := g, leds := drawGame lib sim clock g m0.leds })
  | GameState.EATING =>
    some { m0 with
      leds := drawEatingEffect lib sim clock m0.game m0.leds
      game := eatingTick m0.game }
  | GameState.GAME_OVER =>
    let m1 := drawGameOverM ops lib sim m0
    some { m1 with game := gameOverStep m1.game }
  | GameState.RESTARTING =>
    let c : CRGB := ⟨0, 0, toUInt8 ((m0.game.animTimer : Int) * 2)⟩
    (restartingTick fuel m0.game).map
      (fun g => { m0 with game := g, leds := fill_solid m0.leds NUM_LEDS c })

/-- The machine before `setup`: the initial values of the global variables. -/
def bootMachine {F : Type} (ops : FloatOps F) (seed : Nat) : Machine F :=
  { game := bootState seed
    x := fun _ => ops.ofNat 0
    y := fun _ => ops.ofNat 0
    vx := fun _ => ops.ofNat 0
    vy := fun _ => ops.ofNat 0
    color := fun _ => ⟨0, 0, 0⟩
    leds := fun _ => ⟨0, 0, 0⟩ }

/-- The `setup` of the source on the whole machine. -/
def setupM {F : Type} (ops : FloatOps F) (fuel : Nat) (seed : Nat) : Option (Machine F) :=
  (initSnake fuel (bootMachine ops seed).game).map
    (fun g => { bootMachine ops seed with game := g })

/-- A run of the machine: `setup` with the fuel `fuel 0`, then `n` ticks, tick `t`
with the fuel `fuel (t + 1)` and the wall-clock value `clock t`. -/
def runM {F : Type} (ops : FloatOps F) (lib : Lib) (sim : Bool) (fuel clock : Nat → Nat)
    (seed : Nat) : Nat → Option (Machine F)
  | 0 => setupM ops (fuel 0) seed
  | n + 1 => (runM ops lib sim fuel clock seed n).bind (loopM ops lib sim (fuel (n + 1)) (clock n))

/-! ## Auxiliary definitions of the verification -/

/-- The cell that one round of the `while` loop of `spawnFood` draws from the seed. -/
def foodCell (seed : Nat) : Point :=
  ⟨((1 + lcg seed % 17 : Nat) : Int), ((1 + lcg (lcg seed) % 17 : Nat) : Int)⟩

/-- Some segment `i < snakeLength` lies on the cell `p`. -/
def onSnake (s : State) (p : Point) : Bool :=
  (List.range s.snakeLength).any (fun i => decide ((s.snake i).x = p.x ∧ (s.snake i).y = p.y))

/-- The cell is not on the wall ring. -/
def Interior (p : Point) : Prop := 1 ≤ p.x ∧ p.x ≤ 17 ∧ 1 ≤ p.y ∧ p.y ≤ 17

instance (p : Point) : Decidable (Interior p) :=
  inferInstanceAs (Decidable (1 ≤ p.x ∧ p.x ≤ 17 ∧ 1 ≤ p.y ∧ p.y ≤ 17))

/-- The sum `1 + a + ... + a^(n-1)` for the multiplier `a = 1103515245` of the generator. -/
def geom : Nat → Nat
  | 0 => 0
  | n + 1 => 1103515245 * geom n + 1

/-- For the parity `p` and the interior cell `(1 + x0, 1 + y0)`, at index
`(p * 17 + x0) * 17 + y0`: a generator value of parity `p` from which one round of the
`while` loop of `spawnFood` draws that cell. -/
def seedTable : List Nat :=
  [442, 306, 170, 0, 1088, 952, 816, 680, 510, 374, 238, 102, 1156, 1020, 884, 748, 578,
   970, 800, 664, 528, 392, 222, 86, 1174, 1038, 868, 732, 596, 460, 290, 154, 18, 1106,
   240, 104, 1158, 1022, 886, 750, 580, 444, 308, 172, 2, 1090, 954, 818, 682, 512, 376,
   734, 598, 462, 292, 156, 20, 1108, 938, 802, 666, 530, 394, 224, 88, 1176, 1040, 870,
   4, 1092, 956, 820, 650, 514, 378, 242, 106, 1160, 1024, 888, 752, 582, 446, 310, 174,
   532, 362, 226, 90, 1178, 1042, 872, 736, 600, 464, 294, 158, 22, 1110, 940, 804, 668,
   1026, 890, 754, 584, 448, 312, 176, 6, 1094, 958, 822, 652, 516, 380, 244, 74, 1162,
   296, 160, 24, 1112, 942, 806, 670, 534, 364, 228, 92, 1180, 1010, 874, 738, 602, 466,
   824, 654, 518, 382, 246, 76, 1164, 1028, 892, 722, 586, 450, 314, 178, 8, 1096, 960,
   94, 1182, 1012, 876, 740, 604, 434, 298, 162, 26, 1114, 944, 808, 672, 536, 366, 230,
   588, 452, 316, 146, 10, 1098, 962, 826, 656, 520, 384, 248, 78, 1166, 1030, 894, 724,
   1082, 946, 810, 674, 538, 368, 232, 96, 1184, 1014, 878, 742, 606, 436, 300, 164, 28,
   386, 250, 80, 1168, 1032, 896, 726, 590, 454, 318, 148, 12, 1100, 964, 794, 658, 522,
   880, 744, 608, 438, 302, 166, 30, 1084, 948, 812, 676, 506, 370, 234, 98, 1186, 1016,
   150, 14, 1102, 966, 796, 660, 524, 388, 218, 82, 1170, 1034, 898, 728, 592, 456, 320,
   678, 508, 372, 236, 100, 1188, 1018, 882, 746, 610, 440, 304, 168, 32, 1086, 950, 814,
   1172, 1036, 866, 730, 594, 458, 322, 152, 16, 1104, 968, 798, 662, 526, 390, 220, 84,
   1071, 935, 765, 629, 493, 357, 187, 51, 1139, 1003, 833, 697, 561, 425, 255, 119, 17,
   341, 205, 69, 1123, 987, 851, 715, 545, 409, 273, 137, 1, 1055, 919, 783, 647, 477,
   835, 699, 563, 427, 257, 121, 19, 1073, 903, 767, 631, 495, 325, 189, 53, 1141, 1005,
   139, 3, 1057, 921, 785, 615, 479, 343, 207, 37, 1125, 989, 853, 717, 547, 411, 275,
   633, 497, 327, 191, 55, 1143, 1007, 837, 701, 565, 429, 259, 123, 21, 1075, 905, 769,
   1127, 991, 855, 719, 549, 413, 277, 141, 5, 1059, 923, 787, 617, 481, 345, 209, 39,
   397, 261, 125, 23, 1077, 907, 771, 635, 499, 329, 193, 57, 1145, 975, 839, 703, 567,
   925, 789, 619, 483, 347, 211, 41, 1129, 993, 857, 687, 551, 415, 279, 109, 7, 1061,
   195, 59, 1147, 977, 841, 705, 569, 399, 263, 127, 25, 1079, 909, 773, 637, 501, 331,
   689, 553, 417, 281, 111, 9, 1063, 927, 791, 621, 485, 349, 213, 43, 1131, 995, 859,
   27, 1047, 911, 775, 639, 469, 333, 197, 61, 1149, 979, 843, 707, 571, 401, 265, 129,
   487, 351, 181, 45, 1133, 997, 861, 691, 555, 419, 283, 113, 11, 1065, 929, 759, 623,
   981, 845, 709, 573, 403, 267, 131, 29, 1049, 913, 777, 641, 471, 335, 199, 63, 1151,
   285, 115, 13, 1067, 931, 761, 625, 489, 353, 183, 47, 1135, 999, 863, 693, 557, 421,
   779, 643, 473, 337, 201, 65, 1119, 983, 847, 711, 541, 405, 269, 133, 31, 1051, 915,
   49, 1137, 1001, 831, 695, 559, 423, 253, 117, 15, 1069, 933, 763, 627, 491, 355, 185,
   543, 407, 271, 135, 33, 1053, 917, 781, 645, 475, 339, 203, 67, 1121, 985, 849, 713]

/-- The scores `scores[0..3]` at the end of the scoring loop of `smartDirection`. -/
def scores (s : State) : List Int := (scoreMoves s moves s.rngSeed).1

/-- The move `moves[i]`. -/
def move (i : Nat) : Point := moves.getD i default

/-- Manhattan distance of two cells. -/
def manhattan (p q : Point) : Int := |p.x - q.x| + |p.y - q.y|

/-- The number of the four neighbours of the cell `p` that are not occupied. -/
def freeNeighbours (s : State) (p : Point) : Nat :=
  ([(p.x + 1, p.y), (p.x - 1, p.y), (p.x, p.y + 1), (p.x, p.y - 1)].filter
    (fun q => !isOccupied s q.1 q.2)).length

/-- The cell next to the head in the direction `m`, in exact arithmetic. -/
def candidate (s : State) (m : Point) : Point := ⟨(s.snake 0).x + m.x, (s.snake 0).y + m.y⟩

/-- The score of the specification for the move `m`, before the jitter: the food
term, the escape-route term and the centre term, in exact integer arithmetic. -/
def specScore (s : State) (m : Point) : Int :=
  (if manhattan (candidate s m) s.food < manhattan (s.snake 0) s.food then 30 else -10)
    + 8 * (freeNeighbours s (candidate s m) : Int)
    - manhattan (candidate s m) ⟨9, 9⟩ / 2

/-- The number of jitter draws before the round of `moves[i]`: the moves before
it that are not rejected. -/
def draws (s : State) (i : Nat) : Nat :=
  ((moves.take i).filter (fun m => !rejected s m)).length

/-- The cell lies on the 19x19 board. -/
def OnBoard (p : Point) : Prop := 0 ≤ p.x ∧ p.x ≤ 18 ∧ 0 ≤ p.y ∧ p.y ≤ 18

instance (p : Point) : Decidable (OnBoard p) :=
  inferInstanceAs (Decidable (0 ≤ p.x ∧ p.x ≤ 18 ∧ 0 ≤ p.y ∧ p.y ≤ 18))

/-- Scenario A of the specification: the snake {(9,9),(8,9),(7,9)} heading right,
the food at (12,9), one frame before a decision tick. -/
def scenarioA (seed : Nat) : State :=
  { rngSeed := seed
    snake := Function.update (Function.update (Function.update (fun _ => ⟨0, 0⟩) 0 ⟨9, 9⟩)
      1 ⟨8, 9⟩) 2 ⟨7, 9⟩
    snakeLength := 3
    food := ⟨12, 9⟩
    direction := ⟨1, 0⟩
    gameState := GameState.PLAYING
    animTimer := 0
    moveDelay := 8
    frameCounter := 7
    life := fun _ => 0 }

/-- No two segments of the snake lie on the same cell. -/
def Distinct (s : State) : Prop :=
  ∀ i j, i < j → j < s.snakeLength → s.snake i ≠ s.snake j

/-- The invariant of the game that the reachable states satisfy. -/
structure Inv (s : State) : Prop where
  len_ge : 3 ≤ s.snakeLength
  len_le : s.snakeLength ≤ 18
  alive : s.gameState = GameState.PLAYING ∨ s.gameState = GameState.EATING →
    s.snakeLength ≤ 17 ∧ Distinct s
  body : ∀ i, i < s.snakeLength → Interior (s.snake i)
  food_int : Interior s.food
  food_free : ∀ i, i < s.snakeLength → s.snake i ≠ s.food
  dir_unit : s.direction ∈ moves
  no_reverse : nextPos s s.direction ≠ s.snake 1

/-- The tick is a decision tick: the incremented frame counter reaches the move delay. -/
def isDecision (s : State) : Prop := (s.frameCounter + 1) % 256 ≥ s.moveDelay

instance (s : State) : Decidable (isDecision s) :=
  inferInstanceAs (Decidable ((s.frameCounter + 1) % 256 ≥ s.moveDelay))

/-- The state in which `moveSnake` runs on a decision tick: the frame counter
incremented, `smartDirection` applied, the frame counter reset. -/
def decisionState (s : State) : State :=
  { smartDirection { s with frameCounter := (s.frameCounter + 1) % 256 } with frameCounter := 0 }

/-- The cell the head moves to on a decision tick, if the collision check finds one. -/
def resolvedHead (s : State) : Option Point :=
  (resolveHead (decisionState s)).map Prod.fst

/-- All four cells next to the head are occupied (a wall, or a segment other than the tail). -/
def allBlocked (s : State) : Prop :=
  ∀ m, m ∈ moves → isOccupied s (nextPos s m).x (nextPos s m).y = true

instance (s : State) : Decidable (allBlocked s) :=
  inferInstanceAs (Decidable (∀ m, m ∈ moves → isOccupied s (nextPos s m).x (nextPos s m).y = true))

/-- The state `t` agrees with `s` on every variable of the game proper: only the
seed and the particles may differ. -/
def SameGame (s t : State) : Prop :=
  t.snake = s.snake ∧ t.snakeLength = s.snakeLength ∧ t.food = s.food ∧
  t.direction = s.direction ∧ t.gameState = s.gameState ∧ t.animTimer = s.animTimer ∧
  t.moveDelay = s.moveDelay ∧ t.frameCounter = s.frameCounter

/-- A run of `n` ticks in a row, each with the same fuel and the same particle visibility. -/
def runTicks (fuel : Nat) (vis : Nat → Bool) : Nat → State → Option State
  | 0, s => some s
  | n + 1, s => (runTicks fuel vis n s).bind (loop fuel vis)

/-- The run that starts with the seed 1: the state after `setup` and `n` ticks. -/
def demoRun (n : Nat) : Option State :=
  (setup 4 1).bind (runTicks 4 (fun _ => true) n)

/-- The state of the run with seed 1 after `n` ticks. -/
def demoState (n : Nat) : State := (demoRun n).getD (bootState 1)

/-! ## Auxiliary definitions for runs with inputs that change from tick to tick -/

/-- A run of `n` ticks from the state `s`: tick `t` has the fuel `fuel t` and the
particle visibility `vis t`. -/
def runWith (fuel : Nat → Nat) (vis : Nat → Nat → Bool) : Nat → State → Option State
  | 0, s => some s
  | n + 1, s => (runWith fuel vis n s).bind (loop (fuel n) (vis n))

/-- The variables of the board are the same in `s` and `t`: the snake, its length,
the food and the heading. -/
def SameBoard (s t : State) : Prop :=
  t.snake = s.snake ∧ t.snakeLength = s.snakeLength ∧ t.food = s.food ∧
  t.direction = s.direction

/-- A version of `moveSnake` without the emergency scan: when the cell ahead of the
head is occupied the game is over at once; otherwise the snake moves as in
`moveSnake`. -/
def moveSnakeNoEscape (fuel : Nat) (s : State) : Option State :=
  let newHead := nextPos s s.direction
  if isOccupied s newHead.x newHead.y then
    some { s with gameState := GameState.GAME_OVER, animTimer := 0 }
  else if newHead.x = s.food.x ∧ newHead.y = s.food.y then
    let s2 := { s with gameState := GameState.EATING, animTimer := 0 }
    let s3 := { s2 with snake := shiftSnake s2.snakeLength s2.snake }
    let s4 := { s3 with snakeLength := growLength s3.snakeLength }
    if s4.snakeLength ≥ 18 then
      some { s4 with gameState := GameState.GAME_OVER, animTimer := 0 }
    else
      spawnFood fuel { s4 with snake := Function.update s4.snake 0 newHead }
  else
    let s2 := { s with snake := shiftSnake (s.snakeLength - 1) s.snake }
    some { s2 with snake := Function.update s2.snake 0 newHead }

/-- The life of particle `i` at the end of tick `k` of the GAME_OVER phase
(`1 <= k <= 61`): three less per tick from 255, and from 200 for the particles
`i < 25` that the secondary burst of tick 16 relaunches. -/
def lifeAt (k i : Nat) : Nat :=
  if k ≤ 15 then 255 - 3 * k
  else if i < 25 then 200 - 3 * (k - 16)
  else 255 - 3 * k

/-- The indices of `snake[]` that one call of `isOccupied` reads (lines 122-123). -/
def isOccupiedReads (s : State) : List Nat := List.range (s.snakeLength - 1)

/-- The indices of `snake[]` that the `for` loop of `spawnFood` reads (lines 106-107). -/
def spawnFoodReads (s : State) : List Nat := List.range s.snakeLength

/-- The indices of `snake[]` that `smartDirection` reads itself (lines 143-164). -/
def smartDirectionReads : List Nat := [0, 1]

/-- The indices of `snake[]` that `moveSnake` reads or writes itself: index 0 (lines
221, 233 and 282) and, in the shift loop, `i` and `i - 1` for `i` from `snakeLength`
(when the food is eaten) or `snakeLength - 1` (otherwise) down to 1. -/
def moveSnakeAccesses (s : State) (ate : Bool) : List Nat :=
  0 :: (List.range' 1 (if ate then s.snakeLength else s.snakeLength - 1)).flatMap
    (fun i => [i, i - 1])

/-- The indices of `snake[]` that `drawGame` reads (lines 310-319). -/
def drawGameReads (s : State) : List Nat := List.range' 1 (s.snakeLength - 1) ++ [0]

/-- The run that starts with the seed 4: the state after `setup` and `n` ticks. In
this run the snake is trapped on tick 1064. -/
def trapRun (n : Nat) : Option State :=
  (setup 4 4).bind (runTicks 4 (fun _ => true) n)

/-- The state of the run with seed 4 after `n` ticks. -/
def trapState (n : Nat) : State := (trapRun n).getD (bootState 4)

/-- A run of `n` ticks of the whole machine from `m`: tick `t` has the fuel `fuel t`
and the wall-clock value `clock t`. -/
def runMFrom {F : Type} (ops : FloatOps F) (lib : Lib) (sim : Bool) (fuel clock : Nat → Nat) :
    Nat → Machine F → Option (Machine F)
  | 0, m => some m
  | n + 1, m =>
    (runMFrom ops lib sim fuel clock n m).bind (loopM ops lib sim (fuel n) (clock n))

/-- The outcome of the bounds test of line 380 for particle `i`, when the update loop
starts from the machine `m`. -/
def visOf {F : Type} (ops : FloatOps F) (m : Machine F) (i : Nat) : Bool :=
  onMatrix (toInt8 (ops.toInt8 (ops.add (m.x i) (m.vx i))))
    (toInt8 (ops.toInt8 (ops.add (m.y i) (m.vy i))))

/-- The outcomes of the bounds tests of `drawGameOver` during the tick that starts
from the machine `m`: the particle visibility that `loop` takes as a parameter. -/
def visM {F : Type} (ops : FloatOps F) (m : Machine F) : Nat → Bool :=
  let m0 : Machine F :=
    { m with
      game := { m.game with frameCounter := (m.game.frameCounter + 1) % 256 }
      leds := fill_solid m.leds NUM_LEDS bgColor }
  visOf ops (if m0.game.animTimer = 0 then launchAll ops MAX_PARTICLES m0 else m0)

/-- The two machines agree on everything but the frame buffer. -/
def SameCore {F : Type} (m1 m2 : Machine F) : Prop :=
  m1.game = m2.game ∧ m1.x = m2.x ∧ m1.y = m2.y ∧ m1.vx = m2.vx ∧ m1.vy = m2.vy ∧
  m1.color = m2.color

/-- A fixed-point arithmetic with three decimals on the integers, a crude stand-in
for the floating point unit (the cosine is 1 and the sine is 0 throughout), used to
instantiate the theorems about the machine at a concrete input. -/
def demoOps : FloatOps Int where
  ofNat := fun n => (n : Int) * 1000
  lit := fun m d => ((m * 1000 / 10 ^ d : Nat) : Int)
  add := fun a b => a + b
  mul := fun a b => a * b / 1000
  div := fun a b => a * 1000 / b
  cos := fun _ => 1000
  sin := fun _ => 0
  toInt8 := fun a => a / 1000

/-- A stand-in for the three library routines: `nscale8` scales each channel by
`scale / 256`, `beatsin8` returns the middle of its range, `map` is the linear map
of the Arduino core. -/
def demoLib : Lib where
  nscale8 := fun c k => ⟨c.r * k / 256, c.g * k / 256, c.b * k / 256⟩
  beatsin8 := fun _ lo hi _ => (lo + hi) / 2
  map := fun v a b c d => (v - a) * (d - c) / (b - a) + c

/-- The machine whose game variables are those of the run with seed 1 after 772
ticks: the game was won on tick 711, and the fireworks have just ended. -/
def restartMachine : Machine Int :=
  { bootMachine demoOps 1 with game := demoState 772 }

/-! ## The generator -/

theorem lcg_eq_mod (seed : Nat) : lcg seed = (seed * 1103515245 + 12345) % 2147483648 := by
  have h := Nat.and_pow_two_sub_one_eq_mod ((seed * 1103515245 + 12345) % 4294967296) 31
  have e : (2 : Nat) ^ 31 - 1 = 0x7FFFFFFF := by norm_num
  rw [e] at h
  unfold lcg
  rw [h]
  norm_num

theorem lcg_lt (seed : Nat) : lcg seed < 2147483648 := by
  rw [lcg_eq_mod]
  exact Nat.mod_lt _ (by norm_num)

theorem toInt8_small (z : Int) (h1 : -128 ≤ z) (h2 : z ≤ 127) : toInt8 z = z := by
  unfold toInt8
  omega

theorem toInt8_range (z : Int) : -128 ≤ toInt8 z ∧ toInt8 z ≤ 127 := by
  unfold toInt8
  omega

theorem myRandom_fst (b seed : Nat) (hb : 0 < b) (hb2 : b ≤ 65536) :
    (myRandom b seed).1 = lcg seed % b := by
  unfold myRandom
  have : lcg seed % b < b := Nat.mod_lt _ hb
  simp only
  omega

theorem myRandom_snd (b seed : Nat) : (myRandom b seed).2 = lcg seed := rfl

theorem myRandom2_interior (seed : Nat) :
    myRandom2 1 18 seed = (1 + lcg seed % 17, lcg seed) := by
  unfold myRandom2
  have e : toUInt16 (((18 : Nat) : Int) - ((1 : Nat) : Int)) = 17 := by decide
  rw [e]
  simp only [myRandom_snd, myRandom_fst 17 seed (by norm_num) (by norm_num)]
  have : lcg seed % 17 < 17 := Nat.mod_lt _ (by norm_num)
  congr 1
  omega

/-! ## Food -/

theorem foodCell_interior (seed : Nat) : Interior (foodCell seed) := by
  unfold Interior foodCell
  have h1 : lcg seed % 17 < 17 := Nat.mod_lt _ (by norm_num)
  have h2 : lcg (lcg seed) % 17 < 17 := Nat.mod_lt _ (by norm_num)
  simp only
  omega

theorem onSnake_false_iff (s : State) (p : Point) :
    onSnake s p = false ↔ ∀ i, i < s.snakeLength → s.snake i ≠ p := by
  unfold onSnake
  rw [List.any_eq_false]
  constructor
  · intro h i hi e
    have := h i (List.mem_range.mpr hi)
    simp [e] at this
  · intro h i hi
    have hne := h i (List.mem_range.mp hi)
    simp only [decide_eq_true_eq]
    intro ⟨hx, hy⟩
    apply hne
    cases hp : s.snake i
    cases p
    simp_all

/-- One round of the `while` loop of `spawnFood`. -/
theorem spawnFood_succ (fuel : Nat) (s : State) :
    spawnFood (fuel + 1) s =
      if onSnake s (foodCell s.rngSeed)
      then spawnFood fuel { s with food := foodCell s.rngSeed, rngSeed := lcg (lcg s.rngSeed) }
      else some { s with food := foodCell s.rngSeed, rngSeed := lcg (lcg s.rngSeed) } := by
  have hx : toInt8 ((1 + lcg s.rngSeed % 17 : Nat) : Int) = ((1 + lcg s.rngSeed % 17 : Nat) : Int) := by
    apply toInt8_small <;> omega
  have hy : toInt8 ((1 + lcg (lcg s.rngSeed) % 17 : Nat) : Int)
      = ((1 + lcg (lcg s.rngSeed) % 17 : Nat) : Int) := by
    apply toInt8_small <;> omega
  have e1 : kMatrixWidth - 1 = 18 := rfl
  have e2 : kMatrixHeight - 1 = 18 := rfl
  rw [spawnFood]
  simp only [e1, e2, myRandom2_interior, hx, hy]
  rfl

/-- What `spawnFood` returns: only the food and the seed change, the food is an
interior cell and no segment lies on it. -/
theorem spawnFood_spec : ∀ (fuel : Nat) (s s' : State), spawnFood fuel s = some s' →
    ∃ seed, s' = { s with food := foodCell seed, rngSeed := lcg (lcg seed) } ∧
      onSnake s (foodCell seed) = false
  | 0, s, s', h => by simp [spawnFood] at h
  | fuel + 1, s, s', h => by
    rw [spawnFood_succ] at h
    by_cases hc : onSnake s (foodCell s.rngSeed) = true
    · rw [if_pos hc] at h
      obtain ⟨seed, e, hf⟩ := spawnFood_spec fuel _ s' h
      exact ⟨seed, e, hf⟩
    · rw [if_neg hc] at h
      exact ⟨s.rngSeed, (Option.some.inj h).symm, by simpa using hc⟩

theorem SameGame.refl (s : State) : SameGame s s :=
  ⟨rfl, rfl, rfl, rfl, rfl, rfl, rfl, rfl⟩

theorem SameGame.trans {s t u : State} (h1 : SameGame s t) (h2 : SameGame t u) :
    SameGame s u := by
  obtain ⟨a1, a2, a3, a4, a5, a6, a7, a8⟩ := h1
  obtain ⟨b1, b2, b3, b4, b5, b6, b7, b8⟩ := h2
  exact ⟨b1.trans a1, b2.trans a2, b3.trans a3, b4.trans a4, b5.trans a5, b6.trans a6,
    b7.trans a7, b8.trans a8⟩


/-! ## The generator has full period -/

theorem geom_add (m n : Nat) : geom (m + n) = 1103515245 ^ n * geom m + geom n := by
  induction n with
  | zero => simp [geom]
  | succ n ih =>
    rw [← Nat.add_assoc]
    simp only [geom]
    rw [ih]
    ring

theorem pow_eq_geom (n : Nat) : 1103515245 ^ n = 1103515244 * geom n + 1 := by
  induction n with
  | zero => simp [geom]
  | succ n ih =>
    simp only [geom]
    rw [pow_succ, ih]
    ring

theorem geom_mod_four (n : Nat) : geom n % 4 = n % 4 := by
  induction n with
  | zero => rfl
  | succ n ih =>
    simp only [geom]
    omega

theorem pow_mod_four (n : Nat) : 1103515245 ^ n % 4 = 1 := by
  rw [pow_eq_geom]
  omega

/-- The power of two that divides `1 + a + ... + a^(d-1)` divides `d`. -/
theorem dvd_of_dvd_geom : ∀ (k d : Nat), 2 ^ k ∣ geom d → 2 ^ k ∣ d
  | 0, d, _ => by simp
  | k + 1, d, h => by
    have h2 : 2 ∣ geom d := Dvd.dvd.trans (Dvd.intro_left (2 ^ k) (by ring)) h
    have hg := geom_mod_four d
    have hd : d % 2 = 0 := by omega
    obtain ⟨m, rfl⟩ : ∃ m, d = m + m := ⟨d / 2, by omega⟩
    have hp := pow_mod_four m
    obtain ⟨q, hq, hodd⟩ : ∃ q, 1103515245 ^ m + 1 = 2 * q ∧ q % 2 = 1 :=
      ⟨(1103515245 ^ m + 1) / 2, by omega, by omega⟩
    have e : geom (m + m) = 2 * (q * geom m) := by
      rw [geom_add]
      calc 1103515245 ^ m * geom m + geom m = (1103515245 ^ m + 1) * geom m := by ring
        _ = 2 * (q * geom m) := by rw [hq]; ring
    rw [e, pow_succ, Nat.mul_comm (2 ^ k) 2] at h
    have h3 : 2 ^ k ∣ q * geom m := Nat.dvd_of_mul_dvd_mul_left (by norm_num) h
    have hc : Nat.Coprime (2 ^ k) q :=
      Nat.Coprime.pow_left k (Nat.coprime_two_left.mpr (Nat.odd_iff.mpr hodd))
    have h4 : 2 ^ k ∣ geom m := hc.dvd_of_dvd_mul_left h3
    have h5 := dvd_of_dvd_geom k m h4
    have e2 : m + m = 2 * m := by ring
    rw [e2, pow_succ, Nat.mul_comm (2 ^ k) 2]
    exact Nat.mul_dvd_mul_left 2 h5

theorem lcg_modEq (x : Nat) : lcg x ≡ 1103515245 * x + 12345 [MOD 2147483648] := by
  rw [lcg_eq_mod, Nat.mul_comm]
  exact Nat.mod_modEq _ _

theorem lcg_iterate_modEq (n s : Nat) :
    lcg^[n] s ≡ 1103515245 ^ n * s + 12345 * geom n [MOD 2147483648] := by
  induction n with
  | zero => simp [geom, Nat.ModEq.refl]
  | succ n ih =>
    rw [Function.iterate_succ_apply']
    refine (lcg_modEq _).trans ?_
    have h1 := (ih.mul_left 1103515245).add_right 12345
    refine h1.trans ?_
    simp only [geom]
    have e : 1103515245 * (1103515245 ^ n * s + 12345 * geom n) + 12345
        = 1103515245 ^ (n + 1) * s + 12345 * (1103515245 * geom n + 1) := by ring
    rw [e]

theorem lcg_iterate_lt (n s : Nat) (hs : s < 2147483648) : lcg^[n] s < 2147483648 := by
  cases n with
  | zero => simpa using hs
  | succ n =>
    rw [Function.iterate_succ_apply']
    exact lcg_lt _

theorem coprime_modulus_multiplier : Nat.gcd 2147483648 1103515245 = 1 := by
  have h : Nat.Coprime (2 ^ 31) 1103515245 :=
    Nat.Coprime.pow_left 31 (Nat.coprime_two_left.mpr (Nat.odd_iff.mpr (by norm_num)))
  have e31 : (2 : Nat) ^ 31 = 2147483648 := by norm_num
  rw [e31] at h
  exact h

theorem lcg_injOn (x y : Nat) (hx : x < 2147483648) (hy : y < 2147483648)
    (h : lcg x = lcg y) : x = y := by
  have h0 : lcg x ≡ lcg y [MOD 2147483648] := by rw [h]
  have h1 : 1103515245 * x + 12345 ≡ 1103515245 * y + 12345 [MOD 2147483648] :=
    ((lcg_modEq x).symm.trans h0).trans (lcg_modEq y)
  have h2 : 1103515245 * x ≡ 1103515245 * y [MOD 2147483648] := Nat.ModEq.add_right_cancel' _ h1
  have h3 : x ≡ y [MOD 2147483648] :=
    Nat.ModEq.cancel_left_of_coprime coprime_modulus_multiplier h2
  exact h3.eq_of_lt_of_lt hx hy

theorem lcg_iterate_injOn (n x y : Nat) (hx : x < 2147483648) (hy : y < 2147483648)
    (h : lcg^[n] x = lcg^[n] y) : x = y := by
  induction n generalizing x y with
  | zero => simpa using h
  | succ n ih =>
    rw [Function.iterate_succ_apply, Function.iterate_succ_apply] at h
    exact lcg_injOn x y hx hy (ih _ _ (lcg_lt x) (lcg_lt y) h)

/-- A seed that comes back after `d` steps: `2^31` divides `d`. -/
theorem dvd_of_lcg_iterate_fixed (d s : Nat) (h : lcg^[d] s = s) :
    2147483648 ∣ d := by
  have h1 := lcg_iterate_modEq d s
  rw [h, pow_eq_geom] at h1
  have e : (1103515244 * geom d + 1) * s + 12345 * geom d
      = s + geom d * (1103515244 * s + 12345) := by ring
  rw [e] at h1
  have h2 : 0 ≡ geom d * (1103515244 * s + 12345) [MOD 2147483648] :=
    Nat.ModEq.add_left_cancel' s (by simpa using h1)
  have h3 : 2147483648 ∣ geom d * (1103515244 * s + 12345) :=
    (Nat.modEq_zero_iff_dvd.mp h2.symm)
  have hodd : Odd (1103515244 * s + 12345) := Nat.odd_iff.mpr (by omega)
  have hc : Nat.Coprime (2 ^ 31) (1103515244 * s + 12345) :=
    Nat.Coprime.pow_left 31 (Nat.coprime_two_left.mpr hodd)
  have e31 : (2 : Nat) ^ 31 = 2147483648 := by norm_num
  rw [e31] at hc
  have h4 : 2147483648 ∣ geom d := hc.dvd_of_dvd_mul_right h3
  rw [← e31] at h4 ⊢
  exact dvd_of_dvd_geom 31 d h4

theorem lcg_iterate_index_injOn (s : Nat) :
    Set.InjOn (fun n => lcg^[n] s) (Finset.range 2147483648 : Finset Nat) := by
  have key : ∀ i j, i ≤ j → j < 2147483648 → lcg^[i] s = lcg^[j] s → i = j := by
    intro i j hij hj h
    obtain ⟨d, rfl⟩ := Nat.exists_eq_add_of_le hij
    rw [Nat.add_comm i d, Function.iterate_add_apply] at h
    have hd := dvd_of_lcg_iterate_fixed d (lcg^[i] s) h.symm
    have : d = 0 := Nat.eq_zero_of_dvd_of_lt hd (by omega)
    omega
  intro i hi j hj h
  simp only [Finset.coe_range, Set.mem_Iio] at hi hj
  rcases Nat.le_total i j with hij | hij
  · exact key i j hij hj h
  · exact (key j i hij hi h.symm).symm

/-- Full period: from every 31-bit seed the generator reaches every 31-bit value. -/
theorem lcg_reaches (s t : Nat) (hs : s < 2147483648) (ht : t < 2147483648) :
    ∃ n, lcg^[n] s = t := by
  have hsub : (Finset.range 2147483648).image (fun n => lcg^[n] s) ⊆ Finset.range 2147483648 := by
    intro x hx
    obtain ⟨n, _, rfl⟩ := Finset.mem_image.mp hx
    exact Finset.mem_range.mpr (lcg_iterate_lt n s hs)
  have hcard : ((Finset.range 2147483648).image (fun n => lcg^[n] s)).card
      = (Finset.range 2147483648).card :=
    Finset.card_image_of_injOn (lcg_iterate_index_injOn s)
  have heq := Finset.eq_of_subset_of_card_le hsub (le_of_eq hcard.symm)
  have hmem : t ∈ (Finset.range 2147483648).image (fun n => lcg^[n] s) := by
    rw [heq]
    exact Finset.mem_range.mpr ht
  obtain ⟨n, _, hn⟩ := Finset.mem_image.mp hmem
  exact ⟨n, hn⟩

theorem lcg_parity (x : Nat) : lcg x % 2 = (x + 1) % 2 := by
  rw [lcg_eq_mod]
  omega

theorem lcg_iterate_parity (n s : Nat) : lcg^[n] s % 2 = (s + n) % 2 := by
  induction n with
  | zero => simp
  | succ n ih =>
    rw [Function.iterate_succ_apply', lcg_parity]
    omega

set_option maxRecDepth 100000 in
theorem seedTable_spec : ∀ p < 2, ∀ x0 < 17, ∀ y0 < 17,
    seedTable.getD ((p * 17 + x0) * 17 + y0) 0 < 2147483648 ∧
    seedTable.getD ((p * 17 + x0) * 17 + y0) 0 % 2 = p ∧
    seedTable.getD ((p * 17 + x0) * 17 + y0) 0 % 17 = x0 ∧
    lcg (seedTable.getD ((p * 17 + x0) * 17 + y0) 0) % 17 = y0 := by
  decide!

/-! ## `spawnFood` terminates -/

/-- A free cell drawn in round `n` of the `while` loop ends the loop in that round at the latest. -/
theorem spawnFood_of_free : ∀ (n : Nat) (s : State),
    onSnake s (foodCell (lcg^[2 * n] s.rngSeed)) = false →
    ∃ s', spawnFood (n + 1) s = some s'
  | 0, s, h => by
    rw [spawnFood_succ]
    simp only [Nat.mul_zero, Function.iterate_zero, id_eq] at h
    rw [h]
    exact ⟨_, rfl⟩
  | n + 1, s, h => by
    rw [spawnFood_succ]
    by_cases hc : onSnake s (foodCell s.rngSeed) = true
    · rw [if_pos hc]
      apply spawnFood_of_free n
      have e : 2 * (n + 1) = (2 * n).succ.succ := by omega
      rw [e, Function.iterate_succ_apply, Function.iterate_succ_apply] at h
      exact h
    · rw [if_neg hc]
      exact ⟨_, rfl⟩

/-- A snake of fewer than 289 segments leaves an interior cell free. -/
theorem exists_free_cell (s : State) (hlen : s.snakeLength < 289) :
    ∃ x0 y0 : Nat, x0 < 17 ∧ y0 < 17 ∧
      onSnake s ⟨((1 + x0 : Nat) : Int), ((1 + y0 : Nat) : Int)⟩ = false := by
  let cell : Nat × Nat → Point := fun q => ⟨((1 + q.1 : Nat) : Int), ((1 + q.2 : Nat) : Int)⟩
  have hinj : Function.Injective cell := by
    intro a b h
    simp only [cell, Point.mk.injEq] at h
    ext <;> omega
  let A := (Finset.range 17 ×ˢ Finset.range 17).image cell
  let B := (Finset.range s.snakeLength).image s.snake
  have hA : A.card = 289 := by
    rw [Finset.card_image_of_injective _ hinj]
    simp
  have hB : B.card ≤ s.snakeLength := by
    refine le_trans Finset.card_image_le ?_
    simp
  have hns : ¬ A ⊆ B := fun hsub => by
    have := Finset.card_le_card hsub
    omega
  obtain ⟨p, hpA, hpB⟩ := Finset.not_subset.mp hns
  obtain ⟨q, hq, rfl⟩ := Finset.mem_image.mp hpA
  rw [Finset.mem_product, Finset.mem_range, Finset.mem_range] at hq
  refine ⟨q.1, q.2, hq.1, hq.2, ?_⟩
  rw [onSnake_false_iff]
  intro i hi e
  exact hpB (Finset.mem_image.mpr ⟨i, Finset.mem_range.mpr hi, e⟩)

/-- The `while` loop of `spawnFood` ends for every seed and every snake the
8-bit length allows: the generator runs through all 31-bit values, and the two
draws of one round reach every interior cell. -/
theorem spawnFood_terminates (s : State) (hlen : s.snakeLength < 289) :
    ∃ fuel s', spawnFood fuel s = some s' := by
  obtain ⟨x0, y0, hx, hy, hfree⟩ := exists_free_cell s hlen
  have hp : lcg s.rngSeed % 2 < 2 := Nat.mod_lt _ (by norm_num)
  obtain ⟨ht, hpar, htx, hty⟩ := seedTable_spec (lcg s.rngSeed % 2) hp x0 hx y0 hy
  generalize seedTable.getD ((lcg s.rngSeed % 2 * 17 + x0) * 17 + y0) 0 = t at ht hpar htx hty
  obtain ⟨n, hn⟩ := lcg_reaches (lcg s.rngSeed) t (lcg_lt _) ht
  have hpn := lcg_iterate_parity n (lcg s.rngSeed)
  rw [hn, hpar] at hpn
  obtain ⟨k, rfl⟩ : ∃ k, n = 2 * k := ⟨n / 2, by omega⟩
  refine ⟨k + 1, spawnFood_of_free k s ?_⟩
  have e1 : lcg (lcg^[2 * k] s.rngSeed) = t := by
    rw [← hn]
    exact ((Function.iterate_succ_apply' lcg (2 * k) s.rngSeed).symm.trans
      (Function.iterate_succ_apply lcg (2 * k) s.rngSeed))
  have e : foodCell (lcg^[2 * k] s.rngSeed) = ⟨((1 + x0 : Nat) : Int), ((1 + y0 : Nat) : Int)⟩ := by
    unfold foodCell
    rw [e1, htx, hty]
  rw [e]
  exact hfree

/-! ## Occupancy and the shift of the body -/

theorem isOccupied_eq_false_iff (s : State) (p : Point) :
    isOccupied s p.x p.y = false ↔
      Interior p ∧ ∀ i, i < s.snakeLength - 1 → s.snake i ≠ p := by
  unfold isOccupied Interior
  have e1 : ((kMatrixWidth : Nat) : Int) = 19 := rfl
  have e2 : ((kMatrixHeight : Nat) : Int) = 19 := rfl
  rw [e1, e2]
  by_cases hw : p.x ≤ 0 ∨ p.x ≥ 19 - 1 ∨ p.y ≤ 0 ∨ p.y ≥ 19 - 1
  · rw [if_pos hw]
    constructor
    · intro h
      exact absurd h (by simp)
    · intro h
      omega
  · rw [if_neg hw, List.any_eq_false]
    constructor
    · intro h
      refine ⟨by omega, fun i hi e => ?_⟩
      have := h i (List.mem_range.mpr hi)
      simp [e] at this
    · intro h i hi
      have hne := h.2 i (List.mem_range.mp hi)
      simp only [decide_eq_true_eq]
      intro ⟨hx, hy⟩
      apply hne
      cases hp : s.snake i
      cases p
      simp_all

theorem isOccupied_of_body (s : State) (i : Nat) (hi : i < s.snakeLength - 1) :
    isOccupied s (s.snake i).x (s.snake i).y = true := by
  by_contra h
  have h' : isOccupied s (s.snake i).x (s.snake i).y = false := by simpa using h
  exact ((isOccupied_eq_false_iff s (s.snake i)).mp h').2 i hi rfl

/-- The function `isOccupied` reads the snake and its length only. -/
theorem isOccupied_congr (s t : State) (h1 : t.snake = s.snake)
    (h2 : t.snakeLength = s.snakeLength) (x y : Int) :
    isOccupied t x y = isOccupied s x y := by
  unfold isOccupied
  rw [h1, h2]

theorem nextPos_congr (s t : State) (h1 : t.snake = s.snake) (m : Point) :
    nextPos t m = nextPos s m := by
  unfold nextPos
  rw [h1]

/-- The effect of the shift loop: the cells `1..n` take the value of their
predecessor, every other cell keeps its value. -/
theorem shiftSnake_apply : ∀ (n : Nat) (sn : Nat → Point) (i : Nat),
    shiftSnake n sn i = if 1 ≤ i ∧ i ≤ n then sn (i - 1) else sn i
  | 0, sn, i => by
    have : ¬ (1 ≤ i ∧ i ≤ 0) := by omega
    rw [shiftSnake, if_neg this]
  | n + 1, sn, i => by
    rw [shiftSnake, shiftSnake_apply n]
    by_cases h1 : 1 ≤ i ∧ i ≤ n
    · have h2 : 1 ≤ i ∧ i ≤ n + 1 := by omega
      rw [if_pos h1, if_pos h2, Function.update_noteq (by omega)]
    · rw [if_neg h1]
      by_cases h3 : i = n + 1
      · subst h3
        rw [Function.update_same, if_pos (by omega)]
        simp
      · have h4 : ¬ (1 ≤ i ∧ i ≤ n + 1) := by omega
        rw [if_neg h4, Function.update_noteq h3]

theorem mem_moves (m : Point) :
    m ∈ moves ↔ m = ⟨1, 0⟩ ∨ m = ⟨-1, 0⟩ ∨ m = ⟨0, 1⟩ ∨ m = ⟨0, -1⟩ := by
  simp [moves]

/-- The emergency scan returns a move of the table to a cell that is not occupied. -/
theorem emergencyScan_some (s : State) : ∀ (l : List Point) (m : Point),
    emergencyScan s l = some m →
      m ∈ l ∧ isOccupied s (nextPos s m).x (nextPos s m).y = false
  | [], m, h => by simp [emergencyScan] at h
  | a :: l, m, h => by
    rw [emergencyScan] at h
    by_cases hc : isOccupied s (nextPos s a).x (nextPos s a).y = true
    · simp only [hc, Bool.not_true, Bool.false_eq_true, if_false] at h
      obtain ⟨h1, h2⟩ := emergencyScan_some s l m h
      exact ⟨List.mem_cons_of_mem _ h1, h2⟩
    · have hc' : isOccupied s (nextPos s a).x (nextPos s a).y = false := by simpa using hc
      simp only [hc', Bool.not_false, if_true, Option.some.injEq] at h
      subst h
      exact ⟨List.mem_cons_self _ _, hc'⟩

/-- The emergency scan finds nothing exactly when every move of the list leads
to an occupied cell. -/
theorem emergencyScan_none (s : State) : ∀ (l : List Point),
    emergencyScan s l = none ↔
      ∀ m, m ∈ l → isOccupied s (nextPos s m).x (nextPos s m).y = true
  | [] => by simp [emergencyScan]
  | a :: l => by
    rw [emergencyScan]
    by_cases hc : isOccupied s (nextPos s a).x (nextPos s a).y = true
    · simp only [hc, Bool.not_true, Bool.false_eq_true, if_false, List.mem_cons, forall_eq_or_imp,
        true_and]
      exact emergencyScan_none s l
    · have hc' : isOccupied s (nextPos s a).x (nextPos s a).y = false := by simpa using hc
      simp [hc']

/-- The resolved head is the cell of a move of the table (or of the heading) and
is not occupied. -/
theorem resolveHead_some (s : State) (h d : Point) (hr : resolveHead s = some (h, d)) :
    h = nextPos s d ∧ isOccupied s h.x h.y = false ∧ (d = s.direction ∨ d ∈ moves) := by
  unfold resolveHead at hr
  by_cases hc : isOccupied s (nextPos s s.direction).x (nextPos s s.direction).y = true
  · simp only [hc, if_true] at hr
    cases he : emergencyScan s moves with
    | none => simp [he] at hr
    | some m =>
      simp only [he, Option.some.injEq, Prod.mk.injEq] at hr
      obtain ⟨h1, h2⟩ := emergencyScan_some s moves m he
      obtain ⟨rfl, rfl⟩ := hr
      exact ⟨rfl, h2, Or.inr h1⟩
  · have hc' : isOccupied s (nextPos s s.direction).x (nextPos s s.direction).y = false := by
      simpa using hc
    simp only [hc', Bool.false_eq_true, if_false, Option.some.injEq, Prod.mk.injEq] at hr
    obtain ⟨rfl, rfl⟩ := hr
    exact ⟨rfl, hc', Or.inl rfl⟩

/-- No head is resolved exactly when the cell ahead and the cells of all four
moves are occupied. -/
theorem resolveHead_none (s : State) :
    resolveHead s = none ↔
      isOccupied s (nextPos s s.direction).x (nextPos s s.direction).y = true ∧
      ∀ m, m ∈ moves → isOccupied s (nextPos s m).x (nextPos s m).y = true := by
  unfold resolveHead
  by_cases hc : isOccupied s (nextPos s s.direction).x (nextPos s s.direction).y = true
  · simp only [hc, if_true, true_and]
    rw [← emergencyScan_none]
    cases emergencyScan s moves <;> simp
  · simp [hc]

/-! ## The heuristic -/

theorem cAbs_eq_abs (z : Int) : cAbs z = |z| := by
  unfold cAbs
  split_ifs with h
  · exact (abs_of_pos h).symm
  · exact (abs_of_nonpos (by omega)).symm

theorem cAbs_nonneg (z : Int) : 0 ≤ cAbs z := by
  unfold cAbs
  split_ifs <;> omega

theorem countFreeSpaces_le (s : State) (x y : Int) : countFreeSpaces s x y ≤ 4 := by
  unfold countFreeSpaces
  simp only
  split_ifs <;> omega

/-- The four rounds of the scoring loop. -/
theorem scoreMoves_moves (s : State) (seed : Nat) :
    scoreMoves s moves seed =
      ([(scoreMove s ⟨1, 0⟩ seed).1,
        (scoreMove s ⟨-1, 0⟩ (scoreMove s ⟨1, 0⟩ seed).2).1,
        (scoreMove s ⟨0, 1⟩ (scoreMove s ⟨-1, 0⟩ (scoreMove s ⟨1, 0⟩ seed).2).2).1,
        (scoreMove s ⟨0, -1⟩
          (scoreMove s ⟨0, 1⟩ (scoreMove s ⟨-1, 0⟩ (scoreMove s ⟨1, 0⟩ seed).2).2).2).1],
       (scoreMove s ⟨0, -1⟩
          (scoreMove s ⟨0, 1⟩ (scoreMove s ⟨-1, 0⟩ (scoreMove s ⟨1, 0⟩ seed).2).2).2).2) :=
  rfl

theorem scoreMove_rejected (s : State) (m : Point) (seed : Nat) (h : rejected s m = true) :
    scoreMove s m seed = (-100, seed) := by
  unfold scoreMove
  rw [if_pos h]

theorem scoreMove_accepted (s : State) (m : Point) (seed : Nat) (h : rejected s m = false) :
    scoreMove s m seed = (toInt8 (baseScore s m + ((lcg seed % 5 : Nat) : Int)), lcg seed) := by
  unfold scoreMove
  rw [if_neg (by simp [h])]
  simp only [myRandom_snd, myRandom_fst 5 seed (by norm_num) (by norm_num)]

/-- A move that is not rejected leads to an interior cell. -/
theorem interior_of_accepted (s : State) (m : Point) (h : rejected s m = false) :
    Interior (nextPos s m) := by
  unfold rejected at h
  rw [Bool.or_eq_false_iff] at h
  exact ((isOccupied_eq_false_iff s (nextPos s m)).mp h.2).1

/-- The base score of a move that is not rejected, with the wrap-around of the
intermediate `int8_t` results removed; it lies between -18 and 62. -/
theorem baseScore_accepted (s : State) (m : Point) (h : rejected s m = false) :
    baseScore s m =
      (if toInt8 (cAbs (toInt8 (s.food.x - (nextPos s m).x))
            + cAbs (toInt8 (s.food.y - (nextPos s m).y)))
          < toInt8 (cAbs (toInt8 (s.food.x - (s.snake 0).x))
            + cAbs (toInt8 (s.food.y - (s.snake 0).y)))
        then 30 else -10)
      + 8 * (countFreeSpaces s (nextPos s m).x (nextPos s m).y : Int)
      - (cAbs ((nextPos s m).x - 9) + cAbs ((nextPos s m).y - 9)) / 2
    ∧ -18 ≤ baseScore s m ∧ baseScore s m ≤ 62 := by
  obtain ⟨hx1, hx2, hy1, hy2⟩ := interior_of_accepted s m h
  have hc := countFreeSpaces_le s (nextPos s m).x (nextPos s m).y
  have e9x : toInt8 ((kMatrixWidth / 2 : Nat) : Int) = 9 := by decide
  have e9y : toInt8 ((kMatrixHeight / 2 : Nat) : Int) = 9 := by decide
  have hd : 0 ≤ cAbs ((nextPos s m).x - 9) + cAbs ((nextPos s m).y - 9) ∧
      cAbs ((nextPos s m).x - 9) + cAbs ((nextPos s m).y - 9) ≤ 16 := by
    unfold cAbs
    split_ifs <;> omega
  have hdist : toInt8 (cAbs ((nextPos s m).x - 9) + cAbs ((nextPos s m).y - 9))
      = cAbs ((nextPos s m).x - 9) + cAbs ((nextPos s m).y - 9) :=
    toInt8_small _ (by omega) (by omega)
  have htd : Int.tdiv (cAbs ((nextPos s m).x - 9) + cAbs ((nextPos s m).y - 9)) 2
      = (cAbs ((nextPos s m).x - 9) + cAbs ((nextPos s m).y - 9)) / 2 :=
    Int.tdiv_eq_ediv hd.1 (by norm_num)
  unfold baseScore
  simp only [e9x, e9y, hdist, htd]
  generalize cAbs ((nextPos s m).x - 9) + cAbs ((nextPos s m).y - 9) = d at hd
  generalize countFreeSpaces s (nextPos s m).x (nextPos s m).y = c at hc
  have e30 : toInt8 (0 + 30) = 30 := by decide
  have e10 : toInt8 (0 - 10) = -10 := by decide
  rw [e30, e10]
  split_ifs with hlt
  · have e2 : toInt8 (30 + ((c * 8 : Nat) : Int)) = 30 + ((c * 8 : Nat) : Int) :=
      toInt8_small _ (by omega) (by omega)
    rw [e2]
    have e3 : toInt8 (30 + ((c * 8 : Nat) : Int) - d / 2) = 30 + ((c * 8 : Nat) : Int) - d / 2 :=
      toInt8_small _ (by omega) (by omega)
    rw [e3]
    refine ⟨by push_cast; ring, by omega, by omega⟩
  · have e2 : toInt8 (-10 + ((c * 8 : Nat) : Int)) = -10 + ((c * 8 : Nat) : Int) :=
      toInt8_small _ (by omega) (by omega)
    rw [e2]
    have e3 : toInt8 (-10 + ((c * 8 : Nat) : Int) - d / 2) = -10 + ((c * 8 : Nat) : Int) - d / 2 :=
      toInt8_small _ (by omega) (by omega)
    rw [e3]
    refine ⟨by push_cast; ring, by omega, by omega⟩

/-- The final score of a move that is not rejected is the base score plus the
jitter, without wrap-around, and lies between -18 and 66. -/
theorem scoreMove_accepted_bounds (s : State) (m : Point) (seed : Nat)
    (h : rejected s m = false) :
    (scoreMove s m seed).1 = baseScore s m + ((lcg seed % 5 : Nat) : Int) ∧
    -18 ≤ (scoreMove s m seed).1 ∧ (scoreMove s m seed).1 ≤ 66 := by
  obtain ⟨_, h1, h2⟩ := baseScore_accepted s m h
  have hj : lcg seed % 5 < 5 := Nat.mod_lt _ (by norm_num)
  have e : toInt8 (baseScore s m + ((lcg seed % 5 : Nat) : Int))
      = baseScore s m + ((lcg seed % 5 : Nat) : Int) := toInt8_small _ (by omega) (by omega)
  rw [scoreMove_accepted s m seed h, e]
  refine ⟨rfl, ?_, ?_⟩
  · show -18 ≤ baseScore s m + ((lcg seed % 5 : Nat) : Int)
    omega
  · show baseScore s m + ((lcg seed % 5 : Nat) : Int) ≤ 66
    omega

/-- The score stored for a move: the sentinel exactly when the move is rejected. -/
theorem scoreMove_sentinel (s : State) (m : Point) (seed : Nat) :
    (rejected s m = true ∧ (scoreMove s m seed).1 = -100) ∨
    (rejected s m = false ∧ -100 < (scoreMove s m seed).1) := by
  cases h : rejected s m with
  | true => exact Or.inl ⟨rfl, by rw [scoreMove_rejected s m seed h]⟩
  | false =>
    refine Or.inr ⟨rfl, ?_⟩
    have := (scoreMove_accepted_bounds s m seed h).2.1
    omega

/-- The "find best move" loop on four scores. -/
theorem findBest_four (a b c d : Int) :
    ((findBest [a, b, c, d] 0 (-100, -1)).2 = -1 ∧ a ≤ -100 ∧ b ≤ -100 ∧ c ≤ -100 ∧ d ≤ -100) ∨
    ((findBest [a, b, c, d] 0 (-100, -1)).2 = 0 ∧ -100 < a ∧ b ≤ a ∧ c ≤ a ∧ d ≤ a) ∨
    ((findBest [a, b, c, d] 0 (-100, -1)).2 = 1 ∧ -100 < b ∧ a < b ∧ c ≤ b ∧ d ≤ b) ∨
    ((findBest [a, b, c, d] 0 (-100, -1)).2 = 2 ∧ -100 < c ∧ a < c ∧ b < c ∧ d ≤ c) ∨
    ((findBest [a, b, c, d] 0 (-100, -1)).2 = 3 ∧ -100 < d ∧ a < d ∧ b < d ∧ c < d) := by
  simp only [findBest]
  split_ifs <;> simp <;> omega

/-- Apart from the heading and the seed, `smartDirection` changes nothing. -/
theorem smartDirection_frame (s : State) :
    (smartDirection s).snake = s.snake ∧
    (smartDirection s).snakeLength = s.snakeLength ∧
    (smartDirection s).food = s.food ∧
    (smartDirection s).gameState = s.gameState ∧
    (smartDirection s).animTimer = s.animTimer ∧
    (smartDirection s).moveDelay = s.moveDelay ∧
    (smartDirection s).frameCounter = s.frameCounter ∧
    (smartDirection s).life = s.life := by
  unfold smartDirection
  simp only
  split_ifs <;> exact ⟨rfl, rfl, rfl, rfl, rfl, rfl, rfl, rfl⟩

theorem smartDirection_direction (s : State) :
    (smartDirection s).direction =
      if bestMove s ≥ 0 then moves.getD (bestMove s).toNat default else s.direction := by
  unfold smartDirection bestMove
  simp only
  split_ifs <;> rfl

theorem smartDirection_rngSeed (s : State) :
    (smartDirection s).rngSeed = (scoreMoves s moves s.rngSeed).2 := by
  unfold smartDirection
  simp only
  split_ifs <;> rfl

/-- The four scores, each the sentinel exactly when its move is rejected. -/
theorem scores_four (s : State) :
    ∃ a b c d : Int, scores s = [a, b, c, d] ∧
      ((rejected s (move 0) = true ∧ a = -100) ∨ (rejected s (move 0) = false ∧ -100 < a)) ∧
      ((rejected s (move 1) = true ∧ b = -100) ∨ (rejected s (move 1) = false ∧ -100 < b)) ∧
      ((rejected s (move 2) = true ∧ c = -100) ∨ (rejected s (move 2) = false ∧ -100 < c)) ∧
      ((rejected s (move 3) = true ∧ d = -100) ∨ (rejected s (move 3) = false ∧ -100 < d)) := by
  refine ⟨_, _, _, _, congrArg Prod.fst (scoreMoves_moves s s.rngSeed), ?_, ?_, ?_, ?_⟩
  · exact scoreMove_sentinel s ⟨1, 0⟩ _
  · exact scoreMove_sentinel s ⟨-1, 0⟩ _
  · exact scoreMove_sentinel s ⟨0, 1⟩ _
  · exact scoreMove_sentinel s ⟨0, -1⟩ _

theorem bestMove_eq (s : State) : bestMove s = (findBest (scores s) 0 (-100, -1)).2 := rfl

/-- A move that is not rejected does not go into the neck and its cell is not occupied. -/
theorem accepted_iff (s : State) (m : Point) :
    rejected s m = false ↔
      (s.snakeLength > 1 → nextPos s m ≠ s.snake 1) ∧
      isOccupied s (nextPos s m).x (nextPos s m).y = false := by
  unfold rejected
  rw [Bool.or_eq_false_iff, Bool.and_eq_false_iff]
  constructor
  · rintro ⟨h1, h2⟩
    refine ⟨fun hl e => ?_, h2⟩
    rcases h1 with h1 | h1
    · simp [hl] at h1
    · simp [e] at h1
  · rintro ⟨h1, h2⟩
    refine ⟨?_, h2⟩
    by_cases hl : s.snakeLength > 1
    · right
      have hne := h1 hl
      simp only [decide_eq_false_iff_not]
      intro ⟨hx, hy⟩
      apply hne
      cases hp : nextPos s m
      cases hq : s.snake 1
      simp_all
    · left
      simp [hl]

/-- What `smartDirection` selects, on the four scores of the scoring loop. -/
theorem smartDirection_choice (s : State) :
    ((∀ i, i < 4 → rejected s (move i) = true) ∧ bestMove s = -1) ∨
    (∃ k : Nat, k < 4 ∧ bestMove s = (k : Int) ∧ rejected s (move k) = false ∧
      (∀ j, j < 4 → rejected s (move j) = false →
        (scores s).getD j 0 ≤ (scores s).getD k 0) ∧
      (∀ j, j < k → rejected s (move j) = false →
        (scores s).getD j 0 < (scores s).getD k 0)) := by
  obtain ⟨a, b, c, d, hsc, ha, hb, hc, hd⟩ := scores_four s
  rw [bestMove_eq, hsc]
  rcases findBest_four a b c d with h | h | h | h | h
  · left
    refine ⟨?_, h.1⟩
    intro i hi
    have h0 : rejected s (move 0) = true := by rcases ha with ha | ha <;> [exact ha.1; omega]
    have h1 : rejected s (move 1) = true := by rcases hb with hb | hb <;> [exact hb.1; omega]
    have h2 : rejected s (move 2) = true := by rcases hc with hc | hc <;> [exact hc.1; omega]
    have h3 : rejected s (move 3) = true := by rcases hd with hd | hd <;> [exact hd.1; omega]
    interval_cases i <;> assumption
  · right
    refine ⟨0, by norm_num, by simpa using h.1, ?_, ?_, ?_⟩
    · rcases ha with ha | ha <;> [omega; exact ha.1]
    · intro j hj _
      interval_cases j <;> simp <;> omega
    · intro j hj
      omega
  · right
    refine ⟨1, by norm_num, by simpa using h.1, ?_, ?_, ?_⟩
    · rcases hb with hb | hb <;> [omega; exact hb.1]
    · intro j hj _
      interval_cases j <;> simp <;> omega
    · intro j hj _
      interval_cases j
      simp
      omega
  · right
    refine ⟨2, by norm_num, by simpa using h.1, ?_, ?_, ?_⟩
    · rcases hc with hc | hc <;> [omega; exact hc.1]
    · intro j hj _
      interval_cases j <;> simp <;> omega
    · intro j hj _
      interval_cases j <;> simp <;> omega
  · right
    refine ⟨3, by norm_num, by simpa using h.1, ?_, ?_, ?_⟩
    · rcases hd with hd | hd <;> [omega; exact hd.1]
    · intro j hj _
      interval_cases j <;> simp <;> omega
    · intro j hj _
      interval_cases j <;> simp <;> omega

theorem scoreMove_snd (s : State) (m : Point) (seed : Nat) :
    (scoreMove s m seed).2 = if rejected s m then seed else lcg seed := by
  unfold scoreMove
  split_ifs <;> rfl

theorem move_zero : move 0 = ⟨1, 0⟩ := rfl
theorem move_one : move 1 = ⟨-1, 0⟩ := rfl
theorem move_two : move 2 = ⟨0, 1⟩ := rfl
theorem move_three : move 3 = ⟨0, -1⟩ := rfl

/-- When all four moves are rejected `smartDirection` changes nothing at all. -/
theorem smartDirection_all_rejected (s : State)
    (h : ∀ i, i < 4 → rejected s (move i) = true) : smartDirection s = s := by
  have h0 := h 0 (by norm_num)
  have h1 := h 1 (by norm_num)
  have h2 := h 2 (by norm_num)
  have h3 := h 3 (by norm_num)
  rw [move_zero] at h0
  rw [move_one] at h1
  rw [move_two] at h2
  rw [move_three] at h3
  have hb : bestMove s = -1 := by
    rcases smartDirection_choice s with hc | ⟨k, hk, _, hr, _⟩
    · exact hc.2
    · rw [h k hk] at hr
      exact absurd hr (by simp)
  have hseed : (scoreMoves s moves s.rngSeed).2 = s.rngSeed := by
    rw [scoreMoves_moves]
    simp only [scoreMove_snd, h0, h1, h2, h3, if_true]
  unfold smartDirection
  unfold bestMove at hb
  simp only [hb, hseed]
  rfl

/-- The seed at the start of round `i` of the scoring loop: one step of the
generator for every earlier move that is not rejected. The scores and the final
seed follow. -/
theorem scores_jitter (s : State) :
    (∀ i, i < 4 → rejected s (move i) = false →
      (scores s).getD i 0
        = baseScore s (move i) + (((myRandom 5 (lcg^[draws s i] s.rngSeed)).1 : Nat) : Int)) ∧
    (smartDirection s).rngSeed = lcg^[draws s 4] s.rngSeed := by
  have e0 : move 0 = ⟨1, 0⟩ := rfl
  have e1 : move 1 = ⟨-1, 0⟩ := rfl
  have e2 : move 2 = ⟨0, 1⟩ := rfl
  have e3 : move 3 = ⟨0, -1⟩ := rfl
  have hj : ∀ seed, (myRandom 5 seed).1 = lcg seed % 5 :=
    fun seed => myRandom_fst 5 seed (by norm_num) (by norm_num)
  have hfst : ∀ m seed, rejected s m = false →
      (scoreMove s m seed).1 = baseScore s m + ((lcg seed % 5 : Nat) : Int) :=
    fun m seed h => (scoreMove_accepted_bounds s m seed h).1
  constructor
  · intro i hi hr
    unfold scores
    rw [scoreMoves_moves, hj]
    interval_cases i
    · rw [e0] at hr ⊢
      simp only [List.getD_cons_zero, draws, moves, List.take, List.filter, List.length_nil,
        Function.iterate_zero, id_eq]
      exact hfst _ _ hr
    · rw [e1] at hr ⊢
      simp only [List.getD_cons_succ, List.getD_cons_zero, draws, moves, List.take, List.filter]
      rw [hfst _ _ hr, scoreMove_snd]
      cases h0 : rejected s ⟨1, 0⟩ <;> simp
    · rw [e2] at hr ⊢
      simp only [List.getD_cons_succ, List.getD_cons_zero, draws, moves, List.take, List.filter]
      rw [hfst _ _ hr, scoreMove_snd, scoreMove_snd]
      cases h0 : rejected s ⟨1, 0⟩ <;> cases h1 : rejected s ⟨-1, 0⟩ <;> simp
    · rw [e3] at hr ⊢
      simp only [List.getD_cons_succ, List.getD_cons_zero, draws, moves, List.take, List.filter]
      rw [hfst _ _ hr, scoreMove_snd, scoreMove_snd, scoreMove_snd]
      cases h0 : rejected s ⟨1, 0⟩ <;> cases h1 : rejected s ⟨-1, 0⟩ <;>
        cases h2 : rejected s ⟨0, 1⟩ <;> simp
  · rw [smartDirection_rngSeed, scoreMoves_moves]
    simp only [draws, moves, List.take, List.filter, scoreMove_snd]
    cases h0 : rejected s ⟨1, 0⟩ <;> cases h1 : rejected s ⟨-1, 0⟩ <;>
      cases h2 : rejected s ⟨0, 1⟩ <;> cases h3 : rejected s ⟨0, -1⟩ <;> simp

/-- The distance computed in `int8_t` is the Manhattan distance when the
coordinate differences are small. -/
theorem dist8_eq (a b c d : Int) (h1 : -60 ≤ a - b) (h2 : a - b ≤ 60)
    (h3 : -60 ≤ c - d) (h4 : c - d ≤ 60) :
    toInt8 (cAbs (toInt8 (a - b)) + cAbs (toInt8 (c - d))) = |b - a| + |d - c| := by
  rw [toInt8_small (a - b) (by omega) (by omega), toInt8_small (c - d) (by omega) (by omega)]
  have hb : 0 ≤ cAbs (a - b) + cAbs (c - d) ∧ cAbs (a - b) + cAbs (c - d) ≤ 120 := by
    unfold cAbs
    split_ifs <;> omega
  rw [toInt8_small _ (by omega) (by omega), cAbs_eq_abs, cAbs_eq_abs, abs_sub_comm a b,
    abs_sub_comm c d]

/-- On a cell whose neighbours' coordinates fit `int8_t`, `countFreeSpaces` counts the
neighbours that are not occupied. -/
theorem countFreeSpaces_eq (s : State) (p : Point) (hx1 : -127 ≤ p.x) (hx2 : p.x ≤ 126)
    (hy1 : -127 ≤ p.y) (hy2 : p.y ≤ 126) :
    countFreeSpaces s p.x p.y = freeNeighbours s p := by
  unfold countFreeSpaces freeNeighbours
  rw [toInt8_small (p.x + 1) (by omega) (by omega), toInt8_small (p.x - 1) (by omega) (by omega),
    toInt8_small (p.y + 1) (by omega) (by omega), toInt8_small (p.y - 1) (by omega) (by omega)]
  simp only [List.filter]
  cases isOccupied s (p.x + 1) p.y <;> cases isOccupied s (p.x - 1) p.y <;>
    cases isOccupied s p.x (p.y + 1) <;> cases isOccupied s p.x (p.y - 1) <;> rfl

/-- With the head on the board the cell of a move is computed without wrap-around. -/
theorem nextPos_eq_candidate (s : State) (m : Point) (hm : m ∈ moves)
    (hh : OnBoard (s.snake 0)) : nextPos s m = candidate s m := by
  obtain ⟨h1, h2, h3, h4⟩ := hh
  unfold nextPos candidate
  rw [mem_moves] at hm
  rcases hm with rfl | rfl | rfl | rfl <;>
    rw [toInt8_small _ (by simp only; omega) (by simp only; omega),
      toInt8_small _ (by simp only; omega) (by simp only; omega)]

theorem move_mem (i : Nat) (hi : i < 4) : move i ∈ moves := by
  interval_cases i <;> simp [move, moves]

/-- With head and food on the board, the base score of a move that is not
rejected is the score of the specification. -/
theorem baseScore_eq_specScore (s : State) (m : Point) (hm : m ∈ moves)
    (hh : OnBoard (s.snake 0)) (hf : OnBoard s.food) (hr : rejected s m = false) :
    baseScore s m = specScore s m := by
  have hnp := nextPos_eq_candidate s m hm hh
  have hint := interior_of_accepted s m hr
  rw [(baseScore_accepted s m hr).1, hnp]
  rw [hnp] at hint
  obtain ⟨i1, i2, i3, i4⟩ := hint
  obtain ⟨h1, h2, h3, h4⟩ := hh
  obtain ⟨f1, f2, f3, f4⟩ := hf
  unfold specScore manhattan
  rw [dist8_eq s.food.x (candidate s m).x s.food.y (candidate s m).y (by omega) (by omega)
      (by omega) (by omega),
    dist8_eq s.food.x (s.snake 0).x s.food.y (s.snake 0).y (by omega) (by omega)
      (by omega) (by omega),
    countFreeSpaces_eq s (candidate s m) (by omega) (by omega) (by omega) (by omega),
    cAbs_eq_abs, cAbs_eq_abs]

/-- The score stored for `moves[i]`: the sentinel -100 exactly when the move is rejected. -/
theorem scores_sentinel (s : State) (i : Nat) (hi : i < 4) :
    (rejected s (move i) = true → (scores s).getD i 0 = -100) ∧
    (rejected s (move i) = false → -100 < (scores s).getD i 0) := by
  obtain ⟨a, b, c, d, hsc, ha, hb, hc, hd⟩ := scores_four s
  rw [hsc]
  interval_cases i
  · rcases ha with h | h <;> simp [h.1] <;> omega
  · rcases hb with h | h <;> simp [h.1] <;> omega
  · rcases hc with h | h <;> simp [h.1] <;> omega
  · rcases hd with h | h <;> simp [h.1] <;> omega

theorem bestMove_eq_neg_one_iff (s : State) :
    bestMove s = -1 ↔ ∀ i, i < 4 → rejected s (move i) = true := by
  constructor
  · intro hb
    rcases smartDirection_choice s with hc | ⟨k, _, hk, _⟩
    · exact hc.1
    · omega
  · intro hall
    rcases smartDirection_choice s with hc | ⟨k, hk, _, hr, _⟩
    · exact hc.2
    · rw [hall k hk] at hr
      exact absurd hr (by simp)

/-- The function `isOccupied` reads the segments before the tail only. -/
theorem isOccupied_congr_body (s t : State) (hlen : t.snakeLength = s.snakeLength)
    (hsn : ∀ i, i < s.snakeLength - 1 → t.snake i = s.snake i) (x y : Int) :
    isOccupied t x y = isOccupied s x y := by
  unfold isOccupied
  rw [hlen]
  split_ifs
  · rfl
  · rw [Bool.eq_iff_iff]
    simp only [List.any_eq_true, List.mem_range, decide_eq_true_eq]
    constructor
    · rintro ⟨i, hi, h⟩
      exact ⟨i, hi, by rw [← hsn i hi]; exact h⟩
    · rintro ⟨i, hi, h⟩
      exact ⟨i, hi, by rw [hsn i hi]; exact h⟩

theorem rejected_congr (s t : State) (hlen : t.snakeLength = s.snakeLength)
    (hsn : ∀ i, i < s.snakeLength - 1 → t.snake i = s.snake i)
    (h0 : t.snake 0 = s.snake 0) (h1 : t.snake 1 = s.snake 1) (m : Point) :
    rejected t m = rejected s m := by
  unfold rejected nextPos
  rw [h0, h1, hlen, isOccupied_congr_body s t hlen hsn]

theorem baseScore_congr (s t : State) (hlen : t.snakeLength = s.snakeLength)
    (hsn : ∀ i, i < s.snakeLength - 1 → t.snake i = s.snake i)
    (h0 : t.snake 0 = s.snake 0) (hf : t.food = s.food) (m : Point) :
    baseScore t m = baseScore s m := by
  unfold baseScore countFreeSpaces nextPos
  simp only [h0, hf, isOccupied_congr_body s t hlen hsn]

/-! ## The four outcomes of `moveSnake` -/

theorem point_eq_iff (p q : Point) : (p.x = q.x ∧ p.y = q.y) ↔ p = q := by
  cases p
  cases q
  simp

theorem growLength_small (len : Nat) (h : len < 199) : growLength len = len + 1 := by
  unfold growLength MAX_SNAKE_LENGTH
  simp only
  split_ifs <;> omega

/-- The growth leaves the length unchanged only at the clamp. -/
theorem growLength_eq_self_iff (len : Nat) : growLength len = len ↔ len = 199 := by
  unfold growLength MAX_SNAKE_LENGTH
  simp only
  split_ifs <;> omega

/-- No escape: the game is over, nothing else changes. -/
theorem moveSnake_blocked (fuel : Nat) (s : State) (hr : resolveHead s = none) :
    moveSnake fuel s = some { s with gameState := GameState.GAME_OVER, animTimer := 0 } := by
  unfold moveSnake
  rw [hr]

/-- An ordinary move: the body is shifted by one cell, the tail cell is dropped. -/
theorem moveSnake_move (fuel : Nat) (s : State) (h d : Point)
    (hr : resolveHead s = some (h, d)) (hne : h ≠ s.food) :
    moveSnake fuel s = some { s with
      direction := d
      snake := Function.update (shiftSnake (s.snakeLength - 1) s.snake) 0 h } := by
  unfold moveSnake
  rw [hr]
  have : ¬ (h.x = s.food.x ∧ h.y = s.food.y) := fun e => hne ((point_eq_iff _ _).mp e)
  simp only [this, if_false]

/-- The food is eaten and the win threshold is reached: the body is shifted
without the new head, the game is over, no food is spawned. -/
theorem moveSnake_win (fuel : Nat) (s : State) (h d : Point)
    (hr : resolveHead s = some (h, d)) (he : h = s.food)
    (hw : growLength s.snakeLength ≥ 18) :
    moveSnake fuel s = some { s with
      direction := d
      gameState := GameState.GAME_OVER
      animTimer := 0
      snake := shiftSnake s.snakeLength s.snake
      snakeLength := growLength s.snakeLength } := by
  unfold moveSnake
  rw [hr]
  have : h.x = s.food.x ∧ h.y = s.food.y := (point_eq_iff _ _).mpr he
  simp only [this, and_self, if_true, hw]

/-- The food is eaten below the win threshold: the snake grows by the new head,
the phase becomes EATING and new food is spawned. -/
theorem moveSnake_eat (fuel : Nat) (s : State) (h d : Point)
    (hr : resolveHead s = some (h, d)) (he : h = s.food)
    (hw : growLength s.snakeLength < 18) :
    moveSnake fuel s = spawnFood fuel { s with
      direction := d
      gameState := GameState.EATING
      animTimer := 0
      snake := Function.update (shiftSnake s.snakeLength s.snake) 0 h
      snakeLength := growLength s.snakeLength } := by
  unfold moveSnake
  rw [hr]
  have : h.x = s.food.x ∧ h.y = s.food.y := (point_eq_iff _ _).mpr he
  have hw' : ¬ (growLength s.snakeLength ≥ 18) := by omega
  simp only [this, and_self, if_true, hw', if_false]

theorem update_shift_apply (n : Nat) (sn : Nat → Point) (h : Point) (i : Nat) :
    Function.update (shiftSnake n sn) 0 h i
      = if i = 0 then h else if i ≤ n then sn (i - 1) else sn i := by
  by_cases h0 : i = 0
  · subst h0
    simp
  · rw [Function.update_noteq h0, if_neg h0, shiftSnake_apply]
    by_cases h1 : i ≤ n
    · rw [if_pos ⟨by omega, h1⟩, if_pos h1]
    · rw [if_neg (fun hh => h1 hh.2), if_neg h1]

/-- A step in a direction of the table leaves the cell. -/
theorem step_ne (p d : Point) (hd : d ∈ moves) :
    (⟨toInt8 (p.x + d.x), toInt8 (p.y + d.y)⟩ : Point) ≠ p := by
  rw [mem_moves] at hd
  intro e
  have ex := congrArg Point.x e
  have ey := congrArg Point.y e
  simp only at ex ey
  unfold toInt8 at ex ey
  rcases hd with rfl | rfl | rfl | rfl <;> simp only at ex ey <;> omega

/-- Two steps in the same direction of the table from an interior cell do not
come back to it. -/
theorem two_steps_ne (p d : Point) (hd : d ∈ moves) (hp : Interior p) :
    (⟨toInt8 (toInt8 (p.x + d.x) + d.x), toInt8 (toInt8 (p.y + d.y) + d.y)⟩ : Point) ≠ p := by
  rw [mem_moves] at hd
  obtain ⟨h1, h2, h3, h4⟩ := hp
  intro e
  have ex := congrArg Point.x e
  have ey := congrArg Point.y e
  simp only at ex ey
  unfold toInt8 at ex ey
  rcases hd with rfl | rfl | rfl | rfl <;> simp only at ex ey <;> omega

/-! ## The invariant -/

/-- The invariant reads the snake, its length, the food, the heading and the phase only. -/
theorem Inv.of_frame {s t : State} (hs : Inv s) (h1 : t.snake = s.snake)
    (h2 : t.snakeLength = s.snakeLength) (h3 : t.food = s.food)
    (h4 : t.direction = s.direction)
    (h5 : t.gameState = GameState.PLAYING ∨ t.gameState = GameState.EATING →
      s.gameState = GameState.PLAYING ∨ s.gameState = GameState.EATING) : Inv t where
  len_ge := by rw [h2]; exact hs.len_ge
  len_le := by rw [h2]; exact hs.len_le
  alive := fun h => by
    obtain ⟨ha, hd⟩ := hs.alive (h5 h)
    refine ⟨by rw [h2]; exact ha, ?_⟩
    intro i j hij hj
    rw [h1]
    rw [h2] at hj
    exact hd i j hij hj
  body := fun i hi => by
    rw [h1]
    rw [h2] at hi
    exact hs.body i hi
  food_int := by rw [h3]; exact hs.food_int
  food_free := fun i hi => by
    rw [h1, h3]
    rw [h2] at hi
    exact hs.food_free i hi
  dir_unit := by rw [h4]; exact hs.dir_unit
  no_reverse := by
    rw [h4, nextPos_congr s t h1, h1]
    exact hs.no_reverse

theorem inv_smartDirection (s : State) (hs : Inv s) : Inv (smartDirection s) := by
  by_cases hb : bestMove s = -1
  · rw [smartDirection_all_rejected s ((bestMove_eq_neg_one_iff s).mp hb)]
    exact hs
  · rcases smartDirection_choice s with hc | ⟨k, hk, hbk, hr, _, _⟩
    · exact absurd hc.2 hb
    · obtain ⟨f1, f2, f3, f4, _, _, _, _⟩ := smartDirection_frame s
      have hdir : (smartDirection s).direction = move k := by
        rw [smartDirection_direction, hbk, if_pos (by omega)]
        simp [move]
      have hl := hs.len_ge
      exact
        { len_ge := by rw [f2]; exact hs.len_ge
          len_le := by rw [f2]; exact hs.len_le
          alive := fun h => by
            rw [f4] at h
            obtain ⟨ha, hd⟩ := hs.alive h
            refine ⟨by rw [f2]; exact ha, ?_⟩
            intro i j hij hj
            rw [f1]
            rw [f2] at hj
            exact hd i j hij hj
          body := fun i hi => by
            rw [f1]
            rw [f2] at hi
            exact hs.body i hi
          food_int := by rw [f3]; exact hs.food_int
          food_free := fun i hi => by
            rw [f1, f3]
            rw [f2] at hi
            exact hs.food_free i hi
          dir_unit := by rw [hdir]; exact move_mem k hk
          no_reverse := by
            rw [hdir, nextPos_congr s _ f1, f1]
            exact ((accepted_iff s (move k)).mp hr).1 (by omega) }

/-- The invariant after `spawnFood`, from the invariant of the snake before it; it
holds in whatever phase the game continues. -/
theorem inv_spawnFood (fuel : Nat) (t s' : State) (h : spawnFood fuel t = some s')
    (hlen3 : 3 ≤ t.snakeLength) (hlen17 : t.snakeLength ≤ 17) (hd : Distinct t)
    (hbody : ∀ i, i < t.snakeLength → Interior (t.snake i))
    (hdir : t.direction ∈ moves) (hrev : nextPos t t.direction ≠ t.snake 1)
    (u : State) (u1 : u.snake = s'.snake) (u2 : u.snakeLength = s'.snakeLength)
    (u3 : u.food = s'.food) (u4 : u.direction = s'.direction) : Inv u := by
  obtain ⟨seed, rfl, hfree⟩ := spawnFood_spec fuel t s' h
  have hi : Inv { t with food := foodCell seed, rngSeed := lcg (lcg seed),
                         gameState := GameState.PLAYING } :=
    { len_ge := hlen3
      len_le := by show t.snakeLength ≤ 18; omega
      alive := fun _ => ⟨hlen17, hd⟩
      body := hbody
      food_int := foodCell_interior seed
      food_free := (onSnake_false_iff t (foodCell seed)).mp hfree
      dir_unit := hdir
      no_reverse := hrev }
  exact hi.of_frame u1 u2 u3 u4 (fun _ => Or.inl rfl)

theorem inv_moveSnake (fuel : Nat) (s s' : State) (hs : Inv s)
    (hp : s.gameState = GameState.PLAYING) (h : moveSnake fuel s = some s') : Inv s' := by
  obtain ⟨hlen17, hdist⟩ := hs.alive (Or.inl hp)
  have hlen3 := hs.len_ge
  cases hr : resolveHead s with
  | none =>
    rw [moveSnake_blocked fuel s hr] at h
    obtain rfl := Option.some.inj h
    exact hs.of_frame rfl rfl rfl rfl (fun hh => by rcases hh with hh | hh <;> cases hh)
  | some hd =>
    obtain ⟨nh, d⟩ := hd
    obtain ⟨hnh, hocc, hdm⟩ := resolveHead_some s nh d hr
    have hd : d ∈ moves := by
      rcases hdm with rfl | hdm
      · exact hs.dir_unit
      · exact hdm
    obtain ⟨hint, hfreeb⟩ := (isOccupied_eq_false_iff s nh).mp hocc
    have hhead : nh ≠ s.snake 0 := fun e => hfreeb 0 (by omega) e.symm
    by_cases he : nh = s.food
    · have hg : growLength s.snakeLength = s.snakeLength + 1 := growLength_small _ (by omega)
      have hfood : ∀ k, k < s.snakeLength → s.snake k ≠ nh := fun k hk => by
        rw [he]
        exact hs.food_free k hk
      by_cases hw : growLength s.snakeLength ≥ 18
      · rw [moveSnake_win fuel s nh d hr he hw] at h
        obtain rfl := Option.some.inj h
        have hsn := shiftSnake_apply s.snakeLength s.snake
        exact
          { len_ge := by show 3 ≤ growLength s.snakeLength; omega
            len_le := by show growLength s.snakeLength ≤ 18; omega
            alive := fun hh => by rcases hh with hh | hh <;> cases hh
            body := fun i hi => by
              show Interior (shiftSnake s.snakeLength s.snake i)
              have hi' : i < growLength s.snakeLength := hi
              rw [hsn]
              split_ifs with hc
              · exact hs.body (i - 1) (by omega)
              · exact hs.body i (by omega)
            food_int := hs.food_int
            food_free := fun i hi => by
              show shiftSnake s.snakeLength s.snake i ≠ s.food
              have hi' : i < growLength s.snakeLength := hi
              rw [hsn]
              split_ifs with hc
              · exact hs.food_free (i - 1) (by omega)
              · exact hs.food_free i (by omega)
            dir_unit := hd
            no_reverse := by
              show (⟨toInt8 ((shiftSnake s.snakeLength s.snake 0).x + d.x),
                  toInt8 ((shiftSnake s.snakeLength s.snake 0).y + d.y)⟩ : Point)
                ≠ shiftSnake s.snakeLength s.snake 1
              rw [hsn, hsn, if_neg (by omega : ¬ (1 ≤ 0 ∧ 0 ≤ s.snakeLength)),
                if_pos (by omega : 1 ≤ 1 ∧ 1 ≤ s.snakeLength)]
              exact step_ne (s.snake 0) d hd }
      · rw [moveSnake_eat fuel s nh d hr he (by omega)] at h
        have hsn : ∀ i, Function.update (shiftSnake s.snakeLength s.snake) 0 nh i
            = if i = 0 then nh else if i ≤ s.snakeLength then s.snake (i - 1) else s.snake i :=
          update_shift_apply _ _ _
        refine inv_spawnFood fuel _ s' h ?_ ?_ ?_ ?_ ?_ ?_ s' rfl rfl rfl rfl
        · show 3 ≤ growLength s.snakeLength
          omega
        · show growLength s.snakeLength ≤ 17
          omega
        · intro i j hij hj
          show Function.update (shiftSnake s.snakeLength s.snake) 0 nh i
            ≠ Function.update (shiftSnake s.snakeLength s.snake) 0 nh j
          have hj' : j < growLength s.snakeLength := hj
          rw [hsn, hsn, if_neg (by omega : ¬ j = 0), if_pos (by omega : j ≤ s.snakeLength)]
          by_cases hi0 : i = 0
          · rw [if_pos hi0]
            exact fun e => hfood (j - 1) (by omega) e.symm
          · rw [if_neg hi0, if_pos (by omega : i ≤ s.snakeLength)]
            exact hdist (i - 1) (j - 1) (by omega) (by omega)
        · intro i hi
          show Interior (Function.update (shiftSnake s.snakeLength s.snake) 0 nh i)
          have hi' : i < growLength s.snakeLength := hi
          rw [hsn]
          by_cases hi0 : i = 0
          · rw [if_pos hi0]
            exact hint
          · rw [if_neg hi0, if_pos (by omega : i ≤ s.snakeLength)]
            exact hs.body (i - 1) (by omega)
        · exact hd
        · show (⟨toInt8 ((Function.update (shiftSnake s.snakeLength s.snake) 0 nh 0).x + d.x),
              toInt8 ((Function.update (shiftSnake s.snakeLength s.snake) 0 nh 0).y + d.y)⟩
                : Point)
            ≠ Function.update (shiftSnake s.snakeLength s.snake) 0 nh 1
          rw [hsn, hsn, if_pos rfl, if_neg (by omega : ¬ (1 = 0)),
            if_pos (by omega : 1 ≤ s.snakeLength), hnh]
          exact two_steps_ne (s.snake 0) d hd (hs.body 0 (by omega))
    · rw [moveSnake_move fuel s nh d hr he] at h
      obtain rfl := Option.some.inj h
      have hsn : ∀ i, Function.update (shiftSnake (s.snakeLength - 1) s.snake) 0 nh i
          = if i = 0 then nh else if i ≤ s.snakeLength - 1 then s.snake (i - 1) else s.snake i :=
        update_shift_apply _ _ _
      exact
        { len_ge := hlen3
          len_le := hs.len_le
          alive := fun _ => by
            refine ⟨hlen17, ?_⟩
            intro i j hij hj
            show Function.update (shiftSnake (s.snakeLength - 1) s.snake) 0 nh i
              ≠ Function.update (shiftSnake (s.snakeLength - 1) s.snake) 0 nh j
            have hj' : j < s.snakeLength := hj
            rw [hsn, hsn, if_neg (by omega : ¬ j = 0), if_pos (by omega : j ≤ s.snakeLength - 1)]
            by_cases hi0 : i = 0
            · rw [if_pos hi0]
              exact fun e => hfreeb (j - 1) (by omega) e.symm
            · rw [if_neg hi0, if_pos (by omega : i ≤ s.snakeLength - 1)]
              exact hdist (i - 1) (j - 1) (by omega) (by omega)
          body := fun i hi => by
            show Interior (Function.update (shiftSnake (s.snakeLength - 1) s.snake) 0 nh i)
            have hi' : i < s.snakeLength := hi
            rw [hsn]
            by_cases hi0 : i = 0
            · rw [if_pos hi0]
              exact hint
            · rw [if_neg hi0, if_pos (by omega : i ≤ s.snakeLength - 1)]
              exact hs.body (i - 1) (by omega)
          food_int := hs.food_int
          food_free := fun i hi => by
            show Function.update (shiftSnake (s.snakeLength - 1) s.snake) 0 nh i ≠ s.food
            have hi' : i < s.snakeLength := hi
            rw [hsn]
            by_cases hi0 : i = 0
            · rw [if_pos hi0]
              exact he
            · rw [if_neg hi0, if_pos (by omega : i ≤ s.snakeLength - 1)]
              exact hs.food_free (i - 1) (by omega)
          dir_unit := hd
          no_reverse := by
            show (⟨toInt8 ((Function.update (shiftSnake (s.snakeLength - 1) s.snake) 0 nh 0).x + d.x),
                toInt8 ((Function.update (shiftSnake (s.snakeLength - 1) s.snake) 0 nh 0).y + d.y)⟩
                  : Point)
              ≠ Function.update (shiftSnake (s.snakeLength - 1) s.snake) 0 nh 1
            rw [hsn, hsn, if_pos rfl, if_neg (by omega : ¬ (1 = 0)),
              if_pos (by omega : 1 ≤ s.snakeLength - 1), hnh]
            exact two_steps_ne (s.snake 0) d hd (hs.body 0 (by omega)) }

/-- The invariant after `initSnake`, in whatever phase the game continues. -/
theorem inv_initSnake (fuel : Nat) (s s' : State) (h : initSnake fuel s = some s')
    (u : State) (u1 : u.snake = s'.snake) (u2 : u.snakeLength = s'.snakeLength)
    (u3 : u.food = s'.food) (u4 : u.direction = s'.direction) : Inv u := by
  unfold initSnake at h
  simp only [Option.map_eq_some'] at h
  obtain ⟨s6, h6, rfl⟩ := h
  refine inv_spawnFood fuel _ s6 h6 ?_ ?_ ?_ ?_ ?_ ?_ u u1 u2 u3 u4
  · show 3 ≤ 3
    omega
  · show 3 ≤ 17
    omega
  · intro i j hij hj
    have hj' : j < 3 := hj
    interval_cases j <;> interval_cases i <;> simp [Function.update]
  · intro i hi
    have hi' : i < 3 := hi
    interval_cases i <;> simp [Function.update, Interior]
  · simp [moves]
  · simp [nextPos, Function.update, toInt8]

/-- The fireworks change the seed and the particles only. -/
theorem launchParticles_frame : ∀ (n : Nat) (s : State), SameGame s (launchParticles n s)
  | 0, s => SameGame.refl s
  | n + 1, s => by
    have ih := launchParticles_frame n s
    unfold SameGame at ih ⊢
    simp only [launchParticles]
    exact ih

theorem updateParticle_frame (vis : Nat → Bool) (i : Nat) (s : State) :
    SameGame s (updateParticle vis i s) := by
  unfold updateParticle SameGame
  simp only
  split_ifs <;> exact ⟨rfl, rfl, rfl, rfl, rfl, rfl, rfl, rfl⟩

theorem updateParticles_frame (vis : Nat → Bool) : ∀ (n : Nat) (s : State),
    SameGame s (updateParticles vis n s)
  | 0, s => SameGame.refl s
  | n + 1, s => by
    rw [updateParticles]
    exact (updateParticles_frame vis n s).trans (updateParticle_frame vis n _)

theorem secondBurst_frame : ∀ (n : Nat) (s : State), SameGame s (secondBurst n s)
  | 0, s => SameGame.refl s
  | n + 1, s => by
    have ih := secondBurst_frame n s
    unfold SameGame at ih ⊢
    simp only [secondBurst]
    exact ih

theorem drawGameOver_frame (vis : Nat → Bool) (s : State) : SameGame s (drawGameOver vis s) := by
  have h1 : SameGame s (if s.animTimer = 0 then launchParticles MAX_PARTICLES s else s) := by
    by_cases h0 : s.animTimer = 0
    · rw [if_pos h0]
      exact launchParticles_frame _ s
    · rw [if_neg h0]
      exact SameGame.refl s
  have h2 := h1.trans (updateParticles_frame vis MAX_PARTICLES _)
  unfold drawGameOver
  simp only
  generalize updateParticles vis MAX_PARTICLES
    (if s.animTimer = 0 then launchParticles MAX_PARTICLES s else s) = s2 at h2 ⊢
  by_cases h15 : s2.animTimer = 15
  · rw [if_pos h15]
    exact h2.trans (secondBurst_frame _ _)
  · rw [if_neg h15]
    exact h2

/-! ## The tick, phase by phase -/

theorem loop_playing (fuel : Nat) (vis : Nat → Bool) (s : State)
    (hg : s.gameState = GameState.PLAYING) :
    loop fuel vis s =
      if isDecision s then moveSnake fuel (decisionState s)
      else some { s with frameCounter := (s.frameCounter + 1) % 256 } := by
  cases s
  simp only at hg
  subst hg
  rfl

theorem loop_eating (fuel : Nat) (vis : Nat → Bool) (s : State)
    (hg : s.gameState = GameState.EATING) :
    loop fuel vis s = some (eatingTick { s with frameCounter := (s.frameCounter + 1) % 256 }) := by
  cases s
  simp only at hg
  subst hg
  rfl

theorem loop_game_over (fuel : Nat) (vis : Nat → Bool) (s : State)
    (hg : s.gameState = GameState.GAME_OVER) :
    loop fuel vis s
      = some (gameOverTick vis { s with frameCounter := (s.frameCounter + 1) % 256 }) := by
  cases s
  simp only at hg
  subst hg
  rfl

theorem loop_restarting (fuel : Nat) (vis : Nat → Bool) (s : State)
    (hg : s.gameState = GameState.RESTARTING) :
    loop fuel vis s = restartingTick fuel { s with frameCounter := (s.frameCounter + 1) % 256 } := by
  cases s
  simp only at hg
  subst hg
  rfl

/-- The state in which `moveSnake` runs keeps the snake, the food and the phase. -/
theorem decisionState_frame (s : State) :
    (decisionState s).snake = s.snake ∧
    (decisionState s).snakeLength = s.snakeLength ∧
    (decisionState s).food = s.food ∧
    (decisionState s).gameState = s.gameState ∧
    (decisionState s).animTimer = s.animTimer ∧
    (decisionState s).moveDelay = s.moveDelay ∧
    (decisionState s).frameCounter = 0 ∧
    (decisionState s).life = s.life := by
  obtain ⟨f1, f2, f3, f4, f5, f6, _, f8⟩ :=
    smartDirection_frame { s with frameCounter := (s.frameCounter + 1) % 256 }
  exact ⟨f1, f2, f3, f4, f5, f6, rfl, f8⟩

theorem inv_decisionState (s : State) (hs : Inv s) : Inv (decisionState s) := by
  have h0 : Inv { s with frameCounter := (s.frameCounter + 1) % 256 } :=
    hs.of_frame rfl rfl rfl rfl (fun hh => hh)
  have hsd := inv_smartDirection _ h0
  unfold decisionState
  generalize smartDirection { s with frameCounter := (s.frameCounter + 1) % 256 } = sd at hsd
  exact hsd.of_frame rfl rfl rfl rfl (fun hh => hh)

/-- Every tick preserves the invariant. -/
theorem inv_loop (fuel : Nat) (vis : Nat → Bool) (s s' : State) (hs : Inv s)
    (h : loop fuel vis s = some s') : Inv s' := by
  cases hg : s.gameState with
  | PLAYING =>
    rw [loop_playing fuel vis s hg] at h
    by_cases hdec : isDecision s
    · rw [if_pos hdec] at h
      exact inv_moveSnake fuel (decisionState s) s' (inv_decisionState s hs)
        ((decisionState_frame s).2.2.2.1.trans hg) h
    · rw [if_neg hdec] at h
      obtain rfl := Option.some.inj h
      exact hs.of_frame rfl rfl rfl rfl (fun hh => hh)
  | EATING =>
    rw [loop_eating fuel vis s hg] at h
    obtain rfl := Option.some.inj h
    unfold eatingTick
    simp only
    split_ifs <;> exact hs.of_frame rfl rfl rfl rfl (fun _ => Or.inr hg)
  | GAME_OVER =>
    rw [loop_game_over fuel vis s hg] at h
    obtain rfl := Option.some.inj h
    obtain ⟨f1, f2, f3, f4, f5, _, _, _⟩ :=
      drawGameOver_frame vis { s with frameCounter := (s.frameCounter + 1) % 256 }
    unfold gameOverTick
    generalize drawGameOver vis { s with frameCounter := (s.frameCounter + 1) % 256 } = dg
      at f1 f2 f3 f4 f5 ⊢
    simp only
    have hgo : dg.gameState = GameState.GAME_OVER := f5.trans hg
    have hdg : Inv dg := hs.of_frame f1 f2 f3 f4
      (fun hh => by rcases hh with hh | hh <;> exact absurd (hgo.symm.trans hh) (by decide))
    split_ifs
    · exact hdg.of_frame rfl rfl rfl rfl (fun hh => by rcases hh with hh | hh <;> cases hh)
    · exact hdg.of_frame rfl rfl rfl rfl
        (fun hh => by rcases hh with hh | hh <;> exact absurd (hgo.symm.trans hh) (by decide))
  | RESTARTING =>
    rw [loop_restarting fuel vis s hg] at h
    unfold restartingTick at h
    simp only at h
    split_ifs at h
    · simp only [Option.map_eq_some'] at h
      obtain ⟨s2, h2, rfl⟩ := h
      exact inv_initSnake fuel _ s2 h2 _ rfl rfl rfl rfl
    · obtain rfl := Option.some.inj h
      have hg' : ({ s with frameCounter := (s.frameCounter + 1) % 256
                           animTimer := (s.animTimer + 1) % 256 } : State).gameState
          = GameState.RESTARTING := hg
      exact hs.of_frame rfl rfl rfl rfl
        (fun hh => by rcases hh with hh | hh <;> exact absurd (hg'.symm.trans hh) (by decide))

/-- Every reachable state satisfies the invariant. -/
theorem inv_of_reachable (s : State) (h : Reachable s) : Inv s := by
  induction h with
  | boot fuel seed s _ hb => exact inv_initSnake fuel _ s hb s rfl rfl rfl rfl
  | tick fuel vis s s' _ hl ih => exact inv_loop fuel vis s s' ih hl

/-! ## Runs -/

theorem reachable_runTicks (fuel : Nat) (vis : Nat → Bool) : ∀ (n : Nat) (s s' : State),
    Reachable s → runTicks fuel vis n s = some s' → Reachable s'
  | 0, s, s', hs, h => by
    rw [runTicks] at h
    obtain rfl := Option.some.inj h
    exact hs
  | n + 1, s, s', hs, h => by
    rw [runTicks, Option.bind_eq_some] at h
    obtain ⟨t, ht, hl⟩ := h
    exact Reachable.tick fuel vis t s' (reachable_runTicks fuel vis n s t hs ht) hl

/-- The states of the run with seed 1 are reachable. -/
theorem reachable_demoRun (n : Nat) (s : State) (h : demoRun n = some s) : Reachable s := by
  unfold demoRun at h
  rw [Option.bind_eq_some] at h
  obtain ⟨t, ht, hr⟩ := h
  exact reachable_runTicks 4 _ n t s (Reachable.boot 4 1 t (by norm_num) ht) hr

/-- The state of the run with seed 1 after `n` ticks is reachable, if the fuel lasts. -/
theorem reachable_demoState (n : Nat) (h : (demoRun n).isSome = true) :
    Reachable (demoState n) := by
  apply reachable_demoRun n
  unfold demoState
  cases hd : demoRun n with
  | none => rw [hd] at h; exact absurd h (by simp)
  | some s => rfl

/-! ## The outcomes of a decision tick -/

/-- The four outcomes of `moveSnake`. -/
theorem moveSnake_outcome (fuel : Nat) (t s' : State) (h : moveSnake fuel t = some s') :
    (resolveHead t = none ∧
      s' = { t with gameState := GameState.GAME_OVER, animTimer := 0 }) ∨
    (∃ nh d, resolveHead t = some (nh, d) ∧ nh ≠ t.food ∧
      s' = { t with
        direction := d
        snake := Function.update (shiftSnake (t.snakeLength - 1) t.snake) 0 nh }) ∨
    (∃ nh d, resolveHead t = some (nh, d) ∧ nh = t.food ∧ growLength t.snakeLength ≥ 18 ∧
      s' = { t with
        direction := d
        gameState := GameState.GAME_OVER
        animTimer := 0
        snake := shiftSnake t.snakeLength t.snake
        snakeLength := growLength t.snakeLength }) ∨
    (∃ nh d seed, resolveHead t = some (nh, d) ∧ nh = t.food ∧ growLength t.snakeLength < 18 ∧
      s' = { t with
        direction := d
        gameState := GameState.EATING
        animTimer := 0
        snake := Function.update (shiftSnake t.snakeLength t.snake) 0 nh
        snakeLength := growLength t.snakeLength
        food := foodCell seed
        rngSeed := lcg (lcg seed) }) := by
  cases hr : resolveHead t with
  | none =>
    rw [moveSnake_blocked fuel t hr] at h
    exact Or.inl ⟨rfl, (Option.some.inj h).symm⟩
  | some hd =>
    obtain ⟨nh, d⟩ := hd
    by_cases he : nh = t.food
    · by_cases hw : growLength t.snakeLength ≥ 18
      · rw [moveSnake_win fuel t nh d hr he hw] at h
        exact Or.inr (Or.inr (Or.inl ⟨nh, d, rfl, he, hw, (Option.some.inj h).symm⟩))
      · rw [moveSnake_eat fuel t nh d hr he (by omega)] at h
        obtain ⟨seed, hs, _⟩ := spawnFood_spec fuel _ s' h
        exact Or.inr (Or.inr (Or.inr ⟨nh, d, seed, rfl, he, by omega, hs⟩))
    · rw [moveSnake_move fuel t nh d hr he] at h
      exact Or.inr (Or.inl ⟨nh, d, rfl, he, (Option.some.inj h).symm⟩)

/-- The growth rule of `moveSnake` keeps the length an 8-bit value. -/
theorem growLength_lt (len : Nat) : growLength len < 256 := by
  unfold growLength MAX_SNAKE_LENGTH
  simp only
  split_ifs <;> omega

/-- With enough fuel `moveSnake` returns, whatever the state. -/
theorem moveSnake_total (t : State) :
    ∃ fuel s', moveSnake fuel t = some s' := by
  cases hr : resolveHead t with
  | none => exact ⟨0, _, moveSnake_blocked 0 t hr⟩
  | some hd =>
    obtain ⟨nh, d⟩ := hd
    by_cases he : nh = t.food
    · by_cases hw : growLength t.snakeLength ≥ 18
      · exact ⟨0, _, moveSnake_win 0 t nh d hr he hw⟩
      · obtain ⟨fuel, s', hs⟩ := spawnFood_terminates
          { t with
            direction := d
            gameState := GameState.EATING
            animTimer := 0
            snake := Function.update (shiftSnake t.snakeLength t.snake) 0 nh
            snakeLength := growLength t.snakeLength }
          (by
            show growLength t.snakeLength < 289
            have := growLength_lt t.snakeLength
            omega)
        exact ⟨fuel, s', by rw [moveSnake_eat fuel t nh d hr he (by omega)]; exact hs⟩
    · exact ⟨0, _, moveSnake_move 0 t nh d hr he⟩

/-- With enough fuel a tick returns, whatever the state. -/
theorem loop_total (vis : Nat → Bool) (s : State) :
    ∃ fuel s', loop fuel vis s = some s' := by
  cases hg : s.gameState with
  | PLAYING =>
    by_cases hdec : isDecision s
    · obtain ⟨fuel, s', h⟩ := moveSnake_total (decisionState s)
      exact ⟨fuel, s', by rw [loop_playing fuel vis s hg, if_pos hdec]; exact h⟩
    · exact ⟨0, _, by rw [loop_playing 0 vis s hg, if_neg hdec]⟩
  | EATING => exact ⟨0, _, loop_eating 0 vis s hg⟩
  | GAME_OVER => exact ⟨0, _, loop_game_over 0 vis s hg⟩
  | RESTARTING =>
    by_cases h20 : (s.animTimer + 1) % 256 > 20
    · obtain ⟨fuel, s6, h6⟩ := spawnFood_terminates
        { s with
          frameCounter := (s.frameCounter + 1) % 256
          animTimer := (s.animTimer + 1) % 256
          snakeLength := 3
          snake := Function.update (Function.update (Function.update s.snake 0 ⟨9, 9⟩)
            1 ⟨8, 9⟩) 2 ⟨7, 9⟩
          direction := ⟨1, 0⟩ }
        (by show 3 < 289; omega)
      refine ⟨fuel, { s6 with
        life := clearLife MAX_PARTICLES s6.life
        gameState := GameState.PLAYING
        animTimer := 0
        frameCounter := 0
        moveDelay := 8 }, ?_⟩
      rw [loop_restarting fuel vis s hg]
      unfold restartingTick initSnake
      simp only [h20, if_true]
      rw [h6]
      rfl
    · refine ⟨0, { s with
        frameCounter := (s.frameCounter + 1) % 256
        animTimer := (s.animTimer + 1) % 256 }, ?_⟩
      rw [loop_restarting 0 vis s hg]
      unfold restartingTick
      simp only [h20, if_false]

/-! ## The generator and the coordinate mapper -/

theorem myRandom2_range (lo hi seed : Nat) (h1 : lo < hi) (h2 : hi ≤ 65535) :
    (myRandom2 lo hi seed).1 = lo + lcg seed % (hi - lo) ∧
    lo ≤ (myRandom2 lo hi seed).1 ∧ (myRandom2 lo hi seed).1 < hi ∧
    (myRandom2 lo hi seed).2 = lcg seed := by
  have e : toUInt16 ((hi : Int) - (lo : Int)) = hi - lo := by
    unfold toUInt16
    omega
  have hlt : lcg seed % (hi - lo) < hi - lo := Nat.mod_lt _ (by omega)
  have hv : (myRandom2 lo hi seed).1 = lo + lcg seed % (hi - lo) := by
    unfold myRandom2
    simp only [e, myRandom_fst (hi - lo) seed (by omega) (by omega)]
    omega
  refine ⟨hv, by omega, by omega, ?_⟩
  unfold myRandom2
  simp only [myRandom_snd]

theorem XY_lt (sim : Bool) (x y : Nat) (hx : x < 19) (hy : y < 19) : XY sim x y < NUM_LEDS := by
  unfold XY NUM_LEDS kMatrixWidth kMatrixHeight
  cases sim <;> simp only [Bool.false_eq_true, if_false, if_true] <;> split_ifs <;> omega

theorem XY_inj (sim : Bool) (x y x' y' : Nat) (hx : x < 19) (hy : y < 19) (hx' : x' < 19)
    (hy' : y' < 19) (h : XY sim x y = XY sim x' y') : x = x' ∧ y = y' := by
  unfold XY NUM_LEDS kMatrixWidth kMatrixHeight at h
  cases sim <;> simp only [Bool.false_eq_true, if_false, if_true] at h <;> split_ifs at h <;> omega

theorem XY_surj (sim : Bool) (k : Nat) (hk : k < NUM_LEDS) :
    ∃ x y, x < 19 ∧ y < 19 ∧ XY sim x y = k := by
  unfold NUM_LEDS kMatrixWidth kMatrixHeight at hk
  by_cases hs : sim = true ∨ (k / 19) % 2 = 0
  · refine ⟨k % 19, k / 19, by omega, by omega, ?_⟩
    unfold XY NUM_LEDS kMatrixWidth kMatrixHeight
    rcases hs with hs | hs
    · subst hs
      simp only [if_true]
      split_ifs <;> omega
    · cases sim <;> simp only [Bool.false_eq_true, if_false, if_true] <;> split_ifs <;> omega
  · refine ⟨18 - k % 19, k / 19, by omega, by omega, ?_⟩
    have h1 : sim = false := by
      cases sim
      · rfl
      · exact absurd (Or.inl rfl) hs
    subst h1
    unfold XY NUM_LEDS kMatrixWidth kMatrixHeight
    simp only [Bool.false_eq_true, if_false]
    split_ifs <;> omega

theorem XY_sentinel (sim : Bool) (x y : Nat) (h : x ≥ 19 ∨ y ≥ 19) : XY sim x y = NUM_LEDS := by
  unfold XY kMatrixWidth kMatrixHeight
  rw [if_pos h]

/-! ## The EATING phase -/

theorem runWith_succ (fuel : Nat → Nat) (vis : Nat → Nat → Bool) (n : Nat) (s t : State)
    (h : runWith fuel vis n s = some t) :
    runWith fuel vis (n + 1) s = loop (fuel n) (vis n) t := by
  rw [runWith, h]
  rfl

/-- The states of a run from a reachable state are reachable. -/
theorem reachable_runWith (fuel : Nat → Nat) (vis : Nat → Nat → Bool) : ∀ (n : Nat) (s t : State),
    Reachable s → runWith fuel vis n s = some t → Reachable t
  | 0, s, t, hs, h => by
    rw [runWith] at h
    obtain rfl := Option.some.inj h
    exact hs
  | n + 1, s, t, hs, h => by
    rw [runWith, Option.bind_eq_some] at h
    obtain ⟨u, hu, hl⟩ := h
    exact Reachable.tick (fuel n) (vis n) u t (reachable_runWith fuel vis n s u hs hu) hl

/-- An EATING tick that starts with `animTimer < 3` only counts. -/
theorem loop_eating_count (fuel : Nat) (vis : Nat → Bool) (s : State)
    (hg : s.gameState = GameState.EATING) (ha : s.animTimer < 3) :
    loop fuel vis s = some { s with
      frameCounter := (s.frameCounter + 1) % 256
      animTimer := s.animTimer + 1 } := by
  rw [loop_eating fuel vis s hg]
  unfold eatingTick
  have e : (s.animTimer + 1) % 256 = s.animTimer + 1 := by omega
  have h3 : ¬ (s.animTimer + 1 > 3) := by omega
  simp only [e, h3, if_false]

/-- The EATING tick that starts with `animTimer = 3` goes back to PLAYING and
applies the speed-up rule. -/
theorem loop_eating_last (fuel : Nat) (vis : Nat → Bool) (s : State)
    (hg : s.gameState = GameState.EATING) (ha : s.animTimer = 3) (hmd : s.moveDelay < 256) :
    loop fuel vis s = some { s with
      frameCounter := (s.frameCounter + 1) % 256
      gameState := GameState.PLAYING
      animTimer := 0
      moveDelay := if s.moveDelay > 5 ∧ s.snakeLength % 5 = 0 then s.moveDelay - 1
                   else s.moveDelay } := by
  rw [loop_eating fuel vis s hg]
  unfold eatingTick
  have e : (s.animTimer + 1) % 256 = 4 := by omega
  simp only [e]
  by_cases hc : s.moveDelay > 5 ∧ s.snakeLength % 5 = 0
  · have e2 : toUInt8 ((s.moveDelay : Int) - 1) = s.moveDelay - 1 := by
      unfold toUInt8
      omega
    simp only [hc, and_self, if_true, e2, gt_iff_lt, Nat.lt_add_one, Nat.reduceLT]
  · simp only [hc, if_false, gt_iff_lt, Nat.reduceLT, if_true]

/-! ## The emergency scan -/

/-- For a snake of at least three segments, a state in which `smartDirection`
rejects all four moves has all four neighbours of the head occupied. -/
theorem allBlocked_of_all_rejected (s : State) (hlen : 3 ≤ s.snakeLength)
    (h : ∀ i, i < 4 → rejected s (move i) = true) : allBlocked s := by
  intro m hm
  have hm' : ∃ i, i < 4 ∧ move i = m := by
    rw [mem_moves] at hm
    rcases hm with rfl | rfl | rfl | rfl
    · exact ⟨0, by norm_num, rfl⟩
    · exact ⟨1, by norm_num, rfl⟩
    · exact ⟨2, by norm_num, rfl⟩
    · exact ⟨3, by norm_num, rfl⟩
  obtain ⟨i, hi, rfl⟩ := hm'
  have hr := h i hi
  by_contra hocc
  have hocc' : isOccupied s (nextPos s (move i)).x (nextPos s (move i)).y = false := by
    simpa using hocc
  by_cases hneck : nextPos s (move i) = s.snake 1
  · have := isOccupied_of_body s 1 (by omega)
    rw [← hneck, hocc'] at this
    exact absurd this (by simp)
  · have : rejected s (move i) = false := (accepted_iff s (move i)).mpr ⟨fun _ => hneck, hocc'⟩
    rw [this] at hr
    exact absurd hr (by simp)

/-- After `smartDirection`, for a snake of at least three segments with a heading
of the table: if the cell ahead is occupied then all four neighbours are. -/
theorem blocked_after_smartDirection (s : State) (hlen : 3 ≤ s.snakeLength)
    (h : isOccupied (smartDirection s) (nextPos (smartDirection s) (smartDirection s).direction).x
      (nextPos (smartDirection s) (smartDirection s).direction).y = true) :
    allBlocked s ∧ smartDirection s = s := by
  rcases smartDirection_choice s with hc | ⟨k, hk, hbk, hr, _, _⟩
  · exact ⟨allBlocked_of_all_rejected s hlen hc.1, smartDirection_all_rejected s hc.1⟩
  · obtain ⟨f1, f2, _⟩ := smartDirection_frame s
    have hdir : (smartDirection s).direction = move k := by
      rw [smartDirection_direction, hbk, if_pos (by omega)]
      simp [move]
    rw [hdir, nextPos_congr s _ f1, isOccupied_congr s _ f1 f2] at h
    rw [((accepted_iff s (move k)).mp hr).2] at h
    exact absurd h (by simp)

/-- With the cell ahead free, `moveSnake` skips the emergency scan. -/
theorem resolveHead_free (s : State)
    (h : isOccupied s (nextPos s s.direction).x (nextPos s s.direction).y = false) :
    resolveHead s = some (nextPos s s.direction, s.direction) := by
  unfold resolveHead
  simp only [h, Bool.false_eq_true, if_false]

/-- The two versions of `moveSnake` agree whenever the scan finds no escape or is
not run. -/
theorem moveSnake_eq_noEscape (fuel : Nat) (s : State)
    (h : isOccupied s (nextPos s s.direction).x (nextPos s s.direction).y = true →
      allBlocked s) :
    moveSnake fuel s = moveSnakeNoEscape fuel s := by
  by_cases hocc : isOccupied s (nextPos s s.direction).x (nextPos s s.direction).y = true
  · have hnone : resolveHead s = none := (resolveHead_none s).mpr ⟨hocc, h hocc⟩
    rw [moveSnake_blocked fuel s hnone]
    unfold moveSnakeNoEscape
    simp only [hocc, if_true]
  · have hocc' : isOccupied s (nextPos s s.direction).x (nextPos s s.direction).y = false := by
      simpa using hocc
    unfold moveSnake moveSnakeNoEscape
    rw [resolveHead_free s hocc']
    simp only [hocc', Bool.false_eq_true, if_false]

/-- The state of the run with seed 4 after `n` ticks is reachable, if the fuel lasts. -/
theorem reachable_trapState (n : Nat) (h : (trapRun n).isSome = true) :
    Reachable (trapState n) := by
  have key : ∀ s, trapRun n = some s → Reachable s := by
    intro s hs
    unfold trapRun at hs
    rw [Option.bind_eq_some] at hs
    obtain ⟨t, ht, hr⟩ := hs
    exact reachable_runTicks 4 _ n t s (Reachable.boot 4 4 t (by norm_num) ht) hr
  apply key
  unfold trapState
  cases hd : trapRun n with
  | none => rw [hd] at h; exact absurd h (by simp)
  | some s => rfl

/-! ## The life counters of the particles -/

theorem launchParticles_life : ∀ (n : Nat) (s : State) (i : Nat),
    (launchParticles n s).life i = if i < n then 255 else s.life i
  | 0, s, i => by simp [launchParticles]
  | n + 1, s, i => by
    show Function.update (launchParticles n s).life n 255 i = _
    by_cases h : i = n
    · subst h
      rw [Function.update_same, if_pos (by omega)]
    · rw [Function.update_noteq h, launchParticles_life n s i]
      by_cases h2 : i < n
      · rw [if_pos h2, if_pos (by omega)]
      · rw [if_neg h2, if_neg (by omega)]

theorem secondBurst_life : ∀ (n : Nat) (s : State) (i : Nat),
    (secondBurst n s).life i = if i < n then 200 else s.life i
  | 0, s, i => by simp [secondBurst]
  | n + 1, s, i => by
    show Function.update (secondBurst n s).life n 200 i = _
    by_cases h : i = n
    · subst h
      rw [Function.update_same, if_pos (by omega)]
    · rw [Function.update_noteq h, secondBurst_life n s i]
      by_cases h2 : i < n
      · rw [if_pos h2, if_pos (by omega)]
      · rw [if_neg h2, if_neg (by omega)]

theorem updateParticle_life (vis : Nat → Bool) (j : Nat) (s : State) (i : Nat) :
    (updateParticle vis j s).life i =
      if i = j ∧ s.life j > 0 then toUInt8 ((s.life j : Int) - 3) else s.life i := by
  unfold updateParticle
  by_cases hl : s.life j > 0
  · have hlife : ∀ t : State, t = (if vis j = true then
          if (myRandom 3 s.rngSeed).1 = 0 then
            { s with life := Function.update s.life j (toUInt8 ((s.life j : Int) - 3)),
                     rngSeed := (myRandom 3 (myRandom 3 (myRandom 3 s.rngSeed).2).2).2 }
          else { s with life := Function.update s.life j (toUInt8 ((s.life j : Int) - 3)),
                        rngSeed := (myRandom 3 s.rngSeed).2 }
        else { s with life := Function.update s.life j (toUInt8 ((s.life j : Int) - 3)) }) →
        t.life = Function.update s.life j (toUInt8 ((s.life j : Int) - 3)) := by
      intro t ht
      subst ht
      split_ifs <;> rfl
    simp only [hl, if_true]
    rw [hlife _ rfl]
    by_cases h : i = j
    · subst h
      rw [Function.update_same, if_pos ⟨rfl, trivial⟩]
    · rw [Function.update_noteq h, if_neg (fun hh => h hh.1)]
  · rw [if_neg hl, if_neg (fun hh => hl hh.2)]

theorem updateParticles_life (vis : Nat → Bool) : ∀ (n : Nat) (s : State) (i : Nat),
    (updateParticles vis n s).life i =
      if i < n ∧ s.life i > 0 then toUInt8 ((s.life i : Int) - 3) else s.life i
  | 0, s, i => by simp [updateParticles]
  | n + 1, s, i => by
    rw [updateParticles, updateParticle_life, updateParticles_life vis n s n,
      updateParticles_life vis n s i]
    have hn : ¬ (n < n ∧ s.life n > 0) := by omega
    rw [if_neg hn]
    by_cases h : i = n
    · subst h
      by_cases hl : s.life i > 0
      · rw [if_pos ⟨rfl, hl⟩, if_pos ⟨by omega, hl⟩]
      · rw [if_neg (fun hh => hl hh.2), if_neg hn, if_neg (fun hh => hl hh.2)]
    · rw [if_neg (fun hh => h hh.1)]
      by_cases h2 : i < n ∧ s.life i > 0
      · rw [if_pos h2, if_pos ⟨by omega, h2.2⟩]
      · rw [if_neg h2, if_neg (by omega)]

/-- The life counters after `drawGameOver`. -/
theorem drawGameOver_life (vis : Nat → Bool) (s : State) (i : Nat) (hi : i < MAX_PARTICLES) :
    (drawGameOver vis s).life i =
      if s.animTimer = 15 ∧ i < 25 then 200
      else if s.animTimer = 0 then 252
      else if s.life i > 0 then toUInt8 ((s.life i : Int) - 3) else s.life i := by
  have hi' : i < 50 := hi
  have h1 : (if s.animTimer = 0 then launchParticles MAX_PARTICLES s else s).life i
      = if s.animTimer = 0 then 255 else s.life i := by
    by_cases h0 : s.animTimer = 0
    · rw [if_pos h0, if_pos h0, launchParticles_life, if_pos hi]
    · rw [if_neg h0, if_neg h0]
  have ha1 : (if s.animTimer = 0 then launchParticles MAX_PARTICLES s else s).animTimer
      = s.animTimer := by
    by_cases h0 : s.animTimer = 0
    · rw [if_pos h0]
      exact (launchParticles_frame _ s).2.2.2.2.2.1
    · rw [if_neg h0]
  have h2 := updateParticles_life vis MAX_PARTICLES
    (if s.animTimer = 0 then launchParticles MAX_PARTICLES s else s) i
  have ha2 := (updateParticles_frame vis MAX_PARTICLES
    (if s.animTimer = 0 then launchParticles MAX_PARTICLES s else s)).2.2.2.2.2.1
  rw [h1] at h2
  rw [ha1] at ha2
  unfold drawGameOver
  simp only
  generalize updateParticles vis MAX_PARTICLES
    (if s.animTimer = 0 then launchParticles MAX_PARTICLES s else s) = s2 at h2 ha2 ⊢
  rw [ha2]
  have e25 : MAX_PARTICLES / 2 = 25 := rfl
  have h3 : s2.life i =
      if s.animTimer = 0 then 252
      else if s.life i > 0 then toUInt8 ((s.life i : Int) - 3) else s.life i := by
    rw [h2]
    by_cases h0 : s.animTimer = 0
    · simp only [h0, if_true]
      rw [if_pos ⟨hi, by norm_num⟩]
      decide
    · simp only [h0, if_false]
      by_cases hl : s.life i > 0
      · rw [if_pos ⟨hi, hl⟩, if_pos hl]
      · rw [if_neg (fun hh => hl hh.2), if_neg hl]
  by_cases h15 : s.animTimer = 15
  · rw [if_pos h15, secondBurst_life, e25]
    by_cases h25 : i < 25
    · rw [if_pos h25, if_pos ⟨h15, h25⟩]
    · rw [if_neg h25, if_neg (fun hh => h25 hh.2), h3]
  · rw [if_neg h15, if_neg (fun hh => h15 hh.1), h3]

/-- One tick of the GAME_OVER phase that starts with `animTimer = k <= 60`. -/
theorem loop_game_over_tick (fuel : Nat) (vis : Nat → Bool) (s : State) (k : Nat)
    (hg : s.gameState = GameState.GAME_OVER) (ha : s.animTimer = k) (hk : k ≤ 60) :
    ∃ t, loop fuel vis s = some t ∧
      t.gameState = (if k = 60 then GameState.RESTARTING else GameState.GAME_OVER) ∧
      t.animTimer = (if k = 60 then 0 else k + 1) ∧
      (∀ i, i < MAX_PARTICLES → t.life i =
        if k = 15 ∧ i < 25 then 200
        else if k = 0 then 252
        else if s.life i > 0 then toUInt8 ((s.life i : Int) - 3) else s.life i) ∧
      SameBoard s t ∧ t.moveDelay = s.moveDelay := by
  have hlife := drawGameOver_life vis { s with frameCounter := (s.frameCounter + 1) % 256 }
  obtain ⟨f1, f2, f3, f4, f5, f6, f7, _⟩ :=
    drawGameOver_frame vis { s with frameCounter := (s.frameCounter + 1) % 256 }
  rw [loop_game_over fuel vis s hg]
  unfold gameOverTick
  generalize drawGameOver vis { s with frameCounter := (s.frameCounter + 1) % 256 } = dg
    at hlife f1 f2 f3 f4 f5 f6 f7 ⊢
  have hdga : dg.animTimer = k := f6.trans ha
  have hdgg : dg.gameState = GameState.GAME_OVER := f5.trans hg
  have hl : ∀ i, i < MAX_PARTICLES → dg.life i =
      if k = 15 ∧ i < 25 then 200
      else if k = 0 then 252
      else if s.life i > 0 then toUInt8 ((s.life i : Int) - 3) else s.life i := by
    intro i hi
    rw [hlife i hi]
    show (if s.animTimer = 15 ∧ i < 25 then 200 else if s.animTimer = 0 then 252
      else if s.life i > 0 then toUInt8 ((s.life i : Int) - 3) else s.life i) = _
    rw [ha]
  simp only [hdga]
  by_cases h60 : k = 60
  · subst h60
    exact ⟨_, rfl, rfl, rfl, hl, ⟨f1, f2, f3, f4⟩, f7⟩
  · have e : (k + 1) % 256 = k + 1 := by omega
    have hn : ¬ (k + 1 > 60) := by omega
    simp only [e, hn, if_false, h60]
    exact ⟨_, rfl, hdgg, rfl, hl, ⟨f1, f2, f3, f4⟩, f7⟩

/-- The closed form of the life counters is positive and goes down by three. -/
theorem lifeAt_pos (k i : Nat) (hk : k ≤ 61) : 0 < lifeAt k i := by
  unfold lifeAt
  split_ifs <;> omega

theorem lifeAt_succ (k i : Nat) (hk1 : 1 ≤ k) (hk : k ≤ 60) (hb : ¬ (k = 15 ∧ i < 25)) :
    lifeAt (k + 1) i + 3 = lifeAt k i := by
  unfold lifeAt
  split_ifs <;> omega

/-- The life counters after a tick, from the closed form before it. -/
theorem lifeAt_step (k i l : Nat) (hk : k ≤ 60) (hl : 1 ≤ k → l = lifeAt k i) :
    (if k = 15 ∧ i < 25 then 200
      else if k = 0 then 252
      else if l > 0 then toUInt8 ((l : Int) - 3) else l) = lifeAt (k + 1) i := by
  by_cases h0 : k = 0
  · subst h0
    simp [lifeAt]
  · have hl' := hl (by omega)
    subst hl'
    unfold lifeAt toUInt8
    split_ifs <;> omega

/-- The GAME_OVER phase, tick by tick, from its first tick. -/
theorem game_over_run (fuel : Nat → Nat) (vis : Nat → Nat → Bool) (s : State)
    (hg : s.gameState = GameState.GAME_OVER) (ha : s.animTimer = 0) :
    ∀ k, k ≤ 60 → ∃ t, runWith fuel vis k s = some t ∧
      t.gameState = GameState.GAME_OVER ∧ t.animTimer = k ∧
      (1 ≤ k → ∀ i, i < MAX_PARTICLES → t.life i = lifeAt k i) ∧
      SameBoard s t ∧ t.moveDelay = s.moveDelay := by
  intro k
  induction k with
  | zero =>
    exact fun _ => ⟨s, rfl, hg, ha, fun h => absurd h (by omega), ⟨rfl, rfl, rfl, rfl⟩, rfl⟩
  | succ k ih =>
    intro hk
    obtain ⟨t, ht, tg, ta, tl, ⟨b1, b2, b3, b4⟩, tm⟩ := ih (by omega)
    obtain ⟨u, hu, ug, ua, ul, ⟨c1, c2, c3, c4⟩, um⟩ :=
      loop_game_over_tick (fuel k) (vis k) t k tg ta (by omega)
    refine ⟨u, ?_, ?_, ?_, fun _ i hi => ?_, ⟨c1.trans b1, c2.trans b2, c3.trans b3, c4.trans b4⟩,
      um.trans tm⟩
    · rw [runWith_succ fuel vis k s t ht, hu]
    · rw [ug, if_neg (by omega)]
    · rw [ua, if_neg (by omega)]
    · rw [ul i hi]
      exact lifeAt_step k i (t.life i) (by omega) (fun h1 => tl h1 i hi)

/-- The phase GAME_OVER is entered with `animTimer = 0`. -/
theorem game_over_entry (fuel : Nat) (vis : Nat → Bool) (s s' : State)
    (h : loop fuel vis s = some s') (hs : s.gameState ≠ GameState.GAME_OVER)
    (hs' : s'.gameState = GameState.GAME_OVER) : s'.animTimer = 0 := by
  cases hg : s.gameState with
  | PLAYING =>
    rw [loop_playing fuel vis s hg] at h
    obtain ⟨_, _, _, f4, _⟩ := decisionState_frame s
    by_cases hdec : isDecision s
    · rw [if_pos hdec] at h
      rcases moveSnake_outcome fuel (decisionState s) s' h with
        ⟨_, rfl⟩ | ⟨nh, d, _, _, rfl⟩ | ⟨nh, d, _, _, _, rfl⟩ | ⟨nh, d, seed, _, _, _, rfl⟩
      · rfl
      · have h1 : (decisionState s).gameState = GameState.GAME_OVER := hs'
        rw [f4, hg] at h1
        cases h1
      · rfl
      · cases hs'
    · rw [if_neg hdec] at h
      obtain rfl := Option.some.inj h
      have h1 : s.gameState = GameState.GAME_OVER := hs'
      exact absurd h1 hs
  | EATING =>
    rw [loop_eating fuel vis s hg] at h
    obtain rfl := Option.some.inj h
    unfold eatingTick at hs'
    simp only at hs'
    split_ifs at hs'
    · have h1 : s.gameState = GameState.GAME_OVER := hs'
      exact absurd h1 hs
  | GAME_OVER => exact absurd hg hs
  | RESTARTING =>
    rw [loop_restarting fuel vis s hg] at h
    unfold restartingTick at h
    simp only at h
    split_ifs at h
    · simp only [Option.map_eq_some'] at h
      obtain ⟨s2, _, rfl⟩ := h
      cases hs'
    · obtain rfl := Option.some.inj h
      have h1 : s.gameState = GameState.GAME_OVER := hs'
      exact absurd h1 hs

/-! ## Index safety -/

theorem XY_of_onBoard (sim : Bool) (p : Point) (hp : OnBoard p) :
    XY sim (toUInt8 p.x) (toUInt8 p.y) < NUM_LEDS := by
  obtain ⟨h1, h2, h3, h4⟩ := hp
  apply XY_lt <;> unfold toUInt8 <;> omega

theorem onBoard_of_interior (p : Point) (hp : Interior p) : OnBoard p := by
  obtain ⟨h1, h2, h3, h4⟩ := hp
  exact ⟨by omega, by omega, by omega, by omega⟩

theorem wallWrites_lt (sim : Bool) (w : Nat × CRGB) (hw : w ∈ wallWrites sim) :
    w.1 < NUM_LEDS := by
  unfold wallWrites at hw
  have e1 : kMatrixWidth = 19 := rfl
  have e2 : kMatrixHeight = 19 := rfl
  rw [e1, e2] at hw
  simp only [List.mem_append, List.mem_flatMap, List.mem_range, List.mem_cons,
    List.mem_singleton, List.not_mem_nil, or_false] at hw
  rcases hw with ⟨x, hx, rfl | rfl⟩ | ⟨y, hy, rfl | rfl⟩
  · exact XY_lt sim x 0 hx (by norm_num)
  · exact XY_lt sim x 18 hx (by norm_num)
  · exact XY_lt sim 0 y (by norm_num) hy
  · exact XY_lt sim 18 y (by norm_num) hy

theorem flashWrites_lt (sim : Bool) (s : State) (w : Nat × CRGB) (hw : w ∈ flashWrites sim s) :
    w.1 < NUM_LEDS := by
  unfold flashWrites at hw
  have e1 : ((kMatrixWidth : Nat) : Int) = 19 := rfl
  have e2 : ((kMatrixHeight : Nat) : Int) = 19 := rfl
  rw [e1, e2] at hw
  simp only [List.mem_flatMap] at hw
  obtain ⟨dx, _, dy, _, hw⟩ := hw
  split_ifs at hw with hc
  · rw [List.mem_singleton] at hw
    subst hw
    exact XY_of_onBoard sim ⟨toInt8 ((s.snake 0).x + dx), toInt8 ((s.snake 0).y + dy)⟩
      ⟨hc.1, by show toInt8 ((s.snake 0).x + dx) ≤ 18; omega, hc.2.2.1,
        by show toInt8 ((s.snake 0).y + dy) ≤ 18; omega⟩
  · exact absurd hw (List.not_mem_nil _)

/-- Every pixel index that `drawGame` and `drawEatingEffect` write is below
`NUM_LEDS` when the food and the segments of the snake are on the board. -/
theorem drawWrites_lt (lib : Lib) (sim : Bool) (clock : Nat) (s : State)
    (hf : OnBoard s.food) (hb : ∀ i, i < s.snakeLength → OnBoard (s.snake i))
    (hlen : 1 ≤ s.snakeLength) (w : Nat × CRGB)
    (hw : w ∈ drawGameWrites lib sim clock s ++ flashWrites sim s) : w.1 < NUM_LEDS := by
  unfold drawGameWrites at hw
  simp only [List.mem_append, List.mem_singleton] at hw
  rcases hw with (((hw | rfl) | hw) | rfl) | hw
  · exact wallWrites_lt sim w hw
  · exact XY_of_onBoard sim s.food hf
  · unfold bodyWrites at hw
    rw [List.mem_map] at hw
    obtain ⟨i, hi, rfl⟩ := hw
    rw [List.mem_range'_1] at hi
    exact XY_of_onBoard sim (s.snake i) (hb i (by omega))
  · exact XY_of_onBoard sim (s.snake 0) (hb 0 (by omega))
  · exact flashWrites_lt sim s w hw

/-- Every index of `snake[]` that the game logic and `drawGame` use is at most
the length of the snake. -/
theorem snake_index_le (s : State) (ate : Bool) (i : Nat) (hlen : 2 ≤ s.snakeLength)
    (hi : i ∈ isOccupiedReads s ++ spawnFoodReads s ++ smartDirectionReads
      ++ moveSnakeAccesses s ate ++ drawGameReads s) : i ≤ s.snakeLength := by
  unfold isOccupiedReads spawnFoodReads smartDirectionReads moveSnakeAccesses drawGameReads at hi
  simp only [List.mem_append, List.mem_range, List.mem_cons, List.mem_singleton,
    List.mem_flatMap, List.mem_range'_1, List.not_mem_nil, or_false] at hi
  rcases hi with (((hi | hi) | hi) | hi) | hi
  · omega
  · omega
  · omega
  · rcases hi with rfl | ⟨j, hj, hij⟩
    · omega
    · cases ate
      · simp only [Bool.false_eq_true, if_false] at hj
        omega
      · simp only [if_true] at hj
        omega
  · omega

/-! ## The whole machine and the game variables -/

theorem loopM_playing {F : Type} (ops : FloatOps F) (lib : Lib) (sim : Bool) (fuel clock : Nat)
    (m : Machine F) (hg : m.game.gameState = GameState.PLAYING) :
    loopM ops lib sim fuel clock m =
      (playingTick fuel { m.game with frameCounter := (m.game.frameCounter + 1) % 256 }).map
        (fun g => { m with game := g, leds := drawGame lib sim clock g m.leds }) := by
  obtain ⟨g, x, y, vx, vy, c, l⟩ := m
  cases g
  simp only at hg
  subst hg
  rfl

theorem loopM_eating {F : Type} (ops : FloatOps F) (lib : Lib) (sim : Bool) (fuel clock : Nat)
    (m : Machine F) (hg : m.game.gameState = GameState.EATING) :
    loopM ops lib sim fuel clock m =
      some { m with
        leds := drawEatingEffect lib sim clock
          { m.game with frameCounter := (m.game.frameCounter + 1) % 256 } m.leds
        game := eatingTick { m.game with frameCounter := (m.game.frameCounter + 1) % 256 } } := by
  obtain ⟨g, x, y, vx, vy, c, l⟩ := m
  cases g
  simp only at hg
  subst hg
  rfl

theorem loopM_game_over {F : Type} (ops : FloatOps F) (lib : Lib) (sim : Bool)
    (fuel clock : Nat) (m : Machine F) (hg : m.game.gameState = GameState.GAME_OVER) :
    loopM ops lib sim fuel clock m =
      some { drawGameOverM ops lib sim
          { m with game := { m.game with frameCounter := (m.game.frameCounter + 1) % 256 } } with
        game := gameOverStep (drawGameOverM ops lib sim
          { m with game := { m.game with
              frameCounter := (m.game.frameCounter + 1) % 256 } }).game } := by
  obtain ⟨g, x, y, vx, vy, c, l⟩ := m
  cases g
  simp only at hg
  subst hg
  rfl

theorem loopM_restarting {F : Type} (ops : FloatOps F) (lib : Lib) (sim : Bool)
    (fuel clock : Nat) (m : Machine F) (hg : m.game.gameState = GameState.RESTARTING) :
    loopM ops lib sim fuel clock m =
      (restartingTick fuel { m.game with frameCounter := (m.game.frameCounter + 1) % 256 }).map
        (fun g => { m with
          game := g
          leds := fill_solid m.leds NUM_LEDS ⟨0, 0, toUInt8 ((m.game.animTimer : Int) * 2)⟩ }) := by
  obtain ⟨g, x, y, vx, vy, c, l⟩ := m
  cases g
  simp only at hg
  subst hg
  rfl

/-- The update loop of the game variables looks at the visibility of the particles
`i < n` only. -/
theorem updateParticles_congr (vis vis' : Nat → Bool) : ∀ (n : Nat) (s : State),
    (∀ i, i < n → vis i = vis' i) → updateParticles vis n s = updateParticles vis' n s
  | 0, _, _ => rfl
  | n + 1, s, h => by
    rw [updateParticles, updateParticles,
      updateParticles_congr vis vis' n s (fun i hi => h i (by omega))]
    unfold updateParticle
    rw [h n (by omega)]

theorem launchAll_game {F : Type} (ops : FloatOps F) : ∀ (n : Nat) (m : Machine F),
    (launchAll ops n m).game = launchParticles n m.game ∧ (launchAll ops n m).leds = m.leds
  | 0, _ => ⟨rfl, rfl⟩
  | n + 1, m => by
    obtain ⟨h1, h2⟩ := launchAll_game ops n m
    refine ⟨?_, h2⟩
    show ({ (launchAll ops n m).game with
      rngSeed := (myRandom 100 (launchAll ops n m).game.rngSeed).2
      life := Function.update (launchAll ops n m).game.life n 255 } : State) = _
    rw [h1]
    rfl

theorem burstAll_game {F : Type} (ops : FloatOps F) : ∀ (n : Nat) (m : Machine F),
    (burstAll ops n m).game = secondBurst n m.game
  | 0, _ => rfl
  | n + 1, m => by
    have h1 := burstAll_game ops n m
    show ({ (burstAll ops n m).game with
      rngSeed := (myRandom 100 (myRandom 360 (burstAll ops n m).game.rngSeed).2).2
      life := Function.update (burstAll ops n m).game.life n 200 } : State) = _
    rw [h1]
    rfl

/-- One round of the update loop, on the game variables and on the position and
velocity of the other particles. -/
theorem updateStep_game {F : Type} (ops : FloatOps F) (lib : Lib) (sim : Bool) (i : Nat)
    (m : Machine F) (vis : Nat → Bool) (hv : vis i = visOf ops m i) :
    (updateStep ops lib sim i m).game = updateParticle vis i m.game ∧
    ∀ j, j ≠ i → (updateStep ops lib sim i m).x j = m.x j ∧
      (updateStep ops lib sim i m).y j = m.y j ∧
      (updateStep ops lib sim i m).vx j = m.vx j ∧
      (updateStep ops lib sim i m).vy j = m.vy j := by
  unfold updateStep updateParticle
  rw [hv]
  unfold visOf
  simp only
  split_ifs <;>
    exact ⟨rfl, fun j hj => ⟨by simp only [Function.update_noteq hj],
      by simp only [Function.update_noteq hj], rfl, by simp only [Function.update_noteq hj]⟩⟩

theorem updateAll_game {F : Type} (ops : FloatOps F) (lib : Lib) (sim : Bool) (m : Machine F) :
    ∀ (n : Nat), (updateAll ops lib sim n m).game = updateParticles (visOf ops m) n m.game ∧
      ∀ j, n ≤ j → (updateAll ops lib sim n m).x j = m.x j ∧
        (updateAll ops lib sim n m).y j = m.y j ∧
        (updateAll ops lib sim n m).vx j = m.vx j ∧
        (updateAll ops lib sim n m).vy j = m.vy j
  | 0 => ⟨rfl, fun _ _ => ⟨rfl, rfl, rfl, rfl⟩⟩
  | n + 1 => by
    obtain ⟨h1, h2⟩ := updateAll_game ops lib sim m n
    obtain ⟨a1, a2, a3, a4⟩ := h2 n (le_refl n)
    have hv : visOf ops m n = visOf ops (updateAll ops lib sim n m) n := by
      unfold visOf
      rw [a1, a2, a3, a4]
    obtain ⟨g1, g2⟩ := updateStep_game ops lib sim n (updateAll ops lib sim n m) (visOf ops m) hv
    refine ⟨?_, fun j hj => ?_⟩
    · rw [updateAll, updateParticles, g1, h1]
    · obtain ⟨b1, b2, b3, b4⟩ := g2 j (by omega)
      obtain ⟨c1, c2, c3, c4⟩ := h2 j (by omega)
      rw [updateAll]
      exact ⟨b1.trans c1, b2.trans c2, b3.trans c3, b4.trans c4⟩

/-- The end of `drawGameOver`, after the launch: the update loop and the burst. -/
theorem drawGameOverM_tail {F : Type} (ops : FloatOps F) (lib : Lib) (sim : Bool)
    (m1 : Machine F) :
    (if (updateAll ops lib sim MAX_PARTICLES m1).game.animTimer = 15
      then burstAll ops (MAX_PARTICLES / 2) (updateAll ops lib sim MAX_PARTICLES m1)
      else updateAll ops lib sim MAX_PARTICLES m1).game =
    (if (updateParticles (visOf ops m1) MAX_PARTICLES m1.game).animTimer = 15
      then secondBurst (MAX_PARTICLES / 2) (updateParticles (visOf ops m1) MAX_PARTICLES m1.game)
      else updateParticles (visOf ops m1) MAX_PARTICLES m1.game) := by
  have hu := (updateAll_game ops lib sim m1 MAX_PARTICLES).1
  rw [← hu]
  by_cases h15 : (updateAll ops lib sim MAX_PARTICLES m1).game.animTimer = 15
  · rw [if_pos h15, if_pos h15]
    exact burstAll_game ops _ _
  · rw [if_neg h15, if_neg h15]

/-- The `drawGameOver` of the whole machine, as the launch followed by the update
loop and the burst. -/
theorem drawGameOverM_eq {F : Type} (ops : FloatOps F) (lib : Lib) (sim : Bool)
    (m m1 : Machine F)
    (e : m1 = (if m.game.animTimer = 0
        then launchAll ops MAX_PARTICLES { m with leds := fill_solid m.leds NUM_LEDS bgColor }
        else { m with leds := fill_solid m.leds NUM_LEDS bgColor })) :
    drawGameOverM ops lib sim m =
      (if (updateAll ops lib sim MAX_PARTICLES m1).game.animTimer = 15
        then burstAll ops (MAX_PARTICLES / 2) (updateAll ops lib sim MAX_PARTICLES m1)
        else updateAll ops lib sim MAX_PARTICLES m1) := by
  unfold drawGameOverM
  generalize MAX_PARTICLES = N at e ⊢
  rw [e]

/-- The game variables after `drawGameOver` on the whole machine are those that the
`drawGameOver` of the game variables returns for the visibility of the particles
at the start of the update loop. -/
theorem drawGameOverM_game {F : Type} (ops : FloatOps F) (lib : Lib) (sim : Bool)
    (m : Machine F) :
    (drawGameOverM ops lib sim m).game =
      drawGameOver (visOf ops
        (if m.game.animTimer = 0
          then launchAll ops MAX_PARTICLES { m with leds := fill_solid m.leds NUM_LEDS bgColor }
          else { m with leds := fill_solid m.leds NUM_LEDS bgColor })) m.game := by
  have hS : ∀ (vis : Nat → Bool) (s1 : State),
      s1 = (if m.game.animTimer = 0 then launchParticles MAX_PARTICLES m.game else m.game) →
      drawGameOver vis m.game =
        (if (updateParticles vis MAX_PARTICLES s1).animTimer = 15
          then secondBurst (MAX_PARTICLES / 2) (updateParticles vis MAX_PARTICLES s1)
          else updateParticles vis MAX_PARTICLES s1) := by
    intro vis s1 e
    unfold drawGameOver
    generalize MAX_PARTICLES = N at e ⊢
    rw [e]
  generalize hm1 : (if m.game.animTimer = 0
      then launchAll ops MAX_PARTICLES { m with leds := fill_solid m.leds NUM_LEDS bgColor }
      else ({ m with leds := fill_solid m.leds NUM_LEDS bgColor } : Machine F)) = m1
  have hg : m1.game
      = (if m.game.animTimer = 0 then launchParticles MAX_PARTICLES m.game else m.game) := by
    rw [← hm1]
    by_cases h0 : m.game.animTimer = 0
    · rw [if_pos h0, if_pos h0]
      exact (launchAll_game ops MAX_PARTICLES _).1
    · rw [if_neg h0, if_neg h0]
  rw [drawGameOverM_eq ops lib sim m m1 hm1.symm, hS (visOf ops m1) m1.game hg]
  exact drawGameOverM_tail ops lib sim m1

theorem loop_playing_tick (fuel : Nat) (vis : Nat → Bool) (s : State)
    (hg : s.gameState = GameState.PLAYING) :
    loop fuel vis s = playingTick fuel { s with frameCounter := (s.frameCounter + 1) % 256 } := by
  cases s
  simp only at hg
  subst hg
  rfl

/-- One tick of the whole machine does to the game variables what `loop` does, for
the visibility `visM` of the particles. -/
theorem loopM_game {F : Type} (ops : FloatOps F) (lib : Lib) (sim : Bool) (fuel clock : Nat)
    (m : Machine F) :
    (loopM ops lib sim fuel clock m).map (fun m' => m'.game) = loop fuel (visM ops m) m.game := by
  cases hg : m.game.gameState with
  | PLAYING =>
    rw [loopM_playing ops lib sim fuel clock m hg, loop_playing_tick fuel _ m.game hg,
      Option.map_map]
    cases playingTick fuel { m.game with frameCounter := (m.game.frameCounter + 1) % 256 }
      <;> rfl
  | EATING =>
    rw [loopM_eating ops lib sim fuel clock m hg, loop_eating fuel _ m.game hg]
    rfl
  | GAME_OVER =>
    rw [loopM_game_over ops lib sim fuel clock m hg, loop_game_over fuel _ m.game hg]
    have hd := drawGameOverM_game ops lib sim
      { m with game := { m.game with frameCounter := (m.game.frameCounter + 1) % 256 } }
    generalize drawGameOverM ops lib sim
      { m with game := { m.game with frameCounter := (m.game.frameCounter + 1) % 256 } } = m1
      at hd ⊢
    show some (gameOverStep m1.game) = _
    rw [hd]
    rfl
  | RESTARTING =>
    rw [loopM_restarting ops lib sim fuel clock m hg, loop_restarting fuel _ m.game hg,
      Option.map_map]
    cases restartingTick fuel { m.game with frameCounter := (m.game.frameCounter + 1) % 256 }
      <;> rfl

/-! ## The restart -/

theorem clearLife_apply : ∀ (n : Nat) (l : Nat → Nat) (i : Nat),
    clearLife n l i = if i < n then 0 else l i
  | 0, _, _ => rfl
  | n + 1, l, i => by
    rw [clearLife]
    by_cases h : i = n
    · subst h
      rw [Function.update_same, if_pos (by omega)]
    · rw [Function.update_noteq h, clearLife_apply n l i]
      by_cases h2 : i < n
      · rw [if_pos h2, if_pos (by omega)]
      · rw [if_neg h2, if_neg (by omega)]

/-- What `initSnake` returns: the three segments, the heading, a food cell drawn by
the generator that no segment lies on, and every particle cleared. -/
theorem initSnake_spec (fuel : Nat) (s s' : State) (h : initSnake fuel s = some s') :
    ∃ seed, s' = { s with
        snakeLength := 3
        snake := Function.update (Function.update (Function.update s.snake 0 ⟨9, 9⟩)
          1 ⟨8, 9⟩) 2 ⟨7, 9⟩
        direction := ⟨1, 0⟩
        food := foodCell seed
        rngSeed := lcg (lcg seed)
        life := clearLife MAX_PARTICLES s.life } ∧
      ∀ i, i < 3 → s'.snake i ≠ foodCell seed := by
  unfold initSnake at h
  simp only [Option.map_eq_some'] at h
  obtain ⟨s6, h6, rfl⟩ := h
  obtain ⟨seed, rfl, hf⟩ := spawnFood_spec fuel _ s6 h6
  exact ⟨seed, rfl, (onSnake_false_iff _ _).mp hf⟩

/-- With enough fuel `initSnake` returns, whatever the state. -/
theorem initSnake_total (s : State) : ∃ fuel s', initSnake fuel s = some s' := by
  obtain ⟨fuel, s6, h6⟩ := spawnFood_terminates
    { s with
      snakeLength := 3
      snake := Function.update (Function.update (Function.update s.snake 0 ⟨9, 9⟩)
        1 ⟨8, 9⟩) 2 ⟨7, 9⟩
      direction := ⟨1, 0⟩ }
    (by show 3 < 289; omega)
  refine ⟨fuel, { s6 with life := clearLife MAX_PARTICLES s6.life }, ?_⟩
  unfold initSnake
  simp only
  rw [h6]
  rfl

theorem restartingTick_count (fuel : Nat) (s0 : State) (h : s0.animTimer < 20) :
    restartingTick fuel s0 = some { s0 with animTimer := s0.animTimer + 1 } := by
  unfold restartingTick
  have e : (s0.animTimer + 1) % 256 = s0.animTimer + 1 := Nat.mod_eq_of_lt (by omega)
  simp only [e]
  rw [if_neg (by omega)]

theorem restartingTick_last (fuel : Nat) (s0 : State) (h : s0.animTimer = 20) :
    restartingTick fuel s0 = (initSnake fuel { s0 with animTimer := 21 }).map
      (fun s2 => { s2 with gameState := GameState.PLAYING, animTimer := 0,
                           frameCounter := 0, moveDelay := 8 }) := by
  unfold restartingTick
  have e : (s0.animTimer + 1) % 256 = 21 := by rw [h]
  simp only [e]
  rw [if_pos (by omega)]

theorem fill_solid_apply (leds : Nat → CRGB) (n : Nat) (c : CRGB) (p : Nat) (hp : p < n) :
    fill_solid leds n c p = c := by
  unfold fill_solid
  rw [if_pos hp]

theorem runMFrom_succ {F : Type} (ops : FloatOps F) (lib : Lib) (sim : Bool)
    (fuel clock : Nat → Nat) (n : Nat) (m mn : Machine F)
    (h : runMFrom ops lib sim fuel clock n m = some mn) :
    runMFrom ops lib sim fuel clock (n + 1) m = loopM ops lib sim (fuel n) (clock n) mn := by
  rw [runMFrom, h]
  rfl

/-! ## Determinism -/

/-- The result of `spawnFood` does not depend on the fuel. -/
theorem spawnFood_unique : ∀ (f1 f2 : Nat) (s a b : State),
    spawnFood f1 s = some a → spawnFood f2 s = some b → a = b
  | 0, _, _, _, _, h1, _ => by simp [spawnFood] at h1
  | _ + 1, 0, _, _, _, _, h2 => by simp [spawnFood] at h2
  | f1 + 1, f2 + 1, s, a, b, h1, h2 => by
    rw [spawnFood_succ] at h1 h2
    by_cases hc : onSnake s (foodCell s.rngSeed) = true
    · rw [if_pos hc] at h1 h2
      exact spawnFood_unique f1 f2 _ a b h1 h2
    · rw [if_neg hc] at h1 h2
      exact (Option.some.inj h1).symm.trans (Option.some.inj h2)

theorem initSnake_unique (f1 f2 : Nat) (s a b : State)
    (h1 : initSnake f1 s = some a) (h2 : initSnake f2 s = some b) : a = b := by
  unfold initSnake at h1 h2
  simp only [Option.map_eq_some'] at h1 h2
  obtain ⟨a6, ha, rfl⟩ := h1
  obtain ⟨b6, hb, rfl⟩ := h2
  rw [spawnFood_unique f1 f2 _ a6 b6 ha hb]

theorem moveSnake_unique (f1 f2 : Nat) (s a b : State)
    (h1 : moveSnake f1 s = some a) (h2 : moveSnake f2 s = some b) : a = b := by
  cases hr : resolveHead s with
  | none =>
    rw [moveSnake_blocked _ s hr] at h1 h2
    exact (Option.some.inj h1).symm.trans (Option.some.inj h2)
  | some hd =>
    obtain ⟨nh, d⟩ := hd
    by_cases he : nh = s.food
    · by_cases hw : growLength s.snakeLength ≥ 18
      · rw [moveSnake_win _ s nh d hr he hw] at h1 h2
        exact (Option.some.inj h1).symm.trans (Option.some.inj h2)
      · rw [moveSnake_eat _ s nh d hr he (by omega)] at h1 h2
        exact spawnFood_unique f1 f2 _ a b h1 h2
    · rw [moveSnake_move _ s nh d hr he] at h1 h2
      exact (Option.some.inj h1).symm.trans (Option.some.inj h2)

theorem playingTick_unique (f1 f2 : Nat) (s a b : State)
    (h1 : playingTick f1 s = some a) (h2 : playingTick f2 s = some b) : a = b := by
  unfold playingTick at h1 h2
  by_cases hc : s.frameCounter ≥ s.moveDelay
  · rw [if_pos hc] at h1 h2
    exact moveSnake_unique f1 f2 _ a b h1 h2
  · rw [if_neg hc] at h1 h2
    exact (Option.some.inj h1).symm.trans (Option.some.inj h2)

theorem restartingTick_unique (f1 f2 : Nat) (s a b : State)
    (h1 : restartingTick f1 s = some a) (h2 : restartingTick f2 s = some b) : a = b := by
  unfold restartingTick at h1 h2
  by_cases hc : (s.animTimer + 1) % 256 > 20
  · simp only [hc, if_true, Option.map_eq_some'] at h1 h2
    obtain ⟨a2, ha, rfl⟩ := h1
    obtain ⟨b2, hb, rfl⟩ := h2
    rw [initSnake_unique f1 f2 _ a2 b2 ha hb]
  · simp only [hc, if_false] at h1 h2
    exact (Option.some.inj h1).symm.trans (Option.some.inj h2)

theorem sameCore_refl {F : Type} (m : Machine F) : SameCore m m :=
  ⟨rfl, rfl, rfl, rfl, rfl, rfl⟩

theorem launchStep_core {F : Type} (ops : FloatOps F) (i : Nat) (m1 m2 : Machine F)
    (h : SameCore m1 m2) : SameCore (launchStep ops i m1) (launchStep ops i m2) := by
  obtain ⟨g1, x1, y1, vx1, vy1, c1, l1⟩ := m1
  obtain ⟨g2, x2, y2, vx2, vy2, c2, l2⟩ := m2
  obtain ⟨e1, e2, e3, e4, e5, e6⟩ := h
  simp only at e1 e2 e3 e4 e5 e6
  subst e1 e2 e3 e4 e5 e6
  exact ⟨rfl, rfl, rfl, rfl, rfl, rfl⟩

theorem launchAll_core {F : Type} (ops : FloatOps F) : ∀ (n : Nat) (m1 m2 : Machine F),
    SameCore m1 m2 → SameCore (launchAll ops n m1) (launchAll ops n m2)
  | 0, _, _, h => h
  | n + 1, m1, m2, h => by
    rw [launchAll, launchAll]
    exact launchStep_core ops n _ _ (launchAll_core ops n m1 m2 h)

theorem burstStep_core {F : Type} (ops : FloatOps F) (i : Nat) (m1 m2 : Machine F)
    (h : SameCore m1 m2) : SameCore (burstStep ops i m1) (burstStep ops i m2) := by
  obtain ⟨g1, x1, y1, vx1, vy1, c1, l1⟩ := m1
  obtain ⟨g2, x2, y2, vx2, vy2, c2, l2⟩ := m2
  obtain ⟨e1, e2, e3, e4, e5, e6⟩ := h
  simp only at e1 e2 e3 e4 e5 e6
  subst e1 e2 e3 e4 e5 e6
  exact ⟨rfl, rfl, rfl, rfl, rfl, rfl⟩

theorem burstAll_core {F : Type} (ops : FloatOps F) : ∀ (n : Nat) (m1 m2 : Machine F),
    SameCore m1 m2 → SameCore (burstAll ops n m1) (burstAll ops n m2)
  | 0, _, _, h => h
  | n + 1, m1, m2, h => by
    rw [burstAll, burstAll]
    exact burstStep_core ops n _ _ (burstAll_core ops n m1 m2 h)

/-- One round of the update loop does the same to everything but the frame buffer,
whatever the wiring and the library routines. -/
theorem updateStep_core {F : Type} (ops : FloatOps F) (lib1 lib2 : Lib) (sim1 sim2 : Bool)
    (i : Nat) (m1 m2 : Machine F) (h : SameCore m1 m2) :
    SameCore (updateStep ops lib1 sim1 i m1) (updateStep ops lib2 sim2 i m2) := by
  obtain ⟨g1, x1, y1, vx1, vy1, c1, l1⟩ := m1
  obtain ⟨g2, x2, y2, vx2, vy2, c2, l2⟩ := m2
  obtain ⟨e1, e2, e3, e4, e5, e6⟩ := h
  simp only at e1 e2 e3 e4 e5 e6
  subst e1 e2 e3 e4 e5 e6
  unfold updateStep
  simp only
  split_ifs <;> exact ⟨rfl, rfl, rfl, rfl, rfl, rfl⟩

theorem updateAll_core {F : Type} (ops : FloatOps F) (lib1 lib2 : Lib) (sim1 sim2 : Bool) :
    ∀ (n : Nat) (m1 m2 : Machine F), SameCore m1 m2 →
      SameCore (updateAll ops lib1 sim1 n m1) (updateAll ops lib2 sim2 n m2)
  | 0, _, _, h => h
  | n + 1, m1, m2, h => by
    rw [updateAll, updateAll]
    exact updateStep_core ops lib1 lib2 sim1 sim2 n _ _
      (updateAll_core ops lib1 lib2 sim1 sim2 n m1 m2 h)

theorem drawGameOverM_core {F : Type} (ops : FloatOps F) (lib1 lib2 : Lib) (sim1 sim2 : Bool)
    (m1 m2 : Machine F) (h : SameCore m1 m2) :
    SameCore (drawGameOverM ops lib1 sim1 m1) (drawGameOverM ops lib2 sim2 m2) := by
  rw [drawGameOverM_eq ops lib1 sim1 m1 _ rfl, drawGameOverM_eq ops lib2 sim2 m2 _ rfl]
  have h0 : SameCore ({ m1 with leds := fill_solid m1.leds NUM_LEDS bgColor } : Machine F)
      { m2 with leds := fill_solid m2.leds NUM_LEDS bgColor } := h
  have hX : SameCore
      (if m1.game.animTimer = 0
        then launchAll ops MAX_PARTICLES { m1 with leds := fill_solid m1.leds NUM_LEDS bgColor }
        else { m1 with leds := fill_solid m1.leds NUM_LEDS bgColor })
      (if m2.game.animTimer = 0
        then launchAll ops MAX_PARTICLES { m2 with leds := fill_solid m2.leds NUM_LEDS bgColor }
        else { m2 with leds := fill_solid m2.leds NUM_LEDS bgColor }) := by
    have hc : m2.game.animTimer = m1.game.animTimer := by rw [h.1]
    by_cases c0 : m1.game.animTimer = 0
    · rw [if_pos c0, if_pos (hc.trans c0)]
      exact launchAll_core ops _ _ _ h0
    · rw [if_neg c0, if_neg (fun e => c0 (hc.symm.trans e))]
      exact h0
  generalize (if m1.game.animTimer = 0
      then launchAll ops MAX_PARTICLES { m1 with leds := fill_solid m1.leds NUM_LEDS bgColor }
      else ({ m1 with leds := fill_solid m1.leds NUM_LEDS bgColor } : Machine F)) = a at hX ⊢
  generalize (if m2.game.animTimer = 0
      then launchAll ops MAX_PARTICLES { m2 with leds := fill_solid m2.leds NUM_LEDS bgColor }
      else ({ m2 with leds := fill_solid m2.leds NUM_LEDS bgColor } : Machine F)) = b at hX ⊢
  have hU := updateAll_core ops lib1 lib2 sim1 sim2 MAX_PARTICLES a b hX
  generalize updateAll ops lib1 sim1 MAX_PARTICLES a = ua at hU ⊢
  generalize updateAll ops lib2 sim2 MAX_PARTICLES b = ub at hU ⊢
  have hc : ub.game.animTimer = ua.game.animTimer := by rw [hU.1]
  by_cases c15 : ua.game.animTimer = 15
  · rw [if_pos c15, if_pos (hc.trans c15)]
    exact burstAll_core ops _ _ _ hU
  · rw [if_neg c15, if_neg (fun e => c15 (hc.symm.trans e))]
    exact hU

/-- One tick does the same to everything but the frame buffer, whatever the fuel,
the wall clock, the wiring and the library routines. -/
theorem loopM_core {F : Type} (ops : FloatOps F) (lib1 lib2 : Lib) (sim1 sim2 : Bool)
    (f1 f2 c1 c2 : Nat) (m1 m2 a b : Machine F) (h : SameCore m1 m2)
    (h1 : loopM ops lib1 sim1 f1 c1 m1 = some a) (h2 : loopM ops lib2 sim2 f2 c2 m2 = some b) :
    SameCore a b := by
  obtain ⟨hgame, hx, hy, hvx, hvy, hcol⟩ := h
  cases hg : m1.game.gameState with
  | PLAYING =>
    have hg2 : m2.game.gameState = GameState.PLAYING := by rw [← hgame]; exact hg
    rw [loopM_playing ops lib1 sim1 f1 c1 m1 hg] at h1
    rw [loopM_playing ops lib2 sim2 f2 c2 m2 hg2, ← hgame] at h2
    simp only [Option.map_eq_some'] at h1 h2
    obtain ⟨ga, ha, rfl⟩ := h1
    obtain ⟨gb, hb, rfl⟩ := h2
    obtain rfl := playingTick_unique f1 f2 _ ga gb ha hb
    exact ⟨rfl, hx, hy, hvx, hvy, hcol⟩
  | EATING =>
    have hg2 : m2.game.gameState = GameState.EATING := by rw [← hgame]; exact hg
    rw [loopM_eating ops lib1 sim1 f1 c1 m1 hg] at h1
    rw [loopM_eating ops lib2 sim2 f2 c2 m2 hg2, ← hgame] at h2
    obtain rfl := Option.some.inj h1
    obtain rfl := Option.some.inj h2
    exact ⟨rfl, hx, hy, hvx, hvy, hcol⟩
  | GAME_OVER =>
    have hg2 : m2.game.gameState = GameState.GAME_OVER := by rw [← hgame]; exact hg
    rw [loopM_game_over ops lib1 sim1 f1 c1 m1 hg] at h1
    rw [loopM_game_over ops lib2 sim2 f2 c2 m2 hg2] at h2
    have hD := drawGameOverM_core ops lib1 lib2 sim1 sim2
      { m1 with game := { m1.game with frameCounter := (m1.game.frameCounter + 1) % 256 } }
      { m2 with game := { m2.game with frameCounter := (m2.game.frameCounter + 1) % 256 } }
      ⟨by rw [hgame], hx, hy, hvx, hvy, hcol⟩
    generalize drawGameOverM ops lib1 sim1
      { m1 with game := { m1.game with frameCounter := (m1.game.frameCounter + 1) % 256 } } = d1
      at h1 hD
    generalize drawGameOverM ops lib2 sim2
      { m2 with game := { m2.game with frameCounter := (m2.game.frameCounter + 1) % 256 } } = d2
      at h2 hD
    obtain rfl := Option.some.inj h1
    obtain rfl := Option.some.inj h2
    exact ⟨by show gameOverStep d1.game = gameOverStep d2.game; rw [hD.1],
      hD.2.1, hD.2.2.1, hD.2.2.2.1, hD.2.2.2.2.1, hD.2.2.2.2.2⟩
  | RESTARTING =>
    have hg2 : m2.game.gameState = GameState.RESTARTING := by rw [← hgame]; exact hg
    rw [loopM_restarting ops lib1 sim1 f1 c1 m1 hg] at h1
    rw [loopM_restarting ops lib2 sim2 f2 c2 m2 hg2, ← hgame] at h2
    simp only [Option.map_eq_some'] at h1 h2
    obtain ⟨ga, ha, rfl⟩ := h1
    obtain ⟨gb, hb, rfl⟩ := h2
    obtain rfl := restartingTick_unique f1 f2 _ ga gb ha hb
    exact ⟨rfl, hx, hy, hvx, hvy, hcol⟩

/-- Two runs from the same seed agree, tick by tick, on everything but the frame
buffer. -/
theorem runM_core {F : Type} (ops : FloatOps F) (lib1 lib2 : Lib) (sim1 sim2 : Bool)
    (fuel1 fuel2 clock1 clock2 : Nat → Nat) (seed : Nat) : ∀ (n : Nat) (a b : Machine F),
    runM ops lib1 sim1 fuel1 clock1 seed n = some a →
    runM ops lib2 sim2 fuel2 clock2 seed n = some b → SameCore a b
  | 0, a, b, h1, h2 => by
    unfold runM setupM at h1 h2
    simp only [Option.map_eq_some'] at h1 h2
    obtain ⟨ga, ha, rfl⟩ := h1
    obtain ⟨gb, hb, rfl⟩ := h2
    obtain rfl := initSnake_unique _ _ _ ga gb ha hb
    exact sameCore_refl _
  | n + 1, a, b, h1, h2 => by
    rw [runM, Option.bind_eq_some] at h1 h2
    obtain ⟨ma, ha, la⟩ := h1
    obtain ⟨mb, hb, lb⟩ := h2
    exact loopM_core ops lib1 lib2 sim1 sim2 _ _ _ _ ma mb a b
      (runM_core ops lib1 lib2 sim1 sim2 fuel1 fuel2 clock1 clock2 seed n ma mb ha hb) la lb

/-- Whether a tick returns does not depend on the visibility of the particles. -/
theorem loop_isSome_vis (fuel : Nat) (vis vis' : Nat → Bool) (s : State)
    (h : (loop fuel vis s).isSome = true) : (loop fuel vis' s).isSome = true := by
  cases hg : s.gameState with
  | PLAYING =>
    rw [loop_playing_tick fuel vis s hg] at h
    rw [loop_playing_tick fuel vis' s hg]
    exact h
  | EATING =>
    rw [loop_eating fuel vis' s hg]
    rfl
  | GAME_OVER =>
    rw [loop_game_over fuel vis' s hg]
    rfl
  | RESTARTING =>
    rw [loop_restarting fuel vis s hg] at h
    rw [loop_restarting fuel vis' s hg]
    exact h

/-- A tick of the whole machine returns when the tick of the game variables does. -/
theorem loopM_isSome {F : Type} (ops : FloatOps F) (lib : Lib) (sim : Bool) (fuel clock : Nat)
    (m : Machine F) (vis : Nat → Bool) (h : (loop fuel vis m.game).isSome = true) :
    (loopM ops lib sim fuel clock m).isSome = true := by
  have h1 := loop_isSome_vis fuel vis (visM ops m) m.game h
  rw [← loopM_game ops lib sim fuel clock m, Option.isSome_map'] at h1
  exact h1

/-- Some fuel carries tick `n + 1` of every run from the seed. -/
theorem tick_total {F : Type} (ops : FloatOps F) (seed : Nat) (n : Nat) :
    ∃ f, ∀ (lib : Lib) (sim : Bool) (fuel clock : Nat → Nat) (c : Nat) (m : Machine F),
      runM ops lib sim fuel clock seed n = some m →
      (loopM ops lib sim f c m).isSome = true := by
  by_cases hex : ∃ (lib : Lib) (sim : Bool) (fuel clock : Nat → Nat) (m : Machine F),
      runM ops lib sim fuel clock seed n = some m
  · obtain ⟨lib0, sim0, fuel0, clock0, m0, h0⟩ := hex
    obtain ⟨f, s', hf⟩ := loop_total (fun _ => true) m0.game
    refine ⟨f, fun lib sim fuel clock c m hm => ?_⟩
    have hc := runM_core ops lib lib0 sim sim0 fuel fuel0 clock clock0 seed n m m0 hm h0
    apply loopM_isSome ops lib sim f c m (fun _ => true)
    rw [hc.1, hf]
    rfl
  · exact ⟨0, fun lib sim fuel clock c m hm => absurd ⟨lib, sim, fuel, clock, m, hm⟩ hex⟩

/-- Some sequence of fuel carries every run from the seed through every tick. -/
theorem runM_total {F : Type} (ops : FloatOps F) (seed : Nat) :
    ∃ fuel : Nat → Nat, ∀ (lib : Lib) (sim : Bool) (clock : Nat → Nat) (n : Nat),
      (runM ops lib sim fuel clock seed n).isSome = true := by
  obtain ⟨f0, s0, h0⟩ := initSnake_total (bootState seed)
  choose ft hft using tick_total ops seed
  refine ⟨fun t => if t = 0 then f0 else ft (t - 1), fun lib sim clock n => ?_⟩
  induction n with
  | zero =>
    have e : runM ops lib sim (fun t => if t = 0 then f0 else ft (t - 1)) clock seed 0
        = (initSnake f0 (bootState seed)).map
            (fun g => { bootMachine ops seed with game := g }) := rfl
    rw [e, h0]
    rfl
  | succ n ih =>
    cases hr : runM ops lib sim (fun t => if t = 0 then f0 else ft (t - 1)) clock seed n with
    | none =>
      rw [hr] at ih
      exact absurd ih (by simp)
    | some m =>
      rw [runM, hr]
      exact hft n lib sim _ clock (clock n) m hr

/-! ## The move delay -/

/-- In every reachable state the move delay is between 5 and 8. -/
theorem moveDelay_of_reachable (s : State) (h : Reachable s) :
    5 ≤ s.moveDelay ∧ s.moveDelay ≤ 8 := by
  induction h with
  | boot fuel seed s _ hb =>
    obtain ⟨sd, rfl, _⟩ := initSnake_spec fuel _ s hb
    exact ⟨by show 5 ≤ 8; omega, le_refl 8⟩
  | tick fuel vis s s' _ hl ih =>
    cases hg : s.gameState with
    | PLAYING =>
      rw [loop_playing fuel vis s hg] at hl
      have hd : (decisionState s).moveDelay = s.moveDelay :=
        (smartDirection_frame { s with frameCounter := (s.frameCounter + 1) % 256 }).2.2.2.2.2.1
      by_cases hdec : isDecision s
      · rw [if_pos hdec] at hl
        generalize decisionState s = t at hl hd
        rcases moveSnake_outcome fuel t s' hl with ⟨_, rfl⟩ | ⟨_, _, _, _, rfl⟩ |
          ⟨_, _, _, _, _, rfl⟩ | ⟨_, _, _, _, _, _, rfl⟩ <;>
        · show 5 ≤ t.moveDelay ∧ t.moveDelay ≤ 8
          rw [hd]
          exact ih
      · rw [if_neg hdec] at hl
        obtain rfl := Option.some.inj hl
        exact ih
    | EATING =>
      rw [loop_eating fuel vis s hg] at hl
      obtain rfl := Option.some.inj hl
      unfold eatingTick toUInt8
      simp only
      split_ifs with h1 h2
      · show 5 ≤ (((s.moveDelay : Int) - 1) % 256).toNat ∧
          (((s.moveDelay : Int) - 1) % 256).toNat ≤ 8
        have h25 : s.moveDelay > 5 := h2.1
        omega
      · exact ih
      · exact ih
    | GAME_OVER =>
      rw [loop_game_over fuel vis s hg] at hl
      obtain rfl := Option.some.inj hl
      have hf := (drawGameOver_frame vis
        { s with frameCounter := (s.frameCounter + 1) % 256 }).2.2.2.2.2.2.1
      unfold gameOverTick
      generalize drawGameOver vis { s with frameCounter := (s.frameCounter + 1) % 256 } = d
        at hf ⊢
      simp only
      split_ifs <;>
      · show 5 ≤ d.moveDelay ∧ d.moveDelay ≤ 8
        rw [hf]
        exact ih
    | RESTARTING =>
      rw [loop_restarting fuel vis s hg] at hl
      unfold restartingTick at hl
      by_cases hc : (s.animTimer + 1) % 256 > 20
      · simp only [hc, if_true, Option.map_eq_some'] at hl
        obtain ⟨a2, _, rfl⟩ := hl
        exact ⟨by show 5 ≤ 8; omega, le_refl 8⟩
      · simp only [hc, if_false] at hl
        obtain rfl := Option.some.inj hl
        exact ih

/-! ## The loss -/

/-- The loss on a PLAYING decision tick from any state with at least three segments,
a length other than 199 (where the growth leaves the length unchanged) and a heading
of the table: the tick returns given enough fuel; if all four cells next to the head
are occupied it returns the state with the phase GAME_OVER, `animTimer = 0` and the
frame counter reset; whenever it returns, it ends in GAME_OVER with the length
unchanged exactly when all four cells are occupied; and the four cells are all
occupied as soon as those other than the neck are. -/
theorem loss_of_unclamped (fuel : Nat) (vis : Nat → Bool) (s : State)
    (hp : s.gameState = GameState.PLAYING) (hdec : isDecision s)
    (hlen : 3 ≤ s.snakeLength) (h199 : s.snakeLength ≠ 199) (hdir : s.direction ∈ moves) :
    (∃ fuel' s', loop fuel' vis s = some s') ∧
    (allBlocked s →
      loop fuel vis s
        = some { s with frameCounter := 0, gameState := GameState.GAME_OVER, animTimer := 0 }) ∧
    (∀ s', loop fuel vis s = some s' →
      ((s'.gameState = GameState.GAME_OVER ∧ s'.snakeLength = s.snakeLength) ↔ allBlocked s)) ∧
    ((∀ m, m ∈ moves → nextPos s m ≠ s.snake 1 →
        isOccupied s (nextPos s m).x (nextPos s m).y = true) → allBlocked s) := by
  obtain ⟨f1, f2, f3, f4, _⟩ := decisionState_frame s
  have hocc : ∀ x y, isOccupied (decisionState s) x y = isOccupied s x y :=
    isOccupied_congr s (decisionState s) f1 f2
  have hnp : ∀ m, nextPos (decisionState s) m = nextPos s m := nextPos_congr s (decisionState s) f1
  have hloss : allBlocked s →
      loop fuel vis s
        = some { s with frameCounter := 0, gameState := GameState.GAME_OVER, animTimer := 0 } := by
    intro hb
    have hrej : ∀ i, i < 4 →
        rejected { s with frameCounter := (s.frameCounter + 1) % 256 } (move i) = true := by
      intro i hi
      unfold rejected
      rw [Bool.or_eq_true]
      right
      exact hb (move i) (move_mem i hi)
    have hsd := smartDirection_all_rejected _ hrej
    have hds : decisionState s = { s with frameCounter := 0 } := by
      unfold decisionState
      rw [hsd]
    rw [loop_playing fuel vis s hp, if_pos hdec, hds]
    have hnone : resolveHead { s with frameCounter := 0 } = none := by
      rw [resolveHead_none]
      exact ⟨hb s.direction hdir, hb⟩
    rw [moveSnake_blocked fuel _ hnone]
  refine ⟨loop_total vis s, hloss, fun s' h => ⟨fun hgo => ?_, fun hb => ?_⟩, fun hB m hm => ?_⟩
  · rw [loop_playing fuel vis s hp, if_pos hdec] at h
    rcases moveSnake_outcome fuel (decisionState s) s' h with
      ⟨hr, _⟩ | ⟨nh, d, _, _, rfl⟩ | ⟨nh, d, _, _, _, rfl⟩ | ⟨nh, d, seed, _, _, _, rfl⟩
    · intro m hm
      have := ((resolveHead_none (decisionState s)).mp hr).2 m hm
      rw [hocc, hnp] at this
      exact this
    · have h1 : (decisionState s).gameState = GameState.GAME_OVER := hgo.1
      rw [f4, hp] at h1
      cases h1
    · have h2 : growLength (decisionState s).snakeLength = s.snakeLength := hgo.2
      rw [f2] at h2
      exact absurd ((growLength_eq_self_iff _).mp h2) h199
    · have h1 : GameState.EATING = GameState.GAME_OVER := hgo.1
      cases h1
  · rw [hloss hb] at h
    obtain rfl := Option.some.inj h
    exact ⟨rfl, rfl⟩
  · by_cases hneck : nextPos s m = s.snake 1
    · rw [hneck]
      exact isOccupied_of_body s 1 (by omega)
    · exact hB m hm hneck

/-! ## The claims -/

/-- C1. Snake invariant: in every state reachable from `setup` (any seed) by any
number of ticks, while the phase is PLAYING or EATING, two different indices
`i < j < snakeLength` hold different cells. -/
theorem snake_invariant (s : State) (h : Reachable s)
    (hp : s.gameState = GameState.PLAYING ∨ s.gameState = GameState.EATING) :
    ∀ i j, i < j → j < s.snakeLength → s.snake i ≠ s.snake j :=
  ((inv_of_reachable s h).alive hp).2

set_option maxRecDepth 1000000 in
theorem snake_invariant_witness :
    (demoState 48).gameState = GameState.EATING ∧ (demoState 48).snakeLength = 4 ∧
    ∀ i j, i < j → j < (demoState 48).snakeLength →
      (demoState 48).snake i ≠ (demoState 48).snake j := by
  have h : (demoRun 48).isSome = true ∧ (demoState 48).gameState = GameState.EATING ∧
      (demoState 48).snakeLength = 4 := by decide!
  exact ⟨h.2.1, h.2.2,
    snake_invariant (demoState 48) (reachable_demoState 48 h.1) (Or.inr h.2.1)⟩

/-- C2. Food invariant: in every reachable state, in every phase, the food lies in
the interior (1 <= x <= 17 and 1 <= y <= 17) and on no segment `i < snakeLength`;
whenever `spawnFood` returns, the food it chose satisfies both conditions and the
snake and its length are unchanged; and `spawnFood` does return, given enough
fuel, for every seed and every snake of fewer than 289 segments. -/
theorem food_invariant :
    (∀ s, Reachable s →
      (1 ≤ s.food.x ∧ s.food.x ≤ 17 ∧ 1 ≤ s.food.y ∧ s.food.y ≤ 17) ∧
      ∀ i, i < s.snakeLength → s.snake i ≠ s.food) ∧
    (∀ fuel s s', spawnFood fuel s = some s' →
      (1 ≤ s'.food.x ∧ s'.food.x ≤ 17 ∧ 1 ≤ s'.food.y ∧ s'.food.y ≤ 17) ∧
      (∀ i, i < s'.snakeLength → s'.snake i ≠ s'.food) ∧
      s'.snake = s.snake ∧ s'.snakeLength = s.snakeLength) ∧
    (∀ s : State, s.snakeLength < 289 → ∃ fuel s', spawnFood fuel s = some s') := by
  refine ⟨fun s h => ?_, fun fuel s s' h => ?_, spawnFood_terminates⟩
  · exact ⟨(inv_of_reachable s h).food_int, (inv_of_reachable s h).food_free⟩
  · obtain ⟨seed, rfl, hfree⟩ := spawnFood_spec fuel s s' h
    exact ⟨foodCell_interior seed, (onSnake_false_iff s (foodCell seed)).mp hfree, rfl, rfl⟩

set_option maxRecDepth 1000000 in
theorem food_invariant_witness :
    (demoState 48).food = ⟨11, 7⟩ ∧
    ((1 ≤ (demoState 48).food.x ∧ (demoState 48).food.x ≤ 17 ∧
        1 ≤ (demoState 48).food.y ∧ (demoState 48).food.y ≤ 17) ∧
      ∀ i, i < (demoState 48).snakeLength → (demoState 48).snake i ≠ (demoState 48).food) := by
  have h : (demoRun 48).isSome = true ∧ (demoState 48).food = ⟨11, 7⟩ := by decide!
  exact ⟨h.2, food_invariant.1 (demoState 48) (reachable_demoState 48 h.1)⟩

/-- C3. Growth law: a tick in the PLAYING phase from a state with
`snakeLength < 199` returns (given enough fuel), and afterwards the length is the
previous length + 1 if the tick is a decision tick whose resolved new head is the
food cell, and the previous length in every other case (no decision, an ordinary
move, or a loss with no escape). -/
theorem growth_law (vis : Nat → Bool) (s : State) (hp : s.gameState = GameState.PLAYING)
    (hlen : s.snakeLength < 199) :
    (∃ fuel s', loop fuel vis s = some s') ∧
    ∀ fuel s', loop fuel vis s = some s' →
      s'.snakeLength =
        if isDecision s ∧ resolvedHead s = some s.food then s.snakeLength + 1
        else s.snakeLength := by
  refine ⟨loop_total vis s, fun fuel s' h => ?_⟩
  rw [loop_playing fuel vis s hp] at h
  obtain ⟨_, f2, f3, _⟩ := decisionState_frame s
  have hg := growLength_small s.snakeLength hlen
  by_cases hdec : isDecision s
  · rw [if_pos hdec] at h
    unfold resolvedHead
    rcases moveSnake_outcome fuel (decisionState s) s' h with
      ⟨hr, rfl⟩ | ⟨nh, d, hr, hne, rfl⟩ | ⟨nh, d, hr, he, _, rfl⟩ | ⟨nh, d, seed, hr, he, _, rfl⟩
    · rw [hr]
      simp only [Option.map_none', and_false, if_false, reduceCtorEq]
      exact f2
    · rw [hr, f3] at *
      have : ¬ (isDecision s ∧ Option.map Prod.fst (some (nh, d)) = some s.food) := by
        simp only [Option.map_some', Option.some.injEq]
        exact fun hh => hne hh.2
      rw [if_neg this]
      exact f2
    · rw [hr, f3] at *
      have : isDecision s ∧ Option.map Prod.fst (some (nh, d)) = some s.food := by
        simp only [Option.map_some', Option.some.injEq]
        exact ⟨hdec, he⟩
      rw [if_pos this]
      show growLength (decisionState s).snakeLength = s.snakeLength + 1
      rw [f2, hg]
    · rw [hr, f3] at *
      have : isDecision s ∧ Option.map Prod.fst (some (nh, d)) = some s.food := by
        simp only [Option.map_some', Option.some.injEq]
        exact ⟨hdec, he⟩
      rw [if_pos this]
      show growLength (decisionState s).snakeLength = s.snakeLength + 1
      rw [f2, hg]
  · rw [if_neg hdec] at h
    obtain rfl := Option.some.inj h
    rw [if_neg (fun hh => hdec hh.1)]

set_option maxRecDepth 1000000 in
theorem growth_law_witness :
    (demoState 47).snakeLength = 3 ∧
    (loop 4 (fun _ => true) (demoState 47)).map (fun s => s.snakeLength) = some 4 ∧
    ((∃ fuel s', loop fuel (fun _ => true) (demoState 47) = some s') ∧
      ∀ fuel s', loop fuel (fun _ => true) (demoState 47) = some s' →
        s'.snakeLength =
          if isDecision (demoState 47) ∧ resolvedHead (demoState 47) = some (demoState 47).food
          then (demoState 47).snakeLength + 1
          else (demoState 47).snakeLength) := by
  have h : (demoState 47).snakeLength = 3 ∧
      (loop 4 (fun _ => true) (demoState 47)).map (fun s => s.snakeLength) = some 4 ∧
      (demoState 47).gameState = GameState.PLAYING ∧ (demoState 47).snakeLength < 199 := by
    decide!
  exact ⟨h.1, h.2.1, growth_law (fun _ => true) (demoState 47) h.2.2.1 h.2.2.2⟩

/-- C4. Win boundary: a PLAYING decision tick on which a snake of 17 segments eats
the food returns, for every fuel, a state of 18 segments in the phase GAME_OVER
with `animTimer = 0`; and the phase is never EATING with `snakeLength >= 18`, neither
in a reachable state nor at the end of any tick that starts in the PLAYING phase. -/
theorem win_boundary :
    (∀ (fuel : Nat) (vis : Nat → Bool) (s : State),
      s.gameState = GameState.PLAYING → isDecision s → resolvedHead s = some s.food →
      s.snakeLength = 17 →
      ∃ s', loop fuel vis s = some s' ∧ s'.gameState = GameState.GAME_OVER ∧
        s'.animTimer = 0 ∧ s'.snakeLength = 18) ∧
    (∀ s, Reachable s → 18 ≤ s.snakeLength → s.gameState ≠ GameState.EATING) ∧
    (∀ (fuel : Nat) (vis : Nat → Bool) (s s' : State),
      s.gameState = GameState.PLAYING → loop fuel vis s = some s' →
      18 ≤ s'.snakeLength → s'.gameState ≠ GameState.EATING) := by
  refine ⟨fun fuel vis s hp hdec heat hlen => ?_, fun s h h18 he => ?_,
    fun fuel vis s s' hp h h18 => ?_⟩
  · obtain ⟨_, f2, f3, _⟩ := decisionState_frame s
    unfold resolvedHead at heat
    rw [Option.map_eq_some'] at heat
    obtain ⟨⟨nh, d⟩, hr, hnh⟩ := heat
    simp only at hnh
    have hw : growLength (decisionState s).snakeLength ≥ 18 := by
      rw [f2, growLength_small _ (by omega)]
      omega
    refine ⟨{ decisionState s with
      direction := d
      gameState := GameState.GAME_OVER
      animTimer := 0
      snake := shiftSnake (decisionState s).snakeLength (decisionState s).snake
      snakeLength := growLength (decisionState s).snakeLength }, ?_, rfl, rfl, ?_⟩
    · rw [loop_playing fuel vis s hp, if_pos hdec]
      exact moveSnake_win fuel (decisionState s) nh d hr (by rw [f3]; exact hnh) hw
    · show growLength (decisionState s).snakeLength = 18
      rw [f2, growLength_small _ (by omega)]
      omega
  · have := ((inv_of_reachable s h).alive (Or.inr he)).1
    omega
  · rw [loop_playing fuel vis s hp] at h
    obtain ⟨_, _, _, f4, _⟩ := decisionState_frame s
    by_cases hdec : isDecision s
    · rw [if_pos hdec] at h
      rcases moveSnake_outcome fuel (decisionState s) s' h with
        ⟨_, rfl⟩ | ⟨nh, d, _, _, rfl⟩ | ⟨nh, d, _, _, _, rfl⟩ | ⟨nh, d, seed, _, _, hlt, rfl⟩
      · exact fun hh => by cases hh
      · intro hh
        have hh' : (decisionState s).gameState = GameState.EATING := hh
        rw [f4, hp] at hh'
        cases hh'
      · exact fun hh => by cases hh
      · have h18' : 18 ≤ growLength (decisionState s).snakeLength := h18
        omega
    · rw [if_neg hdec] at h
      obtain rfl := Option.some.inj h
      intro hh
      have hh' : s.gameState = GameState.EATING := hh
      rw [hp] at hh'
      cases hh'


set_option maxRecDepth 1000000 in
theorem win_boundary_witness :
    (demoState 710).snakeLength = 17 ∧
    ∃ s', loop 0 (fun _ => true) (demoState 710) = some s' ∧
      s'.gameState = GameState.GAME_OVER ∧ s'.animTimer = 0 ∧ s'.snakeLength = 18 := by
  have h : (demoState 710).gameState = GameState.PLAYING ∧ isDecision (demoState 710) ∧
      resolvedHead (demoState 710) = some (demoState 710).food ∧
      (demoState 710).snakeLength = 17 := by decide!
  exact ⟨h.2.2.2, win_boundary.1 0 (fun _ => true) (demoState 710) h.1 h.2.1 h.2.2.1 h.2.2.2⟩

/-- C5. Loss condition: on every PLAYING decision tick from a reachable state (it
has at least three segments and a unit heading), the tick returns given enough
fuel, and whenever it returns it ends in GAME_OVER with `snakeLength` unchanged if
and only if all four cells next to the head are occupied (a wall, or a segment other
than the tail); in that case, for every fuel, `animTimer = 0`, the frame counter is
reset, and the snake cells, the length, the food, the heading and the seed are
unchanged. A dead end in which every neighbour of the head other than its own neck
is occupied is such a case (Scenario B). -/
theorem loss_condition (fuel : Nat) (vis : Nat → Bool) (s : State) (h : Reachable s)
    (hp : s.gameState = GameState.PLAYING) (hdec : isDecision s) :
    3 ≤ s.snakeLength ∧ s.direction ∈ moves ∧
    (∃ fuel' s', loop fuel' vis s = some s') ∧
    (∀ s', loop fuel vis s = some s' →
      ((s'.gameState = GameState.GAME_OVER ∧ s'.snakeLength = s.snakeLength) ↔ allBlocked s)) ∧
    (allBlocked s →
      loop fuel vis s
        = some { s with frameCounter := 0, gameState := GameState.GAME_OVER, animTimer := 0 }) ∧
    (∀ s', loop fuel vis s = some s' → allBlocked s →
      s'.animTimer = 0 ∧ s'.snake = s.snake ∧ s'.food = s.food ∧ s'.direction = s.direction) ∧
    ((∀ m, m ∈ moves → nextPos s m ≠ s.snake 1 →
        isOccupied s (nextPos s m).x (nextPos s m).y = true) →
      allBlocked s ∧
      loop fuel vis s
        = some { s with
            frameCounter := 0, gameState := GameState.GAME_OVER, animTimer := 0 }) := by
  have hs := inv_of_reachable s h
  have h18 := hs.len_le
  obtain ⟨hret, hloss, hiff, hdead⟩ :=
    loss_of_unclamped fuel vis s hp hdec hs.len_ge (by omega) hs.dir_unit
  refine ⟨hs.len_ge, hs.dir_unit, hret, hiff, hloss, fun s' hl hb => ?_,
    fun hB => ⟨hdead hB, hloss (hdead hB)⟩⟩
  rw [hloss hb] at hl
  obtain rfl := Option.some.inj hl
  exact ⟨rfl, rfl, rfl, rfl⟩

set_option maxRecDepth 1000000 in
theorem loss_condition_witness :
    Reachable (trapState 1063) ∧ (trapState 1063).gameState = GameState.PLAYING ∧
    isDecision (trapState 1063) ∧ (trapState 1063).snakeLength = 16 ∧
    (trapState 1063).snake 0 = ⟨14, 8⟩ ∧ (trapState 1063).snake 1 = ⟨15, 8⟩ ∧
    allBlocked (trapState 1063) ∧
    (loop 0 (fun _ => true) (trapState 1063)).map
        (fun s => (s.gameState, s.animTimer, s.snakeLength, s.snake 0, s.food, s.direction))
      = some (GameState.GAME_OVER, 0, 16, ⟨14, 8⟩, ⟨13, 15⟩, ⟨-1, 0⟩) ∧
    (3 ≤ (trapState 1063).snakeLength ∧ (trapState 1063).direction ∈ moves ∧
    (∃ fuel' s', loop fuel' (fun _ => true) (trapState 1063) = some s') ∧
    (∀ s', loop 0 (fun _ => true) (trapState 1063) = some s' →
      ((s'.gameState = GameState.GAME_OVER ∧ s'.snakeLength = (trapState 1063).snakeLength)
        ↔ allBlocked (trapState 1063))) ∧
    (allBlocked (trapState 1063) →
      loop 0 (fun _ => true) (trapState 1063)
        = some { trapState 1063 with
            frameCounter := 0, gameState := GameState.GAME_OVER, animTimer := 0 }) ∧
    (∀ s', loop 0 (fun _ => true) (trapState 1063) = some s' → allBlocked (trapState 1063) →
      s'.animTimer = 0 ∧ s'.snake = (trapState 1063).snake ∧
      s'.food = (trapState 1063).food ∧ s'.direction = (trapState 1063).direction) ∧
    ((∀ m, m ∈ moves → nextPos (trapState 1063) m ≠ (trapState 1063).snake 1 →
        isOccupied (trapState 1063) (nextPos (trapState 1063) m).x
          (nextPos (trapState 1063) m).y = true) →
      allBlocked (trapState 1063) ∧
      loop 0 (fun _ => true) (trapState 1063)
        = some { trapState 1063 with
            frameCounter := 0, gameState := GameState.GAME_OVER, animTimer := 0 })) := by
  have h : (trapRun 1063).isSome = true ∧
      (trapState 1063).gameState = GameState.PLAYING ∧ isDecision (trapState 1063) ∧
      (trapState 1063).snakeLength = 16 ∧
      (trapState 1063).snake 0 = ⟨14, 8⟩ ∧ (trapState 1063).snake 1 = ⟨15, 8⟩ ∧
      allBlocked (trapState 1063) ∧
      (loop 0 (fun _ => true) (trapState 1063)).map
          (fun s => (s.gameState, s.animTimer, s.snakeLength, s.snake 0, s.food, s.direction))
        = some (GameState.GAME_OVER, 0, 16, ⟨14, 8⟩, ⟨13, 15⟩, ⟨-1, 0⟩) := by decide!
  exact ⟨reachable_trapState 1063 h.1, h.2.1, h.2.2.1, h.2.2.2.1, h.2.2.2.2.1, h.2.2.2.2.2.1,
    h.2.2.2.2.2.2.1, h.2.2.2.2.2.2.2,
    loss_condition 0 (fun _ => true) (trapState 1063) (reachable_trapState 1063 h.1)
      h.2.1 h.2.2.1⟩

/-- C6. Heuristic selection and tie-break: the score stored for a move is the
sentinel -100 when the move is rejected and lies strictly above it otherwise;
`bestMove` stays -1, and the assignment to the heading is skipped, exactly when all
four moves are rejected, and then the heading (the whole state) is unchanged;
otherwise the heading becomes the move of the smallest index among the moves
that are not rejected and have the maximal final score, and the cell of that move
is neither the neck nor occupied. -/
theorem heuristic_selection (s : State) :
    (∀ i, i < 4 →
      (rejected s (move i) = true → (scores s).getD i 0 = -100) ∧
      (rejected s (move i) = false → -100 < (scores s).getD i 0)) ∧
    (bestMove s = -1 ↔ ∀ i, i < 4 → rejected s (move i) = true) ∧
    (bestMove s = -1 → smartDirection s = s) ∧
    (bestMove s ≠ -1 →
      ∃ k : Nat, k < 4 ∧ bestMove s = (k : Int) ∧
        (smartDirection s).direction = move k ∧
        rejected s (move k) = false ∧
        (∀ j, j < 4 → rejected s (move j) = false →
          (scores s).getD j 0 ≤ (scores s).getD k 0) ∧
        (∀ j, j < k → rejected s (move j) = false →
          (scores s).getD j 0 < (scores s).getD k 0) ∧
        (s.snakeLength > 1 → nextPos s (move k) ≠ s.snake 1) ∧
        isOccupied s (nextPos s (move k)).x (nextPos s (move k)).y = false) := by
  have hiff := bestMove_eq_neg_one_iff s
  refine ⟨scores_sentinel s, hiff, fun hb => smartDirection_all_rejected s (hiff.mp hb), ?_⟩
  · intro hb
    rcases smartDirection_choice s with hc | ⟨k, hk, hbk, hr, hmax, hfirst⟩
    · exact absurd hc.2 hb
    · refine ⟨k, hk, hbk, ?_, hr, hmax, hfirst, ?_⟩
      · rw [smartDirection_direction, hbk, if_pos (by omega)]
        simp [move]
      · exact (accepted_iff s (move k)).mp hr

/-- C7. Heuristic score: with the head and the food on the 19x19 board, the score
stored for `moves[i]` is -100 when the move is rejected (and no jitter is drawn for
it); otherwise it is exactly the score of the specification (30 if the Manhattan
distance to the food strictly decreases, else -10; plus 8 for every free neighbour
of the cell; minus half the Manhattan distance to the centre, rounded down) plus
the jitter `myRandom(5)` drawn from the seed left by the earlier moves that were not
rejected, and that sum fits `int8_t`. The seed after the loop has advanced once for
every move that is not rejected. -/
theorem heuristic_score (s : State) (hh : OnBoard (s.snake 0)) (hf : OnBoard s.food)
    (i : Nat) (hi : i < 4) :
    (rejected s (move i) = true → (scores s).getD i 0 = -100) ∧
    (rejected s (move i) = false →
      (scores s).getD i 0
        = specScore s (move i) + (((myRandom 5 (lcg^[draws s i] s.rngSeed)).1 : Nat) : Int) ∧
      (myRandom 5 (lcg^[draws s i] s.rngSeed)).1 < 5 ∧
      -128 ≤ specScore s (move i) + (((myRandom 5 (lcg^[draws s i] s.rngSeed)).1 : Nat) : Int) ∧
      specScore s (move i) + (((myRandom 5 (lcg^[draws s i] s.rngSeed)).1 : Nat) : Int) ≤ 127) ∧
    (smartDirection s).rngSeed = lcg^[draws s 4] s.rngSeed := by
  refine ⟨fun hr => (scores_sentinel s i hi).1 hr, fun hr => ?_, (scores_jitter s).2⟩
  have hsc := (scores_jitter s).1 i hi hr
  have hspec := baseScore_eq_specScore s (move i) (move_mem i hi) hh hf hr
  have hb := baseScore_accepted s (move i) hr
  have hj : (myRandom 5 (lcg^[draws s i] s.rngSeed)).1 < 5 := by
    rw [myRandom_fst 5 _ (by norm_num) (by norm_num)]
    exact Nat.mod_lt _ (by norm_num)
  rw [hspec] at hsc hb
  exact ⟨hsc, hj, by omega, by omega⟩

theorem heuristic_score_witness :
    OnBoard ((scenarioA 1).snake 0) ∧ OnBoard (scenarioA 1).food ∧
    rejected (scenarioA 1) (move 0) = false ∧ (scores (scenarioA 1)).getD 0 0 = 54 ∧
    ((rejected (scenarioA 1) (move 0) = true → (scores (scenarioA 1)).getD 0 0 = -100) ∧
    (rejected (scenarioA 1) (move 0) = false →
      (scores (scenarioA 1)).getD 0 0
        = specScore (scenarioA 1) (move 0)
          + (((myRandom 5 (lcg^[draws (scenarioA 1) 0] (scenarioA 1).rngSeed)).1 : Nat) : Int) ∧
      (myRandom 5 (lcg^[draws (scenarioA 1) 0] (scenarioA 1).rngSeed)).1 < 5 ∧
      -128 ≤ specScore (scenarioA 1) (move 0)
          + (((myRandom 5 (lcg^[draws (scenarioA 1) 0] (scenarioA 1).rngSeed)).1 : Nat) : Int) ∧
      specScore (scenarioA 1) (move 0)
          + (((myRandom 5 (lcg^[draws (scenarioA 1) 0] (scenarioA 1).rngSeed)).1 : Nat) : Int)
        ≤ 127) ∧
    (smartDirection (scenarioA 1)).rngSeed
      = lcg^[draws (scenarioA 1) 4] (scenarioA 1).rngSeed) :=
  ⟨by decide, by decide, by decide, by decide,
    heuristic_score (scenarioA 1) (by decide) (by decide) 0 (by decide)⟩

/-- C8. Scenario A: with the snake {(9,9),(8,9),(7,9)} of length 3 and the food at
(12,9), for every seed (and whatever the other variables hold) the heuristic
selects `moves[0]` and sets the heading to Right = (1,0). -/
theorem scenario_A_selects_right (s : State) (h0 : s.snake 0 = ⟨9, 9⟩)
    (h1 : s.snake 1 = ⟨8, 9⟩) (_h2 : s.snake 2 = ⟨7, 9⟩) (hlen : s.snakeLength = 3)
    (hfood : s.food = ⟨12, 9⟩) :
    bestMove s = 0 ∧ (smartDirection s).direction = ⟨1, 0⟩ := by
  have hsn : ∀ i, i < (scenarioA 0).snakeLength - 1 → s.snake i = (scenarioA 0).snake i := by
    intro i hi
    have hi' : i < 2 := hi
    interval_cases i
    · rw [h0]; rfl
    · rw [h1]; rfl
  have hrej : ∀ m, rejected s m = rejected (scenarioA 0) m := fun m =>
    rejected_congr (scenarioA 0) s hlen hsn h0 h1 m
  have hbase : ∀ m, baseScore s m = baseScore (scenarioA 0) m := fun m =>
    baseScore_congr (scenarioA 0) s hlen hsn h0 hfood m
  have hj : ∀ seed, (myRandom 5 seed).1 < 5 := fun seed => by
    rw [myRandom_fst 5 _ (by norm_num) (by norm_num)]
    exact Nat.mod_lt _ (by norm_num)
  have r0 : rejected s (move 0) = false := by rw [hrej]; decide
  have s0 := (scores_jitter s).1 0 (by norm_num) r0
  have b0 : baseScore s (move 0) = 54 := by rw [hbase]; decide
  have hk : ∀ k, k < 4 → rejected s (move k) = false → k ≠ 0 →
      (scores s).getD k 0 < (scores s).getD 0 0 := by
    intro k hk hr hne
    have sk := (scores_jitter s).1 k hk hr
    have jk := hj (lcg^[draws s k] s.rngSeed)
    have bk : baseScore s (move k) ≤ 14 := by
      rw [hbase]
      rw [hrej] at hr
      interval_cases k
      · exact absurd rfl hne
      · exact absurd hr (by decide)
      · decide
      · decide
    omega
  have hbest : bestMove s = 0 := by
    rcases smartDirection_choice s with hc | ⟨k, hk4, hbk, hr, hmax, _⟩
    · rw [hc.1 0 (by norm_num)] at r0
      exact absurd r0 (by simp)
    · by_cases hk0 : k = 0
      · rw [hbk, hk0]
        rfl
      · have := hk k hk4 hr hk0
        have := hmax 0 (by norm_num) r0
        omega
  refine ⟨hbest, ?_⟩
  rw [smartDirection_direction, hbest]
  rfl

theorem scenario_A_selects_right_witness :
    bestMove (scenarioA 1) = 0 ∧ (smartDirection (scenarioA 1)).direction = ⟨1, 0⟩ :=
  scenario_A_selects_right (scenarioA 1) rfl rfl rfl rfl rfl

/-- C9. The heading never reverses into the neck: in every reachable state the
heading is one of the four unit vectors of the table and the cell head + heading
is not the neck `snake[1]`; the same holds between `smartDirection` and `moveSnake`
(in the state in which `moveSnake` runs on a decision tick), and for the heading
that the collision check of `moveSnake` resolves, be it the heading of the
heuristic or a move found by the emergency scan. -/
theorem heading_never_reverses (s : State) (h : Reachable s) :
    (s.direction ∈ moves ∧ nextPos s s.direction ≠ s.snake 1) ∧
    ((decisionState s).direction ∈ moves ∧
      nextPos (decisionState s) (decisionState s).direction ≠ (decisionState s).snake 1) ∧
    (∀ nh d, resolveHead (decisionState s) = some (nh, d) →
      d ∈ moves ∧ nextPos (decisionState s) d ≠ (decisionState s).snake 1) := by
  have hs := inv_of_reachable s h
  have hd := inv_decisionState s hs
  refine ⟨⟨hs.dir_unit, hs.no_reverse⟩, ⟨hd.dir_unit, hd.no_reverse⟩, fun nh d hr => ?_⟩
  obtain ⟨hnh, hocc, hdm⟩ := resolveHead_some (decisionState s) nh d hr
  refine ⟨?_, fun e => ?_⟩
  · rcases hdm with rfl | hdm
    · exact hd.dir_unit
    · exact hdm
  · have hneck := isOccupied_of_body (decisionState s) 1 (by have := hd.len_ge; omega)
    rw [← e, ← hnh, hocc] at hneck
    exact absurd hneck (by simp)

set_option maxRecDepth 1000000 in
theorem heading_never_reverses_witness :
    (demoState 24).direction = ⟨0, 1⟩ ∧ (demoState 24).snake 1 = ⟨11, 9⟩ ∧
    ((demoState 24).direction ∈ moves ∧
      nextPos (demoState 24) (demoState 24).direction ≠ (demoState 24).snake 1) ∧
    ((decisionState (demoState 24)).direction ∈ moves ∧
      nextPos (decisionState (demoState 24)) (decisionState (demoState 24)).direction
        ≠ (decisionState (demoState 24)).snake 1) ∧
    (∀ nh d, resolveHead (decisionState (demoState 24)) = some (nh, d) →
      d ∈ moves ∧ nextPos (decisionState (demoState 24)) d
        ≠ (decisionState (demoState 24)).snake 1) := by
  have h : (demoRun 24).isSome = true ∧ (demoState 24).direction = ⟨0, 1⟩ ∧
      (demoState 24).snake 1 = ⟨11, 9⟩ := by decide!
  exact ⟨h.2.1, h.2.2, heading_never_reverses (demoState 24) (reachable_demoState 24 h.1)⟩

/-- C10. Length invariant: in every reachable state `3 <= snakeLength <= 18`, and
`snakeLength <= 17` while the phase is PLAYING or EATING; so the incremented length
never reaches `MAX_SNAKE_LENGTH = 200` and the clamp to 199 never changes the length:
the growth of `moveSnake` is the plain increment. -/
theorem length_invariant (s : State) (h : Reachable s) :
    3 ≤ s.snakeLength ∧ s.snakeLength ≤ 18 ∧
    (s.gameState = GameState.PLAYING ∨ s.gameState = GameState.EATING →
      s.snakeLength ≤ 17) ∧
    (s.snakeLength + 1) % 256 < MAX_SNAKE_LENGTH ∧
    growLength s.snakeLength = s.snakeLength + 1 := by
  have hs := inv_of_reachable s h
  have h3 := hs.len_ge
  have h18 := hs.len_le
  refine ⟨h3, h18, fun hp => (hs.alive hp).1, ?_, growLength_small _ (by omega)⟩
  unfold MAX_SNAKE_LENGTH
  omega

set_option maxRecDepth 1000000 in
theorem length_invariant_witness :
    (demoState 711).gameState = GameState.GAME_OVER ∧
    (3 ≤ (demoState 711).snakeLength ∧ (demoState 711).snakeLength ≤ 18 ∧
      ((demoState 711).gameState = GameState.PLAYING ∨
        (demoState 711).gameState = GameState.EATING → (demoState 711).snakeLength ≤ 17) ∧
      ((demoState 711).snakeLength + 1) % 256 < MAX_SNAKE_LENGTH ∧
      growLength (demoState 711).snakeLength = (demoState 711).snakeLength + 1) := by
  have h : (demoRun 711).isSome = true ∧ (demoState 711).gameState = GameState.GAME_OVER := by
    decide!
  exact ⟨h.2, length_invariant (demoState 711) (reachable_demoState 711 h.1)⟩

/-- C11. Scenario C: from every state in the phase EATING with `animTimer = 0` (and
an 8-bit `moveDelay`), after each of the next 1, 2 and 3 ticks the phase is still
EATING, with `animTimer` equal to the number of ticks and `moveDelay` unchanged; after
the 4th tick the phase is PLAYING with `animTimer = 0`, and `moveDelay` is one less
exactly when it was above 5 and `snakeLength` is a multiple of 5, otherwise unchanged,
so it does not fall below 5 if it was at least 5; the snake, its length, the food
and the heading are unchanged throughout. When the state is reachable, `moveDelay`
is between 5 and 8 in it and in every state of the run from it. -/
theorem eating_phase (fuel : Nat → Nat) (vis : Nat → Nat → Bool) (s : State)
    (hg : s.gameState = GameState.EATING) (ha : s.animTimer = 0) (hmd : s.moveDelay < 256) :
    (∀ k, 1 ≤ k → k ≤ 3 → ∃ t, runWith fuel vis k s = some t ∧
      t.gameState = GameState.EATING ∧ t.animTimer = k ∧ t.moveDelay = s.moveDelay ∧
      SameBoard s t) ∧
    (∃ t, runWith fuel vis 4 s = some t ∧
      t.gameState = GameState.PLAYING ∧ t.animTimer = 0 ∧
      t.moveDelay = (if s.moveDelay > 5 ∧ s.snakeLength % 5 = 0 then s.moveDelay - 1
                     else s.moveDelay) ∧
      (5 ≤ s.moveDelay → 5 ≤ t.moveDelay) ∧
      SameBoard s t) ∧
    (Reachable s → ∀ k t, runWith fuel vis k s = some t →
      5 ≤ t.moveDelay ∧ t.moveDelay ≤ 8) := by
  have step : ∀ k, k ≤ 3 → ∃ t, runWith fuel vis k s = some t ∧
      t.gameState = GameState.EATING ∧ t.animTimer = k ∧ t.moveDelay = s.moveDelay ∧
      SameBoard s t := by
    intro k
    induction k with
    | zero => exact fun _ => ⟨s, rfl, hg, ha, rfl, rfl, rfl, rfl, rfl⟩
    | succ k ih =>
      intro hk
      obtain ⟨t, ht, tg, ta, tm, tb⟩ := ih (by omega)
      refine ⟨{ t with
        frameCounter := (t.frameCounter + 1) % 256
        animTimer := t.animTimer + 1 }, ?_, ?_⟩
      · rw [runWith_succ fuel vis k s t ht]
        exact loop_eating_count _ _ t tg (by omega)
      · exact ⟨tg, by show t.animTimer + 1 = k + 1; omega, tm, tb⟩
  refine ⟨fun k _ hk => step k hk, ?_, fun hr k t ht =>
    moveDelay_of_reachable t (reachable_runWith fuel vis k s t hr ht)⟩
  obtain ⟨t, ht, tg, ta, tm, tb1, tb2, tb3, tb4⟩ := step 3 (by omega)
  refine ⟨{ t with
    frameCounter := (t.frameCounter + 1) % 256
    gameState := GameState.PLAYING
    animTimer := 0
    moveDelay := if t.moveDelay > 5 ∧ t.snakeLength % 5 = 0 then t.moveDelay - 1
                 else t.moveDelay }, ?_, rfl, rfl, ?_, ?_, tb1, tb2, tb3, tb4⟩
  · rw [runWith_succ fuel vis 3 s t ht]
    exact loop_eating_last _ _ t tg ta (by omega)
  · show (if t.moveDelay > 5 ∧ t.snakeLength % 5 = 0 then t.moveDelay - 1 else t.moveDelay) = _
    rw [tm, tb2]
  · intro h5
    show 5 ≤ (if t.moveDelay > 5 ∧ t.snakeLength % 5 = 0 then t.moveDelay - 1 else t.moveDelay)
    rw [tm]
    split_ifs <;> omega

set_option maxRecDepth 1000000 in
theorem eating_phase_witness :
    (demoState 96).gameState = GameState.EATING ∧ (demoState 96).animTimer = 0 ∧
    (demoState 96).moveDelay = 8 ∧ (demoState 96).snakeLength = 5 ∧
    (∀ k, 1 ≤ k → k ≤ 3 → ∃ t, runWith (fun _ => 0) (fun _ _ => true) k (demoState 96) = some t ∧
      t.gameState = GameState.EATING ∧ t.animTimer = k ∧
      t.moveDelay = (demoState 96).moveDelay ∧ SameBoard (demoState 96) t) ∧
    (∃ t, runWith (fun _ => 0) (fun _ _ => true) 4 (demoState 96) = some t ∧
      t.gameState = GameState.PLAYING ∧ t.animTimer = 0 ∧
      t.moveDelay = (if (demoState 96).moveDelay > 5 ∧ (demoState 96).snakeLength % 5 = 0
                     then (demoState 96).moveDelay - 1 else (demoState 96).moveDelay) ∧
      (5 ≤ (demoState 96).moveDelay → 5 ≤ t.moveDelay) ∧
      SameBoard (demoState 96) t) ∧
    (Reachable (demoState 96) → ∀ k t,
      runWith (fun _ => 0) (fun _ _ => true) k (demoState 96) = some t →
      5 ≤ t.moveDelay ∧ t.moveDelay ≤ 8) := by
  have h : (demoState 96).gameState = GameState.EATING ∧ (demoState 96).animTimer = 0 ∧
      (demoState 96).moveDelay = 8 ∧ (demoState 96).snakeLength = 5 := by decide!
  exact ⟨h.1, h.2.1, h.2.2.1, h.2.2.2,
    eating_phase (fun _ => 0) (fun _ _ => true) (demoState 96) h.1 h.2.1
      (by rw [h.2.2.1]; norm_num)⟩

/-- C12. Scenario D: from every machine in the phase RESTARTING with `animTimer = 0`,
for `k = 0 .. 20` the run reaches after `k` ticks a machine in the phase RESTARTING
with `animTimer = k`; the next tick returns (given enough fuel when `k = 20`), and
whenever it returns every pixel of the frame buffer holds the colour `(0, 0, 2k)`,
so blue is 40 for `k = 20`. For `k < 20` the phase stays RESTARTING and `animTimer`
becomes `k + 1`; for `k = 20` (the 21st tick) the game is reinitialised: phase
PLAYING, snake (9,9), (8,9), (7,9) of length 3, heading (1,0), `moveDelay = 8`,
`frameCounter = 0`, `animTimer = 0`, every particle's life 0, and the food is a cell
drawn by the generator, in the interior and on none of the three segments. -/
theorem restarting_phase {F : Type} (ops : FloatOps F) (lib : Lib) (sim : Bool)
    (fuel clock : Nat → Nat) (m : Machine F)
    (hg : m.game.gameState = GameState.RESTARTING) (ha : m.game.animTimer = 0) :
    ∀ k, k ≤ 20 → ∃ mk, runMFrom ops lib sim fuel clock k m = some mk ∧
      mk.game.gameState = GameState.RESTARTING ∧ mk.game.animTimer = k ∧
      (∃ f m', loopM ops lib sim f (clock k) mk = some m') ∧
      ∀ f c m', loopM ops lib sim f c mk = some m' →
        (∀ p, p < NUM_LEDS → m'.leds p = ⟨0, 0, 2 * k⟩) ∧
        (k < 20 → m'.game.gameState = GameState.RESTARTING ∧ m'.game.animTimer = k + 1) ∧
        (k = 20 → m'.game.gameState = GameState.PLAYING ∧
          m'.game.snake 0 = ⟨9, 9⟩ ∧ m'.game.snake 1 = ⟨8, 9⟩ ∧ m'.game.snake 2 = ⟨7, 9⟩ ∧
          m'.game.snakeLength = 3 ∧ m'.game.direction = ⟨1, 0⟩ ∧ m'.game.moveDelay = 8 ∧
          m'.game.frameCounter = 0 ∧ m'.game.animTimer = 0 ∧
          (∀ i, i < MAX_PARTICLES → m'.game.life i = 0) ∧
          (∃ seed, m'.game.food = foodCell seed ∧ m'.game.rngSeed = lcg (lcg seed)) ∧
          Interior m'.game.food ∧ ∀ i, i < 3 → m'.game.snake i ≠ m'.game.food) := by
  have run : ∀ k, k ≤ 20 → ∃ mk, runMFrom ops lib sim fuel clock k m = some mk ∧
      mk.game.gameState = GameState.RESTARTING ∧ mk.game.animTimer = k := by
    intro k
    induction k with
    | zero => exact fun _ => ⟨m, rfl, hg, ha⟩
    | succ k ih =>
      intro hk
      obtain ⟨mk, hr, kg, ka⟩ := ih (by omega)
      refine ⟨{ mk with
        game := { mk.game with
          frameCounter := (mk.game.frameCounter + 1) % 256
          animTimer := mk.game.animTimer + 1 }
        leds := fill_solid mk.leds NUM_LEDS ⟨0, 0, toUInt8 ((mk.game.animTimer : Int) * 2)⟩ },
        ?_, kg, by show mk.game.animTimer + 1 = k + 1; omega⟩
      rw [runMFrom_succ ops lib sim fuel clock k m mk hr,
        loopM_restarting ops lib sim _ _ mk kg,
        restartingTick_count _ _ (by show mk.game.animTimer < 20; omega)]
      rfl
  intro k hk
  obtain ⟨mk, hr, kg, ka⟩ := run k hk
  have hc : toUInt8 ((mk.game.animTimer : Int) * 2) = 2 * k := by
    unfold toUInt8
    rw [ka]
    omega
  refine ⟨mk, hr, kg, ka, ?_, fun f c m' hm => ?_⟩
  · by_cases h20 : k < 20
    · refine ⟨0, ?_⟩
      rw [loopM_restarting ops lib sim _ _ mk kg,
        restartingTick_count _ _ (by show mk.game.animTimer < 20; omega)]
      exact ⟨_, rfl⟩
    · obtain ⟨f, s', hs⟩ := initSnake_total
        { mk.game with frameCounter := (mk.game.frameCounter + 1) % 256, animTimer := 21 }
      refine ⟨f, ?_⟩
      rw [loopM_restarting ops lib sim _ _ mk kg,
        restartingTick_last _ _ (by show mk.game.animTimer = 20; omega), hs]
      exact ⟨_, rfl⟩
  · rw [loopM_restarting ops lib sim _ _ mk kg, hc] at hm
    by_cases h20 : k < 20
    · rw [restartingTick_count _ _ (by show mk.game.animTimer < 20; omega)] at hm
      obtain rfl := Option.some.inj hm
      exact ⟨fun p hp => fill_solid_apply _ _ _ p hp,
        fun _ => ⟨kg, by show mk.game.animTimer + 1 = k + 1; omega⟩, fun h => by omega⟩
    · rw [restartingTick_last _ _ (by show mk.game.animTimer = 20; omega)] at hm
      simp only [Option.map_map, Option.map_eq_some'] at hm
      obtain ⟨s2, hs2, rfl⟩ := hm
      obtain ⟨seed, rfl, hfree⟩ := initSnake_spec _ _ s2 hs2
      refine ⟨fun p hp => fill_solid_apply _ _ _ p hp, fun h => absurd h h20, fun _ => ?_⟩
      refine ⟨rfl, rfl, rfl, rfl, rfl, rfl, rfl, rfl, rfl, fun i hi => ?_, ⟨seed, rfl, rfl⟩,
        foodCell_interior seed, hfree⟩
      show clearLife MAX_PARTICLES _ i = 0
      rw [clearLife_apply, if_pos hi]

set_option maxRecDepth 1000000 in
theorem restarting_phase_witness :
    restartMachine.game.gameState = GameState.RESTARTING ∧
    restartMachine.game.animTimer = 0 ∧
    ∃ mk, runMFrom demoOps demoLib true (fun _ => 4) (fun _ => 0) 20 restartMachine = some mk ∧
      mk.game.gameState = GameState.RESTARTING ∧ mk.game.animTimer = 20 ∧
      (∃ f m', loopM demoOps demoLib true f 0 mk = some m') ∧
      ∀ f c m', loopM demoOps demoLib true f c mk = some m' →
        (∀ p, p < NUM_LEDS → m'.leds p = ⟨0, 0, 2 * 20⟩) ∧
        (20 < 20 → m'.game.gameState = GameState.RESTARTING ∧ m'.game.animTimer = 20 + 1) ∧
        (20 = 20 → m'.game.gameState = GameState.PLAYING ∧
          m'.game.snake 0 = ⟨9, 9⟩ ∧ m'.game.snake 1 = ⟨8, 9⟩ ∧ m'.game.snake 2 = ⟨7, 9⟩ ∧
          m'.game.snakeLength = 3 ∧ m'.game.direction = ⟨1, 0⟩ ∧ m'.game.moveDelay = 8 ∧
          m'.game.frameCounter = 0 ∧ m'.game.animTimer = 0 ∧
          (∀ i, i < MAX_PARTICLES → m'.game.life i = 0) ∧
          (∃ seed, m'.game.food = foodCell seed ∧ m'.game.rngSeed = lcg (lcg seed)) ∧
          Interior m'.game.food ∧ ∀ i, i < 3 → m'.game.snake i ≠ m'.game.food) := by
  have h : restartMachine.game.gameState = GameState.RESTARTING ∧
      restartMachine.game.animTimer = 0 := by decide!
  exact ⟨h.1, h.2,
    restarting_phase demoOps demoLib true (fun _ => 4) (fun _ => 0) restartMachine h.1 h.2
      20 (le_refl 20)⟩

/-- C13. RNG range: for every generator state, `myRandom(b)` with `1 <= b <= 65535`
advances the state to `(state * 1103515245 + 12345) mod 2^32` masked to its low 31
bits (the remainder modulo `2^31`, again a 32-bit value) and returns the new state
modulo `b`, a value below `b`; and `myRandom(lo, hi)` with `lo < hi <= 65535` returns
a value `r` with `lo <= r < hi` after the same single advance of the state. -/
theorem rng_range (seed : Nat) :
    (∀ b, 1 ≤ b → b ≤ 65535 →
      (myRandom b seed).2 = ((seed * 1103515245 + 12345) % 4294967296) &&& 0x7FFFFFFF ∧
      (myRandom b seed).2 = (seed * 1103515245 + 12345) % 4294967296 % 2147483648 ∧
      (myRandom b seed).2 < 4294967296 ∧
      (myRandom b seed).1 = (myRandom b seed).2 % b ∧
      (myRandom b seed).1 < b) ∧
    (∀ lo hi, lo < hi → hi ≤ 65535 →
      lo ≤ (myRandom2 lo hi seed).1 ∧ (myRandom2 lo hi seed).1 < hi ∧
      (myRandom2 lo hi seed).2 = (myRandom (hi - lo) seed).2) := by
  refine ⟨fun b hb1 hb2 => ?_, fun lo hi h1 h2 => ?_⟩
  · have hm := lcg_eq_mod seed
    have hlt := lcg_lt seed
    rw [myRandom_snd, myRandom_fst b seed (by omega) (by omega)]
    refine ⟨rfl, ?_, by omega, rfl, Nat.mod_lt _ (by omega)⟩
    rw [hm]
    omega
  · obtain ⟨_, h3, h4, h5⟩ := myRandom2_range lo hi seed h1 h2
    exact ⟨h3, h4, by rw [h5, myRandom_snd]⟩

theorem rng_range_witness :
    (myRandom 5 1).1 = 0 ∧ (myRandom 5 1).2 = 1103527590 ∧ (myRandom2 1 18 1).1 = 12 ∧
    ((∀ b, 1 ≤ b → b ≤ 65535 →
      (myRandom b 1).2 = ((1 * 1103515245 + 12345) % 4294967296) &&& 0x7FFFFFFF ∧
      (myRandom b 1).2 = (1 * 1103515245 + 12345) % 4294967296 % 2147483648 ∧
      (myRandom b 1).2 < 4294967296 ∧
      (myRandom b 1).1 = (myRandom b 1).2 % b ∧
      (myRandom b 1).1 < b) ∧
    (∀ lo hi, lo < hi → hi ≤ 65535 →
      lo ≤ (myRandom2 lo hi 1).1 ∧ (myRandom2 lo hi 1).1 < hi ∧
      (myRandom2 lo hi 1).2 = (myRandom (hi - lo) 1).2)) :=
  ⟨by decide, by decide, by decide, rng_range 1⟩

/-- C14. Coordinate mapper: for both settings of `IS_SIMULATOR`, `XY` on the cells
`x < 19`, `y < 19` returns an index below `NUM_LEDS = 361`, is injective and reaches
every index below 361; and for every `(x, y)` with `x >= 19` or `y >= 19` it returns
the sentinel `NUM_LEDS`. -/
theorem xy_mapper (sim : Bool) :
    NUM_LEDS = 361 ∧
    (∀ x y, x < 19 → y < 19 → XY sim x y < NUM_LEDS) ∧
    (∀ x y x' y', x < 19 → y < 19 → x' < 19 → y' < 19 →
      XY sim x y = XY sim x' y' → x = x' ∧ y = y') ∧
    (∀ k, k < NUM_LEDS → ∃ x y, x < 19 ∧ y < 19 ∧ XY sim x y = k) ∧
    (∀ x y, x ≥ 19 ∨ y ≥ 19 → XY sim x y = NUM_LEDS) :=
  ⟨rfl, XY_lt sim, XY_inj sim, XY_surj sim, XY_sentinel sim⟩

/-- C15. Index safety: in every reachable state, every pixel index that `drawGame`
and `drawEatingEffect` write (wall, food, body, head and flash cells, for either
wiring and whatever the library routines and the clock return) is below
`NUM_LEDS = 361`, so `XY` never returns its sentinel there; and every index of
`snake[]` that `isOccupied`, `spawnFood`, `smartDirection`, `moveSnake` (whether or
not the food is eaten) and `drawGame` use is below `MAX_SNAKE_LENGTH = 200`, also in
the state in which `moveSnake` runs on a decision tick. -/
theorem index_safety (s : State) (h : Reachable s) :
    NUM_LEDS = 361 ∧ MAX_SNAKE_LENGTH = 200 ∧
    (∀ (lib : Lib) (sim : Bool) (clock : Nat) (w : Nat × CRGB),
      w ∈ drawGameWrites lib sim clock s ++ flashWrites sim s → w.1 < NUM_LEDS) ∧
    (∀ (ate : Bool) (i : Nat),
      i ∈ isOccupiedReads s ++ spawnFoodReads s ++ smartDirectionReads
        ++ moveSnakeAccesses s ate ++ drawGameReads s → i < MAX_SNAKE_LENGTH) ∧
    (∀ (ate : Bool) (i : Nat),
      i ∈ isOccupiedReads (decisionState s) ++ spawnFoodReads (decisionState s)
        ++ smartDirectionReads ++ moveSnakeAccesses (decisionState s) ate
        ++ drawGameReads (decisionState s) → i < MAX_SNAKE_LENGTH) := by
  have hs := inv_of_reachable s h
  have hd := inv_decisionState s hs
  have h3 := hs.len_ge
  have h18 := hs.len_le
  have d3 := hd.len_ge
  have d18 := hd.len_le
  refine ⟨rfl, rfl, fun lib sim clock w hw => ?_, fun ate i hi => ?_, fun ate i hi => ?_⟩
  · exact drawWrites_lt lib sim clock s (onBoard_of_interior _ hs.food_int)
      (fun i hi => onBoard_of_interior _ (hs.body i hi)) (by omega) w hw
  · have := snake_index_le s ate i (by omega) hi
    unfold MAX_SNAKE_LENGTH
    omega
  · have := snake_index_le (decisionState s) ate i (by omega) hi
    unfold MAX_SNAKE_LENGTH
    omega

set_option maxRecDepth 1000000 in
theorem index_safety_witness :
    Reachable (demoState 48) ∧ (demoState 48).snakeLength = 4 ∧
    (NUM_LEDS = 361 ∧ MAX_SNAKE_LENGTH = 200 ∧
    (∀ (lib : Lib) (sim : Bool) (clock : Nat) (w : Nat × CRGB),
      w ∈ drawGameWrites lib sim clock (demoState 48) ++ flashWrites sim (demoState 48) →
        w.1 < NUM_LEDS) ∧
    (∀ (ate : Bool) (i : Nat),
      i ∈ isOccupiedReads (demoState 48) ++ spawnFoodReads (demoState 48)
        ++ smartDirectionReads ++ moveSnakeAccesses (demoState 48) ate
        ++ drawGameReads (demoState 48) → i < MAX_SNAKE_LENGTH) ∧
    (∀ (ate : Bool) (i : Nat),
      i ∈ isOccupiedReads (decisionState (demoState 48))
        ++ spawnFoodReads (decisionState (demoState 48))
        ++ smartDirectionReads ++ moveSnakeAccesses (decisionState (demoState 48)) ate
        ++ drawGameReads (decisionState (demoState 48)) → i < MAX_SNAKE_LENGTH)) := by
  have h : (demoRun 48).isSome = true ∧ (demoState 48).snakeLength = 4 := by decide!
  exact ⟨reachable_demoState 48 h.1, h.2,
    index_safety (demoState 48) (reachable_demoState 48 h.1)⟩

/-- C16. Determinism: for every floating point arithmetic and every seed, some
sequence of fuel carries every run through every tick; and two runs from the same
seed that reach tick `n` hold there the same snake cells, snake length, food cell,
heading, phase, `animTimer`, `frameCounter` and `moveDelay` (and the same generator
state, particles and particle colours), whatever the fuel, the wiring, the library
routines and the wall-clock values that the food pulse of `drawGame` reads in each
of the two runs. -/
theorem determinism {F : Type} (ops : FloatOps F) (seed : Nat) :
    (∃ fuel : Nat → Nat, ∀ (lib : Lib) (sim : Bool) (clock : Nat → Nat) (n : Nat),
      (runM ops lib sim fuel clock seed n).isSome = true) ∧
    ∀ (lib1 lib2 : Lib) (sim1 sim2 : Bool) (fuel1 fuel2 clock1 clock2 : Nat → Nat) (n : Nat)
      (m1 m2 : Machine F),
      runM ops lib1 sim1 fuel1 clock1 seed n = some m1 →
      runM ops lib2 sim2 fuel2 clock2 seed n = some m2 →
      m1.game.snake = m2.game.snake ∧ m1.game.snakeLength = m2.game.snakeLength ∧
      m1.game.food = m2.game.food ∧ m1.game.direction = m2.game.direction ∧
      m1.game.gameState = m2.game.gameState ∧ m1.game.animTimer = m2.game.animTimer ∧
      m1.game.frameCounter = m2.game.frameCounter ∧ m1.game.moveDelay = m2.game.moveDelay ∧
      SameCore m1 m2 := by
  refine ⟨runM_total ops seed, fun lib1 lib2 sim1 sim2 fuel1 fuel2 clock1 clock2 n m1 m2 h1 h2 => ?_⟩
  have hc := runM_core ops lib1 lib2 sim1 sim2 fuel1 fuel2 clock1 clock2 seed n m1 m2 h1 h2
  have hg := hc.1
  exact ⟨by rw [hg], by rw [hg], by rw [hg], by rw [hg], by rw [hg], by rw [hg], by rw [hg],
    by rw [hg], hc⟩

set_option maxRecDepth 1000000 in
set_option maxHeartbeats 1000000 in
theorem determinism_witness :
    (runM demoOps demoLib true (fun _ => 4) (fun _ => 0) 1 720).map
      (fun m => (m.game.gameState, m.game.snakeLength, m.game.animTimer, m.game.life 0))
      = some (GameState.GAME_OVER, 18, 9, 228) ∧
    ∀ (lib2 : Lib) (sim2 : Bool) (fuel2 clock2 : Nat → Nat) (m1 m2 : Machine Int),
      runM demoOps demoLib true (fun _ => 4) (fun _ => 0) 1 720 = some m1 →
      runM demoOps lib2 sim2 fuel2 clock2 1 720 = some m2 →
      m1.game.snake = m2.game.snake ∧ m1.game.snakeLength = m2.game.snakeLength ∧
      m1.game.food = m2.game.food ∧ m1.game.direction = m2.game.direction ∧
      m1.game.gameState = m2.game.gameState ∧ m1.game.animTimer = m2.game.animTimer ∧
      m1.game.frameCounter = m2.game.frameCounter ∧ m1.game.moveDelay = m2.game.moveDelay ∧
      SameCore m1 m2 := by
  constructor
  · decide!
  · intro lib2 sim2 fuel2 clock2 m1 m2 h1 h2
    have key := (determinism demoOps 1).2 demoLib lib2 true sim2 (fun _ => 4) fuel2
      (fun _ => 0) clock2 720 m1 m2
    exact key h1 h2

/-- C17. Shift and grow: for a call of `moveSnake` from a state with
`1 <= snakeLength <= 16` whose collision check resolves the new head `h` (a cell
that is not occupied): if `h` is not the food cell, the call returns for every fuel,
the new body is `h` followed by the old segments `0 .. snakeLength - 2`, and the
length, the phase and the food are unchanged; if `h` is the food cell, the call
returns given enough fuel, and whenever it returns the new body is `h` followed by
all old segments `0 .. snakeLength - 1`, the length is one more, and the phase is
EATING with `animTimer = 0`. -/
theorem shift_and_grow (t : State) (h d : Point) (hlen1 : 1 ≤ t.snakeLength)
    (hlen16 : t.snakeLength ≤ 16) (hr : resolveHead t = some (h, d)) :
    isOccupied t h.x h.y = false ∧
    (h ≠ t.food → ∀ fuel, ∃ s', moveSnake fuel t = some s' ∧
      s'.snakeLength = t.snakeLength ∧ s'.snake 0 = h ∧
      (∀ i, 1 ≤ i → i < t.snakeLength → s'.snake i = t.snake (i - 1)) ∧
      s'.gameState = t.gameState ∧ s'.food = t.food) ∧
    (h = t.food →
      (∃ fuel s', moveSnake fuel t = some s') ∧
      ∀ fuel s', moveSnake fuel t = some s' →
        s'.snakeLength = t.snakeLength + 1 ∧ s'.snake 0 = h ∧
        (∀ i, 1 ≤ i → i ≤ t.snakeLength → s'.snake i = t.snake (i - 1)) ∧
        s'.gameState = GameState.EATING ∧ s'.animTimer = 0) := by
  have hg : growLength t.snakeLength = t.snakeLength + 1 := growLength_small _ (by omega)
  refine ⟨(resolveHead_some t h d hr).2.1, fun hne fuel => ?_, fun he => ⟨moveSnake_total t, ?_⟩⟩
  · refine ⟨_, moveSnake_move fuel t h d hr hne, rfl, ?_, fun i hi1 hi2 => ?_, rfl, rfl⟩
    · show Function.update (shiftSnake (t.snakeLength - 1) t.snake) 0 h 0 = h
      rw [Function.update_same]
    · show Function.update (shiftSnake (t.snakeLength - 1) t.snake) 0 h i = t.snake (i - 1)
      rw [update_shift_apply, if_neg (by omega), if_pos (by omega)]
  · intro fuel s' hm
    rw [moveSnake_eat fuel t h d hr he (by omega)] at hm
    obtain ⟨seed, rfl, _⟩ := spawnFood_spec fuel _ s' hm
    refine ⟨hg, ?_, fun i hi1 hi2 => ?_, rfl, rfl⟩
    · show Function.update (shiftSnake t.snakeLength t.snake) 0 h 0 = h
      rw [Function.update_same]
    · show Function.update (shiftSnake t.snakeLength t.snake) 0 h i = t.snake (i - 1)
      rw [update_shift_apply, if_neg (by omega), if_pos (by omega)]

set_option maxRecDepth 1000000 in
theorem shift_and_grow_witness :
    1 ≤ (decisionState (demoState 47)).snakeLength ∧
    (decisionState (demoState 47)).snakeLength ≤ 16 ∧
    resolveHead (decisionState (demoState 47)) = some (⟨12, 12⟩, ⟨0, 1⟩) ∧
    (decisionState (demoState 47)).food = ⟨12, 12⟩ ∧
    (isOccupied (decisionState (demoState 47)) 12 12 = false ∧
    ((⟨12, 12⟩ : Point) ≠ (decisionState (demoState 47)).food →
      ∀ fuel, ∃ s', moveSnake fuel (decisionState (demoState 47)) = some s' ∧
      s'.snakeLength = (decisionState (demoState 47)).snakeLength ∧ s'.snake 0 = ⟨12, 12⟩ ∧
      (∀ i, 1 ≤ i → i < (decisionState (demoState 47)).snakeLength →
        s'.snake i = (decisionState (demoState 47)).snake (i - 1)) ∧
      s'.gameState = (decisionState (demoState 47)).gameState ∧
      s'.food = (decisionState (demoState 47)).food) ∧
    ((⟨12, 12⟩ : Point) = (decisionState (demoState 47)).food →
      (∃ fuel s', moveSnake fuel (decisionState (demoState 47)) = some s') ∧
      ∀ fuel s', moveSnake fuel (decisionState (demoState 47)) = some s' →
        s'.snakeLength = (decisionState (demoState 47)).snakeLength + 1 ∧
        s'.snake 0 = ⟨12, 12⟩ ∧
        (∀ i, 1 ≤ i → i ≤ (decisionState (demoState 47)).snakeLength →
          s'.snake i = (decisionState (demoState 47)).snake (i - 1)) ∧
        s'.gameState = GameState.EATING ∧ s'.animTimer = 0)) := by
  have h : 1 ≤ (decisionState (demoState 47)).snakeLength ∧
      (decisionState (demoState 47)).snakeLength ≤ 16 ∧
      resolveHead (decisionState (demoState 47)) = some (⟨12, 12⟩, ⟨0, 1⟩) ∧
      (decisionState (demoState 47)).food = ⟨12, 12⟩ := by decide!
  exact ⟨h.1, h.2.1, h.2.2.1, h.2.2.2,
    shift_and_grow (decisionState (demoState 47)) ⟨12, 12⟩ ⟨0, 1⟩ h.1 h.2.1 h.2.2.1⟩

set_option maxRecDepth 1000000 in
/-- The claim C18 as stated fails on the win tick of the run with seed 1 (tick 711):
the snake of 17 segments eats the food at (15,8) and reaches 18 segments, but
afterwards index 0 still holds the old head (16,8), as index 1 does, and not the
eaten cell; the food is still (15,8), and the generator has not advanced since
`smartDirection`, so no food has been spawned. -/
theorem win_tick_counterexample :
    (demoState 710).gameState = GameState.PLAYING ∧ isDecision (demoState 710) ∧
    (demoState 710).snakeLength = 17 ∧ (demoState 710).snake 0 = ⟨16, 8⟩ ∧
    (demoState 710).food = ⟨15, 8⟩ ∧ resolvedHead (demoState 710) = some ⟨15, 8⟩ ∧
    (loop 0 (fun _ => true) (demoState 710)).map
        (fun s => (s.gameState, s.snakeLength, s.snake 0, s.snake 1, s.food,
          decide (s.rngSeed = (decisionState (demoState 710)).rngSeed)))
      = some (GameState.GAME_OVER, 18, ⟨16, 8⟩, ⟨16, 8⟩, ⟨15, 8⟩, true) := by
  decide!

/-- C18 (amended). Win tick: on the decision tick where a snake of 17 segments eats
the food, the tick returns for every fuel; afterwards the length is 18, the 17
previous segments are at the indices 1 to 17, the phase is GAME_OVER with
`animTimer = 0`, the heading is the resolved one, and no new food is spawned: the
food cell is unchanged and the generator stands where `smartDirection` left it. -/
theorem win_tick (fuel : Nat) (vis : Nat → Bool) (s : State)
    (hp : s.gameState = GameState.PLAYING) (hdec : isDecision s)
    (heat : resolvedHead s = some s.food) (hlen : s.snakeLength = 17) :
    ∃ s', loop fuel vis s = some s' ∧
      s'.gameState = GameState.GAME_OVER ∧ s'.animTimer = 0 ∧ s'.snakeLength = 18 ∧
      (∀ i, 1 ≤ i → i ≤ 17 → s'.snake i = s.snake (i - 1)) ∧
      s'.food = s.food ∧ s'.rngSeed = (decisionState s).rngSeed := by
  obtain ⟨f1, f2, f3, _⟩ := decisionState_frame s
  unfold resolvedHead at heat
  rw [Option.map_eq_some'] at heat
  obtain ⟨⟨nh, d⟩, hr, hnh⟩ := heat
  simp only at hnh
  have hg : growLength (decisionState s).snakeLength = 18 := by
    rw [f2, growLength_small _ (by omega)]
    omega
  refine ⟨{ decisionState s with
    direction := d
    gameState := GameState.GAME_OVER
    animTimer := 0
    snake := shiftSnake (decisionState s).snakeLength (decisionState s).snake
    snakeLength := growLength (decisionState s).snakeLength }, ?_, rfl, rfl, hg, ?_, f3, rfl⟩
  · rw [loop_playing fuel vis s hp, if_pos hdec]
    exact moveSnake_win fuel (decisionState s) nh d hr (by rw [f3]; exact hnh) (by omega)
  · intro i hi1 hi2
    show shiftSnake (decisionState s).snakeLength (decisionState s).snake i = s.snake (i - 1)
    rw [shiftSnake_apply, f1, f2, if_pos (by omega)]

set_option maxRecDepth 1000000 in
theorem win_tick_witness :
    ∃ s', loop 0 (fun _ => true) (demoState 710) = some s' ∧
      s'.gameState = GameState.GAME_OVER ∧ s'.animTimer = 0 ∧ s'.snakeLength = 18 ∧
      (∀ i, 1 ≤ i → i ≤ 17 → s'.snake i = (demoState 710).snake (i - 1)) ∧
      s'.food = (demoState 710).food ∧ s'.rngSeed = (decisionState (demoState 710)).rngSeed := by
  have h : (demoState 710).gameState = GameState.PLAYING ∧ isDecision (demoState 710) ∧
      resolvedHead (demoState 710) = some (demoState 710).food ∧
      (demoState 710).snakeLength = 17 := by decide!
  exact win_tick 0 (fun _ => true) (demoState 710) h.1 h.2.1 h.2.2.1 h.2.2.2

/-- C19. Particle life never wraps: the phase GAME_OVER is always entered with
`animTimer = 0`; from such a state it lasts exactly 61 ticks (GAME_OVER with
`animTimer = k` after `k <= 60` ticks, RESTARTING with `animTimer = 0` after the 61st),
and at the end of tick `k` the life of every particle `i < 50` is `lifeAt k i`: 252
after the first tick (255 less 3), 200 for the particles `i < 25` after tick 16 (the
secondary burst at `animTimer = 15`), and otherwise exactly 3 less than a tick
before, never below 1; so every life is still positive when the phase ends. -/
theorem particle_life :
    (∀ (fuel : Nat) (vis : Nat → Bool) (s s' : State), loop fuel vis s = some s' →
      s.gameState ≠ GameState.GAME_OVER → s'.gameState = GameState.GAME_OVER →
      s'.animTimer = 0) ∧
    (∀ (fuel : Nat → Nat) (vis : Nat → Nat → Bool) (s : State),
      s.gameState = GameState.GAME_OVER → s.animTimer = 0 →
      (∀ k, 1 ≤ k → k ≤ 60 → ∃ t, runWith fuel vis k s = some t ∧
        t.gameState = GameState.GAME_OVER ∧ t.animTimer = k ∧
        ∀ i, i < MAX_PARTICLES → t.life i = lifeAt k i) ∧
      (∃ t, runWith fuel vis 61 s = some t ∧
        t.gameState = GameState.RESTARTING ∧ t.animTimer = 0 ∧
        ∀ i, i < MAX_PARTICLES → t.life i = lifeAt 61 i ∧ 0 < t.life i)) ∧
    (∀ i, lifeAt 1 i = 252) ∧
    (∀ i, i < 25 → lifeAt 16 i = 200) ∧
    (∀ k i, 1 ≤ k → k ≤ 60 → ¬ (k = 15 ∧ i < 25) →
      lifeAt (k + 1) i + 3 = lifeAt k i ∧ 3 ≤ lifeAt k i) ∧
    (∀ k i, k ≤ 61 → 0 < lifeAt k i) := by
  refine ⟨game_over_entry, fun fuel vis s hg ha => ⟨fun k hk1 hk => ?_, ?_⟩, fun i => ?_,
    fun i hi => ?_, fun k i hk1 hk hb => ?_, lifeAt_pos⟩
  · obtain ⟨t, ht, tg, ta, tl, _, _⟩ := game_over_run fuel vis s hg ha k hk
    exact ⟨t, ht, tg, ta, tl hk1⟩
  · obtain ⟨t, ht, tg, ta, tl, _, _⟩ := game_over_run fuel vis s hg ha 60 (by omega)
    obtain ⟨u, hu, ug, ua, ul, _, _⟩ :=
      loop_game_over_tick (fuel 60) (vis 60) t 60 tg ta (by omega)
    refine ⟨u, ?_, by rw [ug, if_pos rfl], by rw [ua, if_pos rfl], fun i hi => ?_⟩
    · rw [runWith_succ fuel vis 60 s t ht, hu]
    · have e : u.life i = lifeAt 61 i := by
        rw [ul i hi]
        exact lifeAt_step 60 i (t.life i) (by omega) (fun _ => tl (by omega) i hi)
      exact ⟨e, by rw [e]; exact lifeAt_pos 61 i (by omega)⟩
  · rfl
  · unfold lifeAt
    rw [if_neg (by omega), if_pos hi]
  · have := lifeAt_succ k i hk1 hk hb
    have := lifeAt_pos (k + 1) i (by omega)
    omega

set_option maxRecDepth 1000000 in
theorem particle_life_witness :
    (demoState 711).gameState = GameState.GAME_OVER ∧ (demoState 711).animTimer = 0 ∧
    (runWith (fun _ => 0) (fun _ _ => true) 16 (demoState 711)).map
      (fun t => (t.animTimer, t.life 0, t.life 24, t.life 25, t.life 49))
      = some (16, 200, 200, 207, 207) ∧
    (∃ t, runWith (fun _ => 0) (fun _ _ => true) 61 (demoState 711) = some t ∧
      t.gameState = GameState.RESTARTING ∧ t.animTimer = 0 ∧
      ∀ i, i < MAX_PARTICLES → t.life i = lifeAt 61 i ∧ 0 < t.life i) := by
  have h : (demoState 711).gameState = GameState.GAME_OVER ∧ (demoState 711).animTimer = 0 ∧
      (runWith (fun _ => 0) (fun _ _ => true) 16 (demoState 711)).map
        (fun t => (t.animTimer, t.life 0, t.life 24, t.life 25, t.life 49))
        = some (16, 200, 200, 207, 207) := by decide!
  exact ⟨h.1, h.2.1, h.2.2,
    (particle_life.2.1 (fun _ => 0) (fun _ _ => true) (demoState 711) h.1 h.2.1).2⟩

/-- C20. The emergency escape is never effective: on a PLAYING decision tick from a
reachable state, if the cell ahead of the head is occupied after `smartDirection`
has run, then all four neighbours of the head are occupied, the emergency scan
finds nothing and the heading is the one before the tick; and in every case the
tick returns what the version of `moveSnake` without the emergency scan returns. -/
theorem emergency_never_effective (fuel : Nat) (vis : Nat → Bool) (s : State)
    (h : Reachable s) (hp : s.gameState = GameState.PLAYING) (hdec : isDecision s) :
    (isOccupied (decisionState s)
        (nextPos (decisionState s) (decisionState s).direction).x
        (nextPos (decisionState s) (decisionState s).direction).y = true →
      allBlocked (decisionState s) ∧ emergencyScan (decisionState s) moves = none ∧
      (decisionState s).direction = s.direction ∧
      loop fuel vis s = some { s with
        frameCounter := 0, gameState := GameState.GAME_OVER, animTimer := 0 }) ∧
    moveSnake fuel (decisionState s) = moveSnakeNoEscape fuel (decisionState s) ∧
    loop fuel vis s = moveSnakeNoEscape fuel (decisionState s) := by
  have hs := inv_of_reachable s h
  have key : isOccupied (decisionState s)
        (nextPos (decisionState s) (decisionState s).direction).x
        (nextPos (decisionState s) (decisionState s).direction).y = true →
      allBlocked (decisionState s) ∧ decisionState s = { s with frameCounter := 0 } := by
    intro hocc
    have hocc' : isOccupied (smartDirection { s with frameCounter := (s.frameCounter + 1) % 256 })
        (nextPos (smartDirection { s with frameCounter := (s.frameCounter + 1) % 256 })
          (smartDirection { s with frameCounter := (s.frameCounter + 1) % 256 }).direction).x
        (nextPos (smartDirection { s with frameCounter := (s.frameCounter + 1) % 256 })
          (smartDirection { s with frameCounter := (s.frameCounter + 1) % 256 }).direction).y
        = true := hocc
    obtain ⟨hb, hsd⟩ := blocked_after_smartDirection
      { s with frameCounter := (s.frameCounter + 1) % 256 } hs.len_ge hocc'
    have hds : decisionState s = { s with frameCounter := 0 } := by
      unfold decisionState
      rw [hsd]
    rw [hds]
    exact ⟨hb, rfl⟩
  have heq := moveSnake_eq_noEscape fuel (decisionState s) (fun hocc => (key hocc).1)
  refine ⟨fun hocc => ?_, heq, ?_⟩
  · obtain ⟨hb, hds⟩ := key hocc
    refine ⟨hb, (emergencyScan_none _ moves).mpr hb, by rw [hds], ?_⟩
    have hnone : resolveHead (decisionState s) = none := (resolveHead_none _).mpr ⟨hocc, hb⟩
    rw [loop_playing fuel vis s hp, if_pos hdec, moveSnake_blocked fuel _ hnone, hds]
  · rw [loop_playing fuel vis s hp, if_pos hdec, heq]

set_option maxRecDepth 1000000 in
theorem emergency_never_effective_witness :
    Reachable (trapState 1063) ∧ (trapState 1063).gameState = GameState.PLAYING ∧
    isDecision (trapState 1063) ∧ (trapState 1063).snakeLength = 16 ∧
    isOccupied (decisionState (trapState 1063))
      (nextPos (decisionState (trapState 1063)) (decisionState (trapState 1063)).direction).x
      (nextPos (decisionState (trapState 1063)) (decisionState (trapState 1063)).direction).y
      = true ∧
    ((isOccupied (decisionState (trapState 1063))
        (nextPos (decisionState (trapState 1063)) (decisionState (trapState 1063)).direction).x
        (nextPos (decisionState (trapState 1063)) (decisionState (trapState 1063)).direction).y
        = true →
      allBlocked (decisionState (trapState 1063)) ∧
      emergencyScan (decisionState (trapState 1063)) moves = none ∧
      (decisionState (trapState 1063)).direction = (trapState 1063).direction ∧
      loop 0 (fun _ => true) (trapState 1063) = some { trapState 1063 with
        frameCounter := 0, gameState := GameState.GAME_OVER, animTimer := 0 }) ∧
    moveSnake 0 (decisionState (trapState 1063))
      = moveSnakeNoEscape 0 (decisionState (trapState 1063)) ∧
    loop 0 (fun _ => true) (trapState 1063)
      = moveSnakeNoEscape 0 (decisionState (trapState 1063))) := by
  have h : (trapRun 1063).isSome = true ∧
      (trapState 1063).gameState = GameState.PLAYING ∧ isDecision (trapState 1063) ∧
      (trapState 1063).snakeLength = 16 ∧
      isOccupied (decisionState (trapState 1063))
        (nextPos (decisionState (trapState 1063)) (decisionState (trapState 1063)).direction).x
        (nextPos (decisionState (trapState 1063)) (decisionState (trapState 1063)).direction).y
        = true := by decide!
  exact ⟨reachable_trapState 1063 h.1, h.2.1, h.2.2.1, h.2.2.2.1, h.2.2.2.2,
    emergency_never_effective 0 (fun _ => true) (trapState 1063)
      (reachable_trapState 1063 h.1) h.2.1 h.2.2.1⟩

end Pixelate
